import Mathlib

/-!
# OpenCoreAnalysisKit: layout registry, consistency verifier and heap commands

A shallow embedding of

* the offset/size tables set by `LargeObjectSpace::Init`, `LargeObjectMapSpace::Init`,
  `FreeListSpace::Init` (`large_object_space.cpp`), `ImageHeader::Init28..Init34`
  (`image.cpp`) and `LinkMap::Init` (`link_map.cpp`);
* the CRC walk `EnvCommand::clocLoadCRC32` (`cmd_env.cpp`);
* the caches `LinkMap::GetAddrCache` / `GetNameCache` and `LinkMap::name` (`link_map.cpp`);
* `CommandManager::Execute` (`command_manager.cpp`) and the commands `print`
  (`cmd_print.cpp`), `search` (`cmd_search.cpp`) and `top` (`cmd_top.cpp`).

Conventions:

* the C++ globals `__X_offset__` / `__X_size__` are the fields of one explicit `Registry`
  value, and every `Init` is a function `Registry → Registry`;
* the two sources of a `LoadBlock` are total functions from byte offset to byte, as the code
  reads them through raw pointers;
* `uint64_t` values are naturals, reduced modulo `2^64` where the code can wrap; the `int`
  variables `count` and `k * 8` of the window loop are 32-bit two's complement (`toInt32`);
* what the command prints is a list of `Line`s, and `ScanState.crcCalls` counts the
  checksum computations;
* a command that can throw is a `Run`: the lines it wrote (`Out`) and either its value or the
  `InvalidAddressException` on its way up; members of a command object are a structure
  passed in and out; the values `getopt_long` returns are given as a list of options;
* the runtime the commands read (object walk, descriptors, heap objects, cleaners) is the
  structure `Android`, whose fields stand for code outside the files listed above.
-/

namespace OpenCore

/-! ## Layout registry -/

/-- Offset table of `art::gc::space::LargeObjectSpace`. -/
structure LargeObjectSpace_OffsetTable where
  lock_ : Nat
  num_bytes_allocated_ : Nat
  num_objects_allocated_ : Nat
  total_bytes_allocated_ : Nat
  total_objects_allocated_ : Nat
  begin_ : Nat
  end_ : Nat
  deriving DecidableEq

/-- Size table of `art::gc::space::LargeObjectSpace`. -/
structure LargeObjectSpace_SizeTable where
  THIS : Nat
  deriving DecidableEq

/-- Offset table of `art::gc::space::LargeObjectMapSpace`. -/
structure LargeObjectMapSpace_OffsetTable where
  large_objects_ : Nat
  deriving DecidableEq

/-- Size table of `art::gc::space::LargeObjectMapSpace`. -/
structure LargeObjectMapSpace_SizeTable where
  THIS : Nat
  deriving DecidableEq

/-- Offset table of `art::gc::space::FreeListSpace`. -/
structure FreeListSpace_OffsetTable where
  mem_map_ : Nat
  allocation_info_map_ : Nat
  allocation_info_ : Nat
  free_end_ : Nat
  free_blocks_ : Nat
  deriving DecidableEq

/-- Size table of `art::gc::space::FreeListSpace`. -/
structure FreeListSpace_SizeTable where
  THIS : Nat
  deriving DecidableEq

/-- Offset table of `art::ImageHeader`. -/
structure ImageHeader_OffsetTable where
  image_methods_ : Nat
  deriving DecidableEq

/-- Size table of `art::ImageHeader`. -/
structure ImageHeader_SizeTable where
  THIS : Nat
  deriving DecidableEq

/-- Offset table of `LinkMap`. -/
structure LinkMap_OffsetTable where
  l_addr : Nat
  l_name : Nat
  l_ld : Nat
  l_next : Nat
  l_prev : Nat
  deriving DecidableEq

/-- Size table of `LinkMap`. -/
structure LinkMap_SizeTable where
  THIS : Nat
  deriving DecidableEq

/-- The process-wide tables: one field per C++ global `__X_offset__` / `__X_size__`
defined in `large_object_space.cpp`, `image.cpp` and `link_map.cpp`. -/
structure Registry where
  __LargeObjectSpace_offset__ : LargeObjectSpace_OffsetTable
  __LargeObjectSpace_size__ : LargeObjectSpace_SizeTable
  __LargeObjectMapSpace_offset__ : LargeObjectMapSpace_OffsetTable
  __LargeObjectMapSpace_size__ : LargeObjectMapSpace_SizeTable
  __FreeListSpace_offset__ : FreeListSpace_OffsetTable
  __FreeListSpace_size__ : FreeListSpace_SizeTable
  __ImageHeader_offset__ : ImageHeader_OffsetTable
  __ImageHeader_size__ : ImageHeader_SizeTable
  __LinkMap_offset__ : LinkMap_OffsetTable
  __LinkMap_size__ : LinkMap_SizeTable
  deriving DecidableEq

/-- The registry at program start: C++ globals with static storage are zero-initialised. -/
def Registry.zero : Registry :=
  { __LargeObjectSpace_offset__ := ⟨0, 0, 0, 0, 0, 0, 0⟩
    __LargeObjectSpace_size__ := ⟨0⟩
    __LargeObjectMapSpace_offset__ := ⟨0⟩
    __LargeObjectMapSpace_size__ := ⟨0⟩
    __FreeListSpace_offset__ := ⟨0, 0, 0, 0, 0⟩
    __FreeListSpace_size__ := ⟨0⟩
    __ImageHeader_offset__ := ⟨0⟩
    __ImageHeader_size__ := ⟨0⟩
    __LinkMap_offset__ := ⟨0, 0, 0, 0, 0⟩
    __LinkMap_size__ := ⟨0⟩ }

/-- `LargeObjectSpace::Init`; `pointSize` is the value of `CoreApi::GetPointSize()`. -/
def LargeObjectSpace.Init (pointSize : Nat) (r : Registry) : Registry :=
  if pointSize = 64 then
    { r with
      __LargeObjectSpace_offset__ :=
        { lock_ := 304
          num_bytes_allocated_ := 344
          num_objects_allocated_ := 352
          total_bytes_allocated_ := 360
          total_objects_allocated_ := 368
          begin_ := 376
          end_ := 384 }
      __LargeObjectSpace_size__ := { THIS := 392 } }
  else
    { r with
      __LargeObjectSpace_offset__ :=
        { lock_ := 160
          num_bytes_allocated_ := 192
          num_objects_allocated_ := 200
          total_bytes_allocated_ := 208
          total_objects_allocated_ := 216
          begin_ := 224
          end_ := 228 }
      __LargeObjectSpace_size__ := { THIS := 232 } }

/-- `LargeObjectMapSpace::Init`. -/
def LargeObjectMapSpace.Init (pointSize : Nat) (r : Registry) : Registry :=
  if pointSize = 64 then
    { r with
      __LargeObjectMapSpace_offset__ := { large_objects_ := 392 }
      __LargeObjectMapSpace_size__ := { THIS := 416 } }
  else
    { r with
      __LargeObjectMapSpace_offset__ := { large_objects_ := 232 }
      __LargeObjectMapSpace_size__ := { THIS := 244 } }

/-- `FreeListSpace::Init`. -/
def FreeListSpace.Init (pointSize : Nat) (r : Registry) : Registry :=
  if pointSize = 64 then
    { r with
      __FreeListSpace_offset__ :=
        { mem_map_ := 392
          allocation_info_map_ := 464
          allocation_info_ := 536
          free_end_ := 544
          free_blocks_ := 552 }
      __FreeListSpace_size__ := { THIS := 576 } }
  else
    { r with
      __FreeListSpace_offset__ :=
        { mem_map_ := 232
          allocation_info_map_ := 272
          allocation_info_ := 312
          free_end_ := 316
          free_blocks_ := 320 }
      __FreeListSpace_size__ := { THIS := 332 } }

/-- `ImageHeader::Init28`. -/
def ImageHeader.Init28 (r : Registry) : Registry :=
  { r with
    __ImageHeader_offset__ := { image_methods_ := 152 }
    __ImageHeader_size__ := { THIS := 240 } }

/-- `ImageHeader::Init29`. -/
def ImageHeader.Init29 (r : Registry) : Registry :=
  { r with
    __ImageHeader_offset__ := { image_methods_ := 168 }
    __ImageHeader_size__ := { THIS := 256 } }

/-- `ImageHeader::Init31`. -/
def ImageHeader.Init31 (r : Registry) : Registry :=
  { r with
    __ImageHeader_offset__ := { image_methods_ := 160 }
    __ImageHeader_size__ := { THIS := 248 } }

/-- `ImageHeader::Init34`. -/
def ImageHeader.Init34 (r : Registry) : Registry :=
  { r with
    __ImageHeader_offset__ := { image_methods_ := 168 }
    __ImageHeader_size__ := { THIS := 256 } }

/-- `LinkMap::Init`: `cap = 64 / GetPointSize()` and every entry is a constant divided by
`cap` (unsigned 32-bit division; a zero `cap` is a division by zero in C++, Lean's `/`
yields 0 there, the two pointer widths 32 and 64 never reach it). -/
def LinkMap.Init (pointSize : Nat) (r : Registry) : Registry :=
  let cap := 64 / pointSize
  { r with
    __LinkMap_offset__ :=
      { l_addr := 0
        l_name := 8 / cap
        l_ld := 16 / cap
        l_next := 24 / cap
        l_prev := 32 / cap }
    __LinkMap_size__ := { THIS := 40 / cap } }

/-- Every field of a `LargeObjectSpace` offset table. -/
def LargeObjectSpace_OffsetTable.fields (t : LargeObjectSpace_OffsetTable) : List Nat :=
  [t.lock_, t.num_bytes_allocated_, t.num_objects_allocated_, t.total_bytes_allocated_,
    t.total_objects_allocated_, t.begin_, t.end_]

/-- Every field of a `LargeObjectMapSpace` offset table. -/
def LargeObjectMapSpace_OffsetTable.fields (t : LargeObjectMapSpace_OffsetTable) : List Nat :=
  [t.large_objects_]

/-- Every field of a `FreeListSpace` offset table. -/
def FreeListSpace_OffsetTable.fields (t : FreeListSpace_OffsetTable) : List Nat :=
  [t.mem_map_, t.allocation_info_map_, t.allocation_info_, t.free_end_, t.free_blocks_]

/-- Every field of an `ImageHeader` offset table. -/
def ImageHeader_OffsetTable.fields (t : ImageHeader_OffsetTable) : List Nat :=
  [t.image_methods_]

/-- Every field of a `LinkMap` offset table. -/
def LinkMap_OffsetTable.fields (t : LinkMap_OffsetTable) : List Nat :=
  [t.l_addr, t.l_name, t.l_ld, t.l_next, t.l_prev]

/-- All offsets of a table lie in `[0, size)`. -/
def offsetsWithin (fields : List Nat) (size : Nat) : Prop :=
  ∀ off ∈ fields, 0 ≤ off ∧ off < size

instance (fields : List Nat) (size : Nat) : Decidable (offsetsWithin fields size) := by
  unfold offsetsWithin; infer_instance

/-! ## Consistency verifier: `EnvCommand::clocLoadCRC32` -/

/-- One `uint8_t`. -/
abbrev Byte := Fin 256

/-- Modelled from the spec: `LinkMap::NiceSymbol` (declared in `common/link_map.h`, which is
not part of the sources at hand), the answer of a module's symbol resolver:
`{symbolName, startAddress, size}` or "not found". `valid` is `IsValid()`, `symbol` is
`GetSymbol()`, `offset` is `GetOffset()`, `size` is `GetSize()`. -/
structure NiceSymbol where
  symbol : String
  offset : Nat
  size : Nat
  valid : Bool
  deriving DecidableEq

/-- `LinkMap::NiceSymbol::Invalid()`; a default-constructed `NiceSymbol` is invalid too. -/
def NiceSymbol.Invalid : NiceSymbol := ⟨"", 0, 0, false⟩

/-- The two backing sources of a block, `LoadBlock::OPT_READ_OR` (bytes embedded in the
snapshot) and `LoadBlock::OPT_READ_MMAP` (bytes of the replayed file). -/
inductive ReadOpt where
  | OPT_READ_OR
  | OPT_READ_MMAP
  deriving DecidableEq

/-- Modelled from the spec: `LoadBlock` (declared in `api/core.h`, which is not part of the
sources at hand), with the accessors `clocLoadCRC32` uses. `orData i` and `mmapData i` are
the bytes at `begin(OPT_READ_OR) + i` and `begin(OPT_READ_MMAP) + i`: the code reads through
raw pointers without a bound, so the two are total functions (what lies behind the block is
whatever the function says). `handle` is `block->handle()`: `none` is the null handle, and
`some f` carries `f addr`, the symbol `NiceMethod(addr, symbol)` leaves in a `symbol` that
was invalid before the call. -/
structure LoadBlock where
  vaddr : Nat
  size : Nat
  realSize : Nat
  convertFlags : String
  name : String
  isMmapBlock : Bool
  isValidBlock : Bool
  orData : Nat → Byte
  mmapData : Nat → Byte
  handle : Option (Nat → NiceSymbol)

/-- `block->begin(opt)` seen as the memory behind the returned pointer. -/
def LoadBlock.begin (b : LoadBlock) : ReadOpt → Nat → Byte
  | .OPT_READ_OR => b.orData
  | .OPT_READ_MMAP => b.mmapData

/-- What `clocLoadCRC32` needs from its environment: `Utils::CRC32` (`base/utils.h`) as a
function of the bytes it is handed, and the value of `SIZEOF(Elfx_Ehdr)`, the size of the ELF
header in the active layout (52 or 64). Neither is part of the sources at hand. -/
structure Env where
  CRC32 : List Byte → Nat
  sizeofEhdr : Nat

/-- The `len` bytes at `ptr + off`, `ptr + off + 1`, ... -/
def bytesAt (mem : Nat → Byte) (off len : Nat) : List Byte :=
  (List.range len).map (fun i => mem (off + i))

/-- Modelled from the spec: `LoadBlock::GetCRC32(opt)` (not part of the sources at hand),
"a 32-bit cyclic redundancy checksum over the requested source", taken over the whole block:
the `size` bytes at `begin(opt)`. -/
def LoadBlock.GetCRC32 (env : Env) (b : LoadBlock) (opt : ReadOpt) : Nat :=
  env.CRC32 (bytesAt (b.begin opt) 0 b.size)

/-- Test `!memcmp(header->ident, ELFMAG, 4)`: the first four bytes are `\x7f E L F`. -/
def isElfMagic (mem : Nat → Byte) : Bool :=
  mem 0 == 0x7f && mem 1 == 0x45 && mem 2 == 0x4c && mem 3 == 0x46

/-- Lines 313-326: the pair `(or_crc, mmap_crc)`. When the replayed file starts with the ELF
magic both checksums skip the ELF header; the length `size() - SIZEOF(Elfx_Ehdr)` is an
unsigned 64-bit subtraction. -/
def blockChecksums (env : Env) (b : LoadBlock) : Nat × Nat :=
  if isElfMagic (b.begin .OPT_READ_MMAP) then
    (env.CRC32 (bytesAt (b.begin .OPT_READ_OR) env.sizeofEhdr
        ((b.size + 2 ^ 64 - env.sizeofEhdr) % 2 ^ 64)),
     env.CRC32 (bytesAt (b.begin .OPT_READ_MMAP) env.sizeofEhdr
        ((b.size + 2 ^ 64 - env.sizeofEhdr) % 2 ^ 64)))
  else
    (b.GetCRC32 env .OPT_READ_OR, b.GetCRC32 env .OPT_READ_MMAP)

/-- What `clocLoadCRC32` prints: `ENTER()`, the block line of lines 336-338, the symbol line
of line 359 and the window line of lines 362-366 (colours and the ASCII columns, which are
functions of the four words, are left out). -/
inductive Line where
  | enter
  | block (index : Int) (vaddr vend : Nat) (flags : String) (realSize : Nat) (name : String)
  | symbol (name : String)
  | window (current orv1 orv2 mmv1 mmv2 : Nat)
  deriving DecidableEq

/-- Value of a 64-bit integer converted to `int`: reduced modulo `2^32` into
`[-2^31, 2^31)`. Signed `int` arithmetic that overflows is taken to wrap the same way. -/
@[irreducible] def toInt32 (x : Int) : Int :=
  (x + 2 ^ 31) % 2 ^ 32 - 2 ^ 31

/-- `RoundUp(x, n)` of `base/macros.h` (not part of the sources at hand): `x` rounded up to
the next multiple of `n`. -/
def RoundUp (x n : Nat) : Nat :=
  (x + n - 1) / n * n

/-- The word `ptr[k]` of a `uint64_t*` (little-endian host): bytes `8k .. 8k+7`. -/
def readU64 (mem : Nat → Byte) (k : Nat) : Nat :=
  (mem (8 * k)).val + 256 * ((mem (8 * k + 1)).val + 256 * ((mem (8 * k + 2)).val
    + 256 * ((mem (8 * k + 3)).val + 256 * ((mem (8 * k + 4)).val
    + 256 * ((mem (8 * k + 5)).val + 256 * ((mem (8 * k + 6)).val
    + 256 * (mem (8 * k + 7)).val))))))

/-- Line 342: `int count = RoundUp(block->size() / 8, 2)`: the 64-bit value (an eighth of a
64-bit size, rounded up to even, does not wrap) converted to `int`. -/
def windowCount (b : LoadBlock) : Int :=
  toInt32 ((RoundUp (b.size / 8) 2 : Nat) : Int)

/-- Line 352: `uint64_t current = block->vaddr() + k * 8`, the product formed in `int`,
the sum in `uint64_t`. -/
def current (b : LoadBlock) (k : Nat) : Nat :=
  (((b.vaddr : Int) + toInt32 ((k : Int) * 8)) % 2 ^ 64).toNat

/-- Test of line 349 negated: the window of words `k`, `k + 1` differs between the sources. -/
def windowDiffers (b : LoadBlock) (k : Nat) : Bool :=
  !(readU64 (b.begin .OPT_READ_OR) k == readU64 (b.begin .OPT_READ_MMAP) k
    && readU64 (b.begin .OPT_READ_OR) (k + 1) == readU64 (b.begin .OPT_READ_MMAP) (k + 1))

/-- Test of lines 353-355: the symbol in hand does not cover `cur`. -/
def symbolStale (symbol : NiceSymbol) (cur : Nat) : Bool :=
  !symbol.valid || (decide (cur < symbol.offset)
    || decide (cur ≥ (symbol.offset + symbol.size) % 2 ^ 64))

/-- Lines 345-366, one turn of the loop at index `k` with `symbol` in hand: the symbol in
hand afterwards and the lines printed. -/
def windowStep (b : LoadBlock) (symbol : NiceSymbol) (k : Nat) : NiceSymbol × List Line :=
  if windowDiffers b k then
    let cur := current b k
    let r : NiceSymbol × List Line :=
      if symbolStale symbol cur then
        match b.handle with
        | some niceMethod =>
          let symbol1 := niceMethod cur
          (symbol1, if symbol1.valid then [Line.symbol symbol1.symbol] else [])
        | none => (symbol, [])
      else (symbol, [])
    (r.1, r.2 ++ [Line.window cur
      (readU64 (b.begin .OPT_READ_OR) k) (readU64 (b.begin .OPT_READ_OR) (k + 1))
      (readU64 (b.begin .OPT_READ_MMAP) k) (readU64 (b.begin .OPT_READ_MMAP) (k + 1))])
  else (symbol, [])

/-- The loop of lines 344-367 over the values `ks` of `k`, starting with `symbol` in hand:
the lines printed. -/
def windowLoop (b : LoadBlock) : List Nat → NiceSymbol → List Line
  | [], _ => []
  | k :: ks, symbol =>
    (windowStep b symbol k).2 ++ windowLoop b ks (windowStep b symbol k).1

/-- The values `k` takes in `for (int k = 0; k < count; k += 2)`: `0, 2, 4, ...` below
`count`, none when `count ≤ 0`. -/
def windowIndices (count : Int) : List Nat :=
  (List.range ((count.toNat + 1) / 2)).map (fun j => 2 * j)

/-- Lines 340-367, the second pass over one block: the lines it prints. -/
def windowPass (b : LoadBlock) : List Line :=
  windowLoop b (windowIndices (windowCount b)) NiceSymbol.Invalid

/-- The variables the callback of `clocLoadCRC32` captures by reference, `first` and `index`,
the lines printed so far, and `crcCalls`, a ghost counter of the checksums computed
(`Utils::CRC32` and `GetCRC32` calls). -/
structure ScanState where
  first : Bool
  index : Int
  crcCalls : Nat
  out : List Line
  deriving DecidableEq

/-- Lines 312-369: the body run for a block that passed the filters. `index` is already
incremented in `st`. -/
def checkBlock (env : Env) (st : ScanState) (b : LoadBlock) : ScanState :=
  let crc := blockChecksums env b
  let st1 := { st with crcCalls := st.crcCalls + 2 }
  if crc.1 ≠ crc.2 then
    { st1 with
      first := false
      out := (if !st1.first then st1.out ++ [Line.enter] else st1.out)
        ++ [Line.block st1.index b.vaddr ((b.vaddr + b.size) % 2 ^ 64) b.convertFlags
              b.realSize b.name]
        ++ windowPass b }
  else st1

/-- Lines 300-371: the callback handed to `ForeachLoadBlock`, as a state transformer; the
returned `Bool` is the callback's result (`false`: go on). `index` is an `int` in the source
and is not wrapped here: a traversal has far fewer than `2^31` blocks. -/
def callback (env : Env) (num : Int) (st : ScanState) (b : LoadBlock) : Bool × ScanState :=
  let cloc_all := num == 0
  let st1 := { st with index := st.index + 1 }
  if !cloc_all && num != st1.index then (false, st1)
  else if !b.isMmapBlock || !b.isValidBlock then (false, st1)
  else if cloc_all || num == st1.index then (false, checkBlock env st1 b)
  else (false, st1)

/-- Modelled from the spec: `CoreApi::ForeachLoadBlock` (not part of the sources at hand),
"a traversal of blocks in address order; `callback` may request early termination": the
blocks are handed to the callback in list order until it returns `true`. -/
def ForeachLoadBlock {σ : Type} (cb : σ → LoadBlock → Bool × σ) : List LoadBlock → σ → σ
  | [], st => st
  | b :: rest, st =>
    let r := cb st b
    if r.1 then r.2 else ForeachLoadBlock cb rest r.2

/-- Modelled from the spec: the part of `CoreApi` that `clocLoadCRC32` consults, `IsReady()`
and the blocks `ForeachLoadBlock` walks. -/
structure CoreApi where
  IsReady : Bool
  loads : List LoadBlock

/-- The state `clocLoadCRC32` starts from: `first = true`, `index = 0`, nothing printed. -/
def ScanState.init : ScanState := ⟨true, 0, 0, []⟩

/-- `EnvCommand::clocLoadCRC32(num)`: the final state of the walk (the function itself
returns 0 always). -/
def clocLoadCRC32 (env : Env) (core : CoreApi) (num : Int) : ScanState :=
  if !core.IsReady then ScanState.init
  else ForeachLoadBlock (callback env num) core.loads ScanState.init

/-- Address column of a window line. -/
def Line.address? : Line → Option Nat
  | .window cur .. => some cur
  | _ => none

/-- Address columns of the window lines among `lines`, in printing order: the findings. -/
def windowAddrs (lines : List Line) : List Nat :=
  lines.filterMap Line.address?

/-- The lines a step printed: what `after` holds behind the lines `before` held already. -/
def printedSince (before after : ScanState) : List Line :=
  after.out.drop before.out.length

/-- One bit of the reflected CRC-32 division (polynomial `0xEDB88320`). -/
def crc32Shift (c : Nat) : Nat :=
  if c % 2 = 1 then (c / 2) ^^^ 0xEDB88320 else c / 2

/-- One byte of the CRC-32 division: eight bit steps on the state xor-ed with the byte. -/
def crc32Update (c : Nat) (x : Byte) : Nat :=
  crc32Shift (crc32Shift (crc32Shift (crc32Shift (crc32Shift (crc32Shift (crc32Shift
    (crc32Shift (c ^^^ x.val))))))))

/-- Modelled from the spec: `Utils::CRC32` (`base/utils.cpp`, not part of the sources at
hand), "a 32-bit cyclic redundancy checksum": the standard CRC-32 (initial state and final
xor `0xFFFFFFFF`, reflected polynomial `0xEDB88320`). The theorems take the checksum as a
parameter of `Env`; this one instantiates it. -/
def CRC32 (bytes : List Byte) : Nat :=
  (bytes.foldl crc32Update 0xFFFFFFFF) ^^^ 0xFFFFFFFF

/-- A checksum tells apart two byte strings that differ in exactly one byte. -/
def SingleByteSensitive (crc : List Byte → Nat) : Prop :=
  ∀ (pre post : List Byte) (x y : Byte), x ≠ y → crc (pre ++ x :: post) ≠ crc (pre ++ y :: post)

/-- The sources of `b` differ in the byte at offset `off` of the block and in no other byte
of the block. -/
def differOnlyAt (b : LoadBlock) (off : Nat) : Prop :=
  off < b.size ∧ b.orData off ≠ b.mmapData off
    ∧ ∀ i, i < b.size → i ≠ off → b.orData i = b.mmapData i

instance (b : LoadBlock) (off : Nat) : Decidable (differOnlyAt b off) := by
  unfold differOnlyAt; infer_instance

/-- The callback, run on `b` from `st`, prints exactly one window line, and the 16 bytes
from its address on hold the byte at offset `off` of `b`. -/
def localizesByte (env : Env) (num : Int) (st : ScanState) (b : LoadBlock) (off : Nat) : Prop :=
  ∃ addr, windowAddrs (printedSince st (callback env num st b).2) = [addr]
    ∧ addr ≤ b.vaddr + off ∧ b.vaddr + off < addr + 16

/-- What the callback does to a block that is not checked: it counts it and nothing else. -/
def skipBlock (st : ScanState) : ScanState :=
  { st with index := st.index + 1 }

/-- What the callback does to a block the selector lets through: it counts it, and checks it
when it is file-backed and valid. -/
def visitBlock (env : Env) (st : ScanState) (b : LoadBlock) : ScanState :=
  if b.isMmapBlock && b.isValidBlock then checkBlock env (skipBlock st) b else skipBlock st

/-- The environment of a 64-bit target: the standard CRC-32 and the 64 bytes of `Elf64_Ehdr`. -/
def env64 : Env := ⟨CRC32, 64⟩

/-- An anonymous (not file-backed) 4 KiB block whose embedded bytes are all `0xAA`. -/
def anonBlock : LoadBlock :=
  { vaddr := 0x7000, size := 0x1000, realSize := 0x1000, convertFlags := "rw-", name := "",
    isMmapBlock := false, isValidBlock := true,
    orData := fun _ => 0xAA, mmapData := fun _ => 0, handle := none }

/-- A file-backed, valid 64-byte block whose two sources hold the same bytes. -/
def cleanBlock : LoadBlock :=
  { vaddr := 0x8000, size := 64, realSize := 64, convertFlags := "r-x", name := "/lib/a.so",
    isMmapBlock := true, isValidBlock := true,
    orData := fun i => Fin.ofNat i, mmapData := fun i => Fin.ofNat i, handle := none }

/-- The first bytes of an ELF file: the magic `\x7f E L F`, zero behind it. -/
def elfBytes (i : Nat) : Byte :=
  if i = 0 then 0x7f else if i = 1 then 0x45 else if i = 2 then 0x4c
  else if i = 3 then 0x46 else 0

/-- A file-backed, valid 128-byte block that starts a shared object: the replayed file holds
`elfBytes`, the snapshot the same bytes but for byte 8, inside the ELF header. -/
def elfBlock : LoadBlock :=
  { vaddr := 0x9000, size := 128, realSize := 128, convertFlags := "r--", name := "/lib/b.so",
    isMmapBlock := true, isValidBlock := true,
    orData := fun i => if i = 8 then 1 else elfBytes i, mmapData := elfBytes, handle := none }

/-- A file-backed, valid 64-byte block whose snapshot bytes differ from the file in byte 20 only. -/
def patchedBlock : LoadBlock :=
  { vaddr := 0xa000, size := 64, realSize := 64, convertFlags := "r-x", name := "/lib/c.so",
    isMmapBlock := true, isValidBlock := true,
    orData := fun i => if i = 20 then 0xCC else 0, mmapData := fun _ => 0, handle := none }

/-- A file-backed, valid 32-byte block whose two 16-byte windows both differ (bytes 0 and 16). -/
def adjacentBlock : LoadBlock :=
  { vaddr := 0xb000, size := 32, realSize := 32, convertFlags := "r-x", name := "/lib/d.so",
    isMmapBlock := true, isValidBlock := true,
    orData := fun i => if i = 0 ∨ i = 16 then 1 else 0, mmapData := fun _ => 0,
    handle := none }

/-- A file-backed, valid block of 16 GiB (`2^34` bytes) whose first byte differs. -/
def hugeBlock : LoadBlock :=
  { vaddr := 0x7000000000, size := 2 ^ 34, realSize := 2 ^ 34, convertFlags := "r--",
    name := "/data/big.bin", isMmapBlock := true, isValidBlock := true,
    orData := fun i => if i = 0 then 1 else 0, mmapData := fun _ => 0, handle := none }

/-- A file-backed, valid block of 2 GiB + 16 bytes at `0x100000000` that starts a shared
object: the replayed file holds `elfBytes`, the snapshot the same bytes but for byte 8 (in
the first 16-byte window, inside the ELF header) and byte `2^31` (in the last window). -/
def wrapBlock : LoadBlock :=
  { vaddr := 0x100000000, size := 2 ^ 31 + 16, realSize := 2 ^ 31 + 16, convertFlags := "r-x",
    name := "/data/big.so", isMmapBlock := true, isValidBlock := true,
    orData := fun i => if i = 8 ∨ i = 2 ^ 31 then 1 else elfBytes i, mmapData := elfBytes,
    handle := none }

/-- For each 16-byte window of the block, in address order, whether it differs between the
two sources. -/
def differFlags (b : LoadBlock) : List Bool :=
  (List.range (b.size / 16)).map (fun j => windowDiffers b (2 * j))

/-- Number of maximal runs of consecutive `true` in a list of flags (each run is counted at
its last element). -/
def runCount : List Bool → Nat
  | [] => 0
  | [x] => if x then 1 else 0
  | x :: y :: rest => (if x && !y then 1 else 0) + runCount (y :: rest)

/-- The tables of every structure kind but `ImageHeader` are the same in `r` and `r1`. -/
def nonImageTablesEq (r r1 : Registry) : Prop :=
  r1.__LinkMap_offset__ = r.__LinkMap_offset__
  ∧ r1.__LinkMap_size__ = r.__LinkMap_size__
  ∧ r1.__LargeObjectSpace_offset__ = r.__LargeObjectSpace_offset__
  ∧ r1.__LargeObjectSpace_size__ = r.__LargeObjectSpace_size__
  ∧ r1.__LargeObjectMapSpace_offset__ = r.__LargeObjectMapSpace_offset__
  ∧ r1.__LargeObjectMapSpace_size__ = r.__LargeObjectMapSpace_size__
  ∧ r1.__FreeListSpace_offset__ = r.__FreeListSpace_offset__
  ∧ r1.__FreeListSpace_size__ = r.__FreeListSpace_size__

instance (r r1 : Registry) : Decidable (nonImageTablesEq r r1) := by
  unfold nonImageTablesEq; infer_instance

/-! ## Typed memory references: `LinkMap::GetAddrCache`, `LinkMap::GetNameCache` -/

/-- Modelled from the spec: `CoreApi::FindLoadBlock(vaddr, check)` (not part of the sources
at hand), "the unique LoadBlock whose range contains `address`, or `NotMapped`"; with
`check` only a valid block is returned. -/
def CoreApi.FindLoadBlock (core : CoreApi) (vaddr : Nat) (check : Bool) : Option LoadBlock :=
  match core.loads.find? (fun b => decide (b.vaddr ≤ vaddr) && decide (vaddr < b.vaddr + b.size)) with
  | some b => if check && !b.isValidBlock then none else some b
  | none => none

/-- Modelled from the spec: `api::MemoryRef` (`api/memory_ref.h`, not part of the sources at
hand), "a (virtual address, structure kind) pair": `Ptr` is `Ptr()`, `Block` is `Block()`,
the block the address was resolved to by `Prepare`, `none` when it was not resolved. -/
structure MemoryRef where
  Ptr : Nat
  Block : Option LoadBlock

/-- Modelled from the spec: assignment of a raw address to a `MemoryRef` ("construction from
a raw address binds a structure kind but performs no I/O"): the address, not resolved. -/
def MemoryRef.ofPtr (ptr : Nat) : MemoryRef := ⟨ptr, none⟩

/-- Modelled from the spec: `MemoryRef::Prepare(check)`, which resolves the address to its
block. -/
def MemoryRef.Prepare (core : CoreApi) (ref : MemoryRef) (check : Bool) : MemoryRef :=
  { ref with Block := core.FindLoadBlock ref.Ptr check }

/-- A `LinkMap` reference: its address, the values its accessors `l_addr()` and `l_name()`
read from the snapshot (the snapshot is read-only, so they are fixed), its two caches, and two
ghost counters: `fieldReads` counts the calls of `l_addr()` / `l_name()`, `prepares` the
calls of `Prepare`. -/
structure LinkMap where
  Ptr : Nat
  l_addr : Nat
  l_name : Nat
  addr_cache : MemoryRef
  name_cache : MemoryRef
  fieldReads : Nat
  prepares : Nat

/-- A `LinkMap` reference as constructed: both caches null, nothing read yet. -/
def LinkMap.ofPtr (ptr l_addr l_name : Nat) : LinkMap :=
  ⟨ptr, l_addr, l_name, MemoryRef.ofPtr 0, MemoryRef.ofPtr 0, 0, 0⟩

/-- `LinkMap::GetAddrCache`: the reference after the call; the returned `MemoryRef&` is its
`addr_cache`. -/
def LinkMap.GetAddrCache (core : CoreApi) (self : LinkMap) : LinkMap :=
  if self.addr_cache.Ptr = 0 then
    { self with
      addr_cache := (MemoryRef.ofPtr self.l_addr).Prepare core false
      fieldReads := self.fieldReads + 1
      prepares := self.prepares + 1 }
  else self

/-- `LinkMap::GetNameCache`: the reference after the call; the returned `MemoryRef&` is its
`name_cache`. -/
def LinkMap.GetNameCache (core : CoreApi) (self : LinkMap) : LinkMap :=
  if self.name_cache.Ptr = 0 then
    { self with
      name_cache := (MemoryRef.ofPtr self.l_name).Prepare core false
      fieldReads := self.fieldReads + 1
      prepares := self.prepares + 1 }
  else self

/-! ## Commands: output, exceptions, `CommandManager` -/

/-- Modelled from the spec: `InvalidAddressException` (`common/exception.h`, not part of the
sources at hand), the error of a read from an address the snapshot does not hold, with the
message `what()` returns. -/
structure InvalidAddressException where
  what : String
  deriving DecidableEq

/-- Modelled from the spec: `Android::BasicType` (`android.h`, not part of the sources at
hand) as `PrintField` switches on it; `other` stands for every value without a `case`. -/
inductive BasicType where
  | basic_byte
  | basic_boolean
  | basic_char
  | basic_short
  | basic_int
  | basic_float
  | basic_object
  | basic_double
  | basic_long
  | other
  deriving DecidableEq

/-- What the commands write to the standard output, one constructor per `LOGI` / `std::cout`
statement (colours left out, numbers kept as numbers), in the order written.
`FreopenWrite` and `CloseWriteout` mark the redirection of the output to a file and its
end. -/
inductive Out where
  | cout (s : String)
  | FreopenWrite (path : String)
  | CloseWriteout
  | topHeader (show_ : Bool)
  | topTotal (total_count total_shallow total_native : Nat)
  | topRule
  | topRow (ptr alloc_count shallow_size native_size : Nat) (name : String)
  | searchMatch (total_objects ptr : Nat) (descriptor : String)
  | printSize (real_size : Nat)
  | printPadding (padding : Nat)
  | printObjectName (descriptor : String)
  | printExtends (descriptor : String)
  | printField (width offset : Nat) (flags type name : String)
  | printValue (type : BasicType) (raw : Nat)
  | printString (s : String)
  | printBracket (s : String)
  deriving DecidableEq

/-- What a piece of code did: the lines it wrote, in order, and how it ended: with a value,
or with an `InvalidAddressException` on its way up. -/
structure Run (α : Type) where
  out : List Out
  res : Except InvalidAddressException α

/-- A step that writes nothing and returns `a`. -/
def Run.pure {α : Type} (a : α) : Run α := ⟨[], .ok a⟩

/-- Sequencing: `f` runs when `x` returned; an exception of `x` skips it. What `x` wrote
stays written either way. -/
def Run.bind {α β : Type} (x : Run α) (f : α → Run β) : Run β :=
  match x.res with
  | .ok a => ⟨x.out ++ (f a).out, (f a).res⟩
  | .error e => ⟨x.out, .error e⟩

instance : Monad Run where
  pure := Run.pure
  bind := Run.bind

/-- `LOGI(...)` / `std::cout << ...`: one line written. -/
def LOGI (line : Out) : Run Unit := ⟨[line], .ok ()⟩

/-- A read of snapshot memory: its value, or the exception it throws. -/
def Run.read {α : Type} (x : Except InvalidAddressException α) : Run α := ⟨[], x⟩

/-- Block `try { x } catch (InvalidAddressException e) { handler e }`. -/
def Run.tryCatch {α : Type} (x : Run α) (handler : InvalidAddressException → Run α) : Run α :=
  match x.res with
  | .ok _ => x
  | .error e => ⟨x.out ++ (handler e).out, (handler e).res⟩

/-- A loop `for (x : xs) body(x)` whose body never asks to stop. -/
def Run.forEach {α : Type} (body : α → Run Unit) : List α → Run Unit
  | [] => Run.pure ()
  | x :: xs => Run.bind (body x) (fun _ => Run.forEach body xs)

/-- `Command` (`command.h`): the name, the shortcut (empty for the one-argument constructor),
and `main(argc, argv)`. `mainWithCallback` is `ShellCommand::main(argc, argv, callback)`, the
overload `Execute` calls on the command found under `"shell"`; the callback is given as the
run it performs when invoked. -/
structure Command where
  get : String
  shortcut : String
  main : Int → List String → Run Int
  mainWithCallback : Int → List String → Run Int → Run Int

/-- `CommandManager`: the inline and the extension commands, in registration order. -/
structure CommandManager where
  inline_commands : List Command
  extend_commands : List Command

/-- `CommandManager::ForeachCommand`: the commands in the order the callback sees them. -/
def CommandManager.ForeachCommand (mgr : CommandManager) : List Command :=
  mgr.inline_commands ++ mgr.extend_commands

/-- `CommandManager::FindCommand`: `result` is overwritten by every command whose name or
shortcut equals `cmd`. -/
def CommandManager.FindCommand (mgr : CommandManager) (cmd : String) : Option Command :=
  mgr.ForeachCommand.foldl
    (fun result command =>
      if command.get == cmd || command.shortcut == cmd then some command else result)
    none

/-- The locals `shell`, `position`, `writeout` of `Execute`. -/
structure ExecuteLocals where
  shell : Option Command
  position : Int
  writeout : Bool

/-- The loop of lines 56-72 of `command_manager.cpp` from index `i` on (`fuel` bounds the
number of turns; `argc - i` turns are enough). -/
def CommandManager.scanArgs (mgr : CommandManager) (argc : Int) (argv : List String) :
    Nat → Nat → ExecuteLocals → ExecuteLocals
  | 0, _, locals => locals
  | fuel + 1, i, locals =>
    if (i : Int) < argc then
      if argv.getD i "" = "|" then
        if ((i + 1 : Nat) : Int) < argc then
          { locals with shell := mgr.FindCommand "shell", position := ((i + 1 : Nat) : Int) }
        else mgr.scanArgs argc argv fuel (i + 2) locals
      else if argv.getD i "" = ">" then
        if ((i + 1 : Nat) : Int) < argc then
          { locals with position := ((i + 1 : Nat) : Int), writeout := true }
        else mgr.scanArgs argc argv fuel (i + 2) locals
      else mgr.scanArgs argc argv fuel (i + 1) locals
    else locals

/-- `CommandManager::Execute(cmd, argc, argv)`; `cmd = none` is the null pointer. The locals
`shell` and `position` are declared without an initial value (lines 53-54): `shell0` and
`position0` are the values they happen to hold. -/
def CommandManager.Execute (mgr : CommandManager) (shell0 : Option Command) (position0 : Int)
    (cmd : Option String) (argc : Int) (argv : List String) : Run Int :=
  match cmd with
  | none => Run.pure (-1)
  | some cmd =>
    match mgr.FindCommand cmd with
    | some command =>
      Run.bind
        (Run.tryCatch
          (let locals := mgr.scanArgs argc argv argc.toNat 0 ⟨shell0, position0, false⟩
           match locals.shell with
           | some shell =>
             Run.bind
               (shell.mainWithCallback (argc - locals.position)
                 (argv.drop locals.position.toNat)
                 (command.main (locals.position - 1) argv))
               (fun _ => Run.pure (some 0))
           | none =>
             Run.bind
               (if locals.writeout then
                  Run.bind (LOGI (Out.FreopenWrite (argv.getD locals.position.toNat "")))
                    (fun _ => Run.bind (command.main (locals.position - 1) argv)
                      (fun _ => LOGI Out.CloseWriteout))
                else Run.pure ())
               (fun _ => Run.bind (command.main argc argv) (fun r => Run.pure (some r))))
          (fun e => Run.bind (LOGI (Out.cout e.what)) (fun _ => Run.pure none)))
        (fun returned =>
          match returned with
          | some r => Run.pure r
          | none => Run.pure 0)
    | none => Run.bind (LOGI (Out.cout "Not found command.")) (fun _ => Run.pure 0)

/-! ## The managed-object view the commands read -/

/-- Modelled from the spec: `art::mirror::Object` as an object walk hands it to a callback
(the ART object model is not part of the sources at hand): the address `Ptr()`, `IsClass()`,
the address of `GetClass()` and `SizeOf()`. -/
structure Object where
  Ptr : Nat
  IsClass : Bool
  GetClass : Nat
  SizeOf : Nat
  deriving DecidableEq

/-- Modelled from the spec: `sun::misc::Cleaner` as the native-size pass of `top` reads it
(not part of the sources at hand). Each read yields a value or throws
`InvalidAddressException`; addresses are 0 when null. `klass` is `referent.klass()`,
`getRegistry` is `thunk.getRegistry()`, `getSize` is `registry.getSize()`. -/
structure CleanerView where
  getReferent : Except InvalidAddressException Nat
  klass : Except InvalidAddressException Nat
  getThunk : Except InvalidAddressException Nat
  getRegistry : Except InvalidAddressException Nat
  getSize : Except InvalidAddressException Nat

/-- Modelled from the spec: `art::ArtField` as `PrintField` reads it (not part of the sources
at hand). `access_flags` is `PrettyJavaAccessFlags(access_flags())`, `type` is what
`SignatureToBasicTypeAndSize(GetTypeDescriptor(), &size, "B")` returns, and `Get object` is
the raw value `GetByte` ... `GetLong`, `GetObj` read from the object at address `object`, or
the exception the read throws. -/
structure ArtField where
  offset : Nat
  access_flags : String
  PrettyTypeDescriptor : String
  GetName : String
  type : BasicType
  Get : Nat → Except InvalidAddressException Nat

/-- Modelled from the spec: `art::mirror::Class` as the print command reads it (not part of
the sources at hand); `fields` are the fields `Android::ForeachInstanceField` visits, in its
order. -/
structure Class where
  Ptr : Nat
  PrettyDescriptor : String
  IsStringClass : Bool
  IsArrayClass : Bool
  fields : List ArtField

/-- Modelled from the spec: the object at an address as the print command reads it (not part
of the sources at hand). `supers` are the classes `GetSuperClass()` yields from `GetClass()`
upwards until it yields null (a class hierarchy is finite). `SizeOf`, `IsString`,
`GetLength`, `ToModifiedUtf8` read snapshot memory and may throw. `DumpClass` and `DumpArray`
are the runs of `PrintCommand::DumpClass` / `DumpArray` on the object, which are not
unfolded here. -/
structure HeapObject where
  Ptr : Nat
  SizeOf : Except InvalidAddressException Nat
  IsClass : Bool
  GetClass : Class
  supers : List Class
  IsString : Except InvalidAddressException Bool
  GetLength : Except InvalidAddressException Nat
  ToModifiedUtf8 : Except InvalidAddressException String
  DumpClass : Run Unit
  DumpArray : Run Unit

/-- Modelled from the spec: what the commands `top`, `search` and `print` consult besides
their arguments (none of it is part of the sources at hand): the loaded core, `IsSdkReady()`,
the objects `Android::ForeachObjects(callback, flag, check)` visits in order (`check = none`
when the argument is left to its default), `PrettyDescriptor()` of the class at an address,
`java::lang::Object::instanceof`, `std::regex_search(descriptor, std::regex(pattern))`, the
cleaner and heap views, `Utils::atol`, `atoi`, `Utils::ToHex`, and the constants
`art::kObjectAlignment`, `OFFSET(String, count_)`, `Android::EACH_*_OBJECTS` and
`SearchCommand::SEARCH_*`. -/
structure Android where
  core : CoreApi
  IsSdkReady : Bool
  ForeachObjects : Nat → Option Bool → List Object
  PrettyDescriptor : Nat → String
  instanceof : Nat → String → Bool
  regex_search : String → String → Bool
  Cleaner : Nat → CleanerView
  heap : Nat → HeapObject
  atol : String → Nat
  atoi : String → Int
  ToHex : Nat → String
  kObjectAlignment : Nat
  OFFSET_String_count_ : Nat
  EACH_APP_OBJECTS : Nat
  EACH_ZYGOTE_OBJECTS : Nat
  EACH_IMAGE_OBJECTS : Nat
  EACH_FAKE_OBJECTS : Nat
  SEARCH_OBJECT : Nat
  SEARCH_CLASS : Nat

/-! ## `PrintCommand` -/

/-- The loop of `PrintCommand::FormatSize`: `do { current /= 0xF; ++num; } while (current)`
(`fuel` bounds the turns). -/
def PrintCommand.FormatSize.loop : Nat → Nat → Nat → Nat
  | 0, _, num => num
  | fuel + 1, current, num =>
    if current / 0xF ≠ 0 then PrintCommand.FormatSize.loop fuel (current / 0xF) (num + 1)
    else num + 1

/-- `PrintCommand::FormatSize`: the field width `num` of the format `"    [0x%0<num>x] %s%s %s"`
(a 64-bit size needs at most 17 turns). -/
def PrintCommand.FormatSize (size : Nat) : Nat :=
  PrintCommand.FormatSize.loop 64 size 0

/-- `PrintCommand::PrintField(format, clazz, object, field)`; `format` is given by its
width. The header is written before the value is read. -/
def PrintCommand.PrintField (env : Android) (format : Nat) (clazz : Class)
    (object : HeapObject) (field : ArtField) : Run Unit := do
  LOGI (Out.printField format field.offset field.access_flags field.PrettyTypeDescriptor
    field.GetName)
  match field.type with
  | .basic_byte =>
    let v ← Run.read (field.Get object.Ptr)
    LOGI (Out.printValue .basic_byte v)
  | .basic_boolean =>
    let v ← Run.read (field.Get object.Ptr)
    LOGI (Out.printValue .basic_boolean v)
  | .basic_char =>
    let v ← Run.read (field.Get object.Ptr)
    LOGI (Out.printValue .basic_char v)
  | .basic_short =>
    let v ← Run.read (field.Get object.Ptr)
    LOGI (Out.printValue .basic_short v)
  | .basic_int =>
    if field.offset = env.OFFSET_String_count_ ∧ clazz.IsStringClass = true then
      let v ← Run.read object.GetLength
      LOGI (Out.printValue .basic_int v)
    else
      let v ← Run.read (field.Get object.Ptr)
      LOGI (Out.printValue .basic_int v)
  | .basic_float =>
    let v ← Run.read (field.Get object.Ptr)
    LOGI (Out.printValue .basic_float v)
  | .basic_object =>
    let tmp ← Run.read (field.Get object.Ptr)
    let isString ← if tmp ≠ 0 then Run.read (env.heap tmp).IsString else Run.pure false
    if isString then
      let s ← Run.read (env.heap tmp).ToModifiedUtf8
      LOGI (Out.printString s)
    else
      LOGI (Out.printValue .basic_object tmp)
  | .basic_double =>
    let v ← Run.read (field.Get object.Ptr)
    LOGI (Out.printValue .basic_double v)
  | .basic_long =>
    let v ← Run.read (field.Get object.Ptr)
    LOGI (Out.printValue .basic_long v)
  | .other => Run.pure ()

/-- One turn of the `do ... while` of `PrintCommand::DumpInstance` for the class `super`
(`clazz` is the class of the object). -/
def PrintCommand.DumpInstance.turn (env : Android) (format : Nat) (object : HeapObject)
    (clazz super : Class) : Run Unit := do
  if clazz.Ptr ≠ super.Ptr then LOGI (Out.printExtends super.PrettyDescriptor)
  Run.forEach (PrintCommand.PrintField env format super object) super.fields
  if super.IsStringClass then
    let length ← Run.read object.GetLength
    if length ≠ 0 then
      let s ← Run.read object.ToModifiedUtf8
      LOGI (Out.printBracket s)

/-- `PrintCommand::DumpInstance`: the loop runs for the class of the object and then for
every superclass. -/
def PrintCommand.DumpInstance (env : Android) (object : HeapObject) : Run Unit := do
  let clazz := object.GetClass
  LOGI (Out.printObjectName clazz.PrettyDescriptor)
  let size ← Run.read object.SizeOf
  let format := PrintCommand.FormatSize size
  Run.forEach (PrintCommand.DumpInstance.turn env format object clazz) (clazz :: object.supers)

/-- `PrintCommand::DumpObject`. -/
def PrintCommand.DumpObject (env : Android) (object : HeapObject) : Run Unit := do
  let size ← Run.read object.SizeOf
  let real_size := RoundUp size env.kObjectAlignment
  LOGI (Out.printSize real_size)
  if size ≠ real_size then LOGI (Out.printPadding (real_size - size))
  let clazz := object.GetClass
  if clazz.Ptr ≠ 0 then
    if object.IsClass then object.DumpClass
    else if clazz.IsArrayClass then object.DumpArray
    else PrintCommand.DumpInstance env object

/-- `PrintCommand::main`: the `getopt_long` loop only sets the locals `binary`, `reference`
and `deep`, which nothing reads; the object dumped is the one at `Utils::atol(argv[0])`. -/
def PrintCommand.main (env : Android) (argc : Int) (argv : List String) : Run Int :=
  if !env.core.IsReady || !env.IsSdkReady || argc == 0 then Run.pure 0
  else do
    PrintCommand.DumpObject env (env.heap (env.atol (argv.getD 0 "")))
    pure 0

/-- Modelled from the spec: the print command as registered (`cmd_print.h` is not part of the
sources at hand): name `print`, shortcut `p` (`Usage: print|p object`). It is not the shell
command, so its `mainWithCallback` is never meant to be called; it is given the behaviour of
`main`. -/
def PrintCommand.command (env : Android) : Command :=
  { get := "print", shortcut := "p", main := PrintCommand.main env,
    mainWithCallback := fun argc argv _ => PrintCommand.main env argc argv }

/-! ## `SearchCommand` -/

/-- Modelled from the spec: the members of `SearchCommand` (`cmd_search.h` is not part of the
sources at hand; these are the members `cmd_search.cpp` uses). They live as long as the
command object, across invocations. -/
structure SearchCommand where
  type_flag : Nat
  each_flag : Nat
  regex : Bool
  show_ : Bool
  format_hex : Bool
  instof : Bool
  total_objects : Nat
  deriving DecidableEq

/-- What `getopt_long` returns in `SearchCommand::main`, one constructor per `case` label:
`'o'`, `'c'`, `'r'`, `'s'`, `'p'`, `'i'`, `'x'`, `0` (`--app`), `1` (`--zygote`),
`2` (`--image`), `3` (`--fake`); `unknown` is any other value. -/
inductive SearchOpt where
  | o
  | c
  | r
  | s
  | p
  | i
  | x
  | app
  | zygote
  | image
  | fake
  | unknown
  deriving DecidableEq

/-- The `switch (opt)` of `SearchCommand::main`, lines 60-96. -/
def SearchCommand.onOption (env : Android) (self : SearchCommand) :
    SearchOpt → SearchCommand
  | .o => { self with type_flag := self.type_flag ||| env.SEARCH_OBJECT }
  | .c => { self with type_flag := self.type_flag ||| env.SEARCH_CLASS }
  | .r => { self with regex := true, instof := false }
  | .s => { self with show_ := true }
  | .p => { self with show_ := true }
  | .i => { self with regex := false, instof := true }
  | .x => { self with format_hex := true }
  | .app => { self with each_flag := self.each_flag ||| env.EACH_APP_OBJECTS }
  | .zygote => { self with each_flag := self.each_flag ||| env.EACH_ZYGOTE_OBJECTS }
  | .image => { self with each_flag := self.each_flag ||| env.EACH_IMAGE_OBJECTS }
  | .fake => { self with each_flag := self.each_flag ||| env.EACH_FAKE_OBJECTS }
  | .unknown => self

/-- Lines 53-108 of `SearchCommand::main`: the members once the options `opts` (the values
`getopt_long` returns, in order) are taken in and the defaults applied. `instof` is not among
the members reset at line 53-57. -/
def SearchCommand.parse (env : Android) (self : SearchCommand) (opts : List SearchOpt) :
    SearchCommand :=
  let self1 := opts.foldl (SearchCommand.onOption env)
    { self with type_flag := 0, each_flag := 0, regex := false, show_ := false,
                format_hex := false }
  let self2 := { self1 with total_objects := 0 }
  let self3 :=
    if self2.type_flag = 0 then
      { self2 with type_flag := env.SEARCH_OBJECT ||| env.SEARCH_CLASS }
    else self2
  if self3.each_flag = 0 then
    { self3 with each_flag := 0 ||| env.EACH_APP_OBJECTS ||| env.EACH_ZYGOTE_OBJECTS
                   ||| env.EACH_IMAGE_OBJECTS ||| env.EACH_FAKE_OBJECTS }
  else self3

/-- The address of `thiz` in `SearchObjects`: the object itself when it is a class, its class
otherwise. -/
def SearchCommand.thiz (object : Object) : Nat :=
  if object.IsClass then object.Ptr else object.GetClass

/-- The test of lines 131-133 of `cmd_search.cpp`. -/
def SearchCommand.matches (env : Android) (self : SearchCommand) (classsname : String)
    (object : Object) : Bool :=
  (self.regex && env.regex_search (env.PrettyDescriptor (SearchCommand.thiz object)) classsname)
    || env.PrettyDescriptor (SearchCommand.thiz object) == classsname
    || (self.instof && env.instanceof object.Ptr classsname)

/-- The call `CommandManager::Execute(argv[0], argc, argv)` of lines 138-148: `argv` is
`{"p", ToHex(object.Ptr()), ""}` with `argc = 2`, or `{"p", ToHex(object.Ptr()), "--hex"}`
with `argc = 3` under `format_hex`. -/
def SearchCommand.executePrint (env : Android) (mgr : CommandManager)
    (shell0 : Option Command) (position0 : Int) (self : SearchCommand) (object : Object) :
    Run Int :=
  if self.format_hex then
    mgr.Execute shell0 position0 (some "p") 3 ["p", env.ToHex object.Ptr, "--hex"]
  else
    mgr.Execute shell0 position0 (some "p") 2 ["p", env.ToHex object.Ptr, ""]

/-- `SearchCommand::SearchObjects(classsname, object)`: the run, which returns the members
afterwards (`total_objects` is the only one it changes); the `bool` it returns is always
`false`. -/
def SearchCommand.SearchObjects (env : Android) (mgr : CommandManager)
    (shell0 : Option Command) (position0 : Int) (self : SearchCommand) (classsname : String)
    (object : Object) : Run SearchCommand :=
  let mask := if object.IsClass then env.SEARCH_CLASS else env.SEARCH_OBJECT
  if self.type_flag &&& mask = 0 then Run.pure self
  else if SearchCommand.matches env self classsname object then do
    let self1 := { self with total_objects := self.total_objects + 1 }
    LOGI (Out.searchMatch self1.total_objects object.Ptr
      (env.PrettyDescriptor (SearchCommand.thiz object)))
    if self1.show_ then
      let _ ← SearchCommand.executePrint env mgr shell0 position0 self1 object
    pure self1
  else Run.pure self

/-- The walk `Android::ForeachObjects(callback, each_flag, false)` of line 112 over the
objects `objects`, the members threaded through. -/
def SearchCommand.walk (env : Android) (mgr : CommandManager) (shell0 : Option Command)
    (position0 : Int) (classsname : String) : List Object → SearchCommand → Run SearchCommand
  | [], self => Run.pure self
  | object :: rest, self =>
    Run.bind (SearchCommand.SearchObjects env mgr shell0 position0 self classsname object)
      (fun self1 => SearchCommand.walk env mgr shell0 position0 classsname rest self1)

/-- `SearchCommand::main`: `opts` are the values `getopt_long` returns for `argv`, in order,
and `classname` is `argv[optind]`. -/
def SearchCommand.main (env : Android) (mgr : CommandManager) (shell0 : Option Command)
    (position0 : Int) (self : SearchCommand) (argc : Int) (opts : List SearchOpt)
    (classname : String) : Run Int :=
  if !env.core.IsReady || !env.IsSdkReady || !(decide (argc > 1)) then Run.pure 0
  else
    Run.bind
      (SearchCommand.walk env mgr shell0 position0 classname
        (env.ForeachObjects (SearchCommand.parse env self opts).each_flag (some false))
        (SearchCommand.parse env self opts))
      (fun _ => Run.pure 0)

/-! ## `TopCommand` -/

/-- A 64-bit unsigned value after an addition: `uint64_t` arithmetic wraps. -/
def wrap64 (n : Nat) : Nat := n % 2 ^ 64

/-- Modelled from the spec: `TopCommand::Pair` (`cmd_top.h` is not part of the sources at
hand): the three 64-bit counters of a class. -/
structure TopCommand.Pair where
  alloc_count : Nat
  shallow_size : Nat
  native_size : Nat
  deriving DecidableEq

/-- Modelled from the spec: the values of `TopCommand::order` (`cmd_top.h` is not part of the
sources at hand). -/
inductive TopCommand.Order where
  | ORDERBY_ALLOC
  | ORDERBY_SHALLOW
  | ORDERBY_NATIVE
  deriving DecidableEq

/-- Modelled from the spec: the members of `TopCommand` (`cmd_top.h` is not part of the
sources at hand; these are the members `cmd_top.cpp` uses). -/
structure TopCommand where
  num : Int
  order : TopCommand.Order
  show_ : Bool
  flag : Nat
  deriving DecidableEq

/-- The `std::map<art::mirror::Class, TopCommand::Pair>` of `TopCommand::main`: the entries
in iteration order, which is ascending key order; a class is compared by its address. -/
abbrev ClassMap := List (Nat × TopCommand.Pair)

/-- `classes.find(key)`: the mapped value, `none` for `classes.end()`. -/
def ClassMap.find (key : Nat) : ClassMap → Option TopCommand.Pair
  | [] => none
  | (k, pair) :: rest => if k = key then some pair else ClassMap.find key rest

/-- `classes.insert({key, pair})`: the entry is put at its place in key order; a key that is
present keeps its value. -/
def ClassMap.insert (key : Nat) (pair : TopCommand.Pair) : ClassMap → ClassMap
  | [] => [(key, pair)]
  | (k, p) :: rest =>
    if key < k then (key, pair) :: (k, p) :: rest
    else if key = k then (k, p) :: rest
    else (k, p) :: ClassMap.insert key pair rest

/-- A write through `it->second` where `it = classes.find(key)`: the value of the entry is
replaced by `f` of it. -/
def ClassMap.modify (key : Nat) (f : TopCommand.Pair → TopCommand.Pair) : ClassMap → ClassMap
  | [] => []
  | (k, p) :: rest =>
    if k = key then (k, f p) :: rest else (k, p) :: ClassMap.modify key f rest

/-- `classes.erase(key)`. -/
def ClassMap.erase (key : Nat) : ClassMap → ClassMap
  | [] => []
  | (k, p) :: rest => if k = key then rest else (k, p) :: ClassMap.erase key rest

/-- What `getopt_long` returns in `TopCommand::main`, one constructor per `case` label:
`'a'`, `'s'`, `'n'`, `'d'`, `0` (`--app`), `1` (`--zygote`), `2` (`--image`); `unknown` is
any other value. -/
inductive TopOpt where
  | a
  | s
  | n
  | d
  | app
  | zygote
  | image
  | unknown
  deriving DecidableEq

/-- The `switch (opt)` of `TopCommand::main`, lines 58-80. -/
def TopCommand.onOption (env : Android) (self : TopCommand) : TopOpt → TopCommand
  | .a => { self with order := .ORDERBY_ALLOC }
  | .s => { self with order := .ORDERBY_SHALLOW }
  | .n => { self with order := .ORDERBY_NATIVE }
  | .d => { self with show_ := true }
  | .app => { self with flag := self.flag ||| env.EACH_APP_OBJECTS }
  | .zygote => { self with flag := self.flag ||| env.EACH_ZYGOTE_OBJECTS }
  | .image => { self with flag := self.flag ||| env.EACH_IMAGE_OBJECTS }
  | .unknown => self

/-- Lines 39-87 of `TopCommand::main`: the members once `argv[1]` and the options `opts` (the
values `getopt_long` returns, in order) are taken in. `flag` keeps the value it had. -/
def TopCommand.parse (env : Android) (self : TopCommand) (argv : List String)
    (opts : List TopOpt) : TopCommand :=
  let self1 := opts.foldl (TopCommand.onOption env)
    { self with num := env.atoi (argv.getD 1 ""), order := .ORDERBY_ALLOC, show_ := false }
  if self1.flag = 0 then
    { self1 with flag := 0 ||| env.EACH_APP_OBJECTS ||| env.EACH_ZYGOTE_OBJECTS
                   ||| env.EACH_IMAGE_OBJECTS }
  else self1

/-- The locals the grouping callback of `TopCommand::main` captures by reference: the map,
the address of the class `cleaner` (0 while not found) and the vector `cleaners`. -/
structure TopCommand.Grouping where
  classes : ClassMap
  cleaner : Nat
  cleaners : List Object
  deriving DecidableEq

/-- Lines 88-90: the locals before the walk. -/
def TopCommand.Grouping.init : TopCommand.Grouping := ⟨[], 0, []⟩

/-- Lines 96-103 of the callback: the cleaner bookkeeping. -/
def TopCommand.noteCleaner (env : Android) (st : TopCommand.Grouping) (object : Object) :
    TopCommand.Grouping :=
  if st.cleaner = 0 then
    if env.PrettyDescriptor object.GetClass = "sun.misc.Cleaner" then
      { st with cleaner := object.GetClass, cleaners := st.cleaners ++ [object] }
    else st
  else if st.cleaner = object.GetClass then
    { st with cleaners := st.cleaners ++ [object] }
  else st

/-- The callback of lines 91-119: the locals after it ran on `object` (it returns `false`
always). -/
def TopCommand.callback (env : Android) (st : TopCommand.Grouping) (object : Object) :
    TopCommand.Grouping :=
  if object.IsClass then st
  else
    let st1 := TopCommand.noteCleaner env st object
    match ClassMap.find object.GetClass st1.classes with
    | none =>
      { st1 with classes :=
          ClassMap.insert object.GetClass ⟨1, object.SizeOf, 0⟩ st1.classes }
    | some _ =>
      { st1 with classes :=
          (ClassMap.modify object.GetClass
            (fun pair =>
              ⟨wrap64 (pair.alloc_count + 1), wrap64 (pair.shallow_size + object.SizeOf),
                pair.native_size⟩)
            st1.classes) }

/-- Line 120: `Android::ForeachObjects(callback, flag)` over the objects `objects`, from the
initial locals. -/
def TopCommand.group (env : Android) (objects : List Object) : TopCommand.Grouping :=
  objects.foldl (TopCommand.callback env) TopCommand.Grouping.init

/-- The `try` block of lines 141-152 for one cleaner whose referent has an entry under
`klass`: the map afterwards, or the exception thrown inside the block. -/
def TopCommand.addNative (cleaner : CleanerView) (klass : Nat) (classes : ClassMap) :
    Except InvalidAddressException ClassMap :=
  match cleaner.getThunk with
  | .error e => .error e
  | .ok thunk =>
    if thunk = 0 then .ok classes
    else
      match cleaner.getRegistry with
      | .error e => .error e
      | .ok registry =>
        if registry = 0 then .ok classes
        else
          match cleaner.getSize with
          | .error e => .error e
          | .ok size =>
            .ok (ClassMap.modify klass
              (fun pair =>
                ⟨pair.alloc_count, pair.shallow_size, wrap64 (pair.native_size + size)⟩)
              classes)

/-- One turn of the loop of lines 130-153 for the cleaner object `object`: the map afterwards,
or the exception that leaves the loop. `getReferent()` and `referent.klass()` stand before
the `try`; the `catch` swallows what the block throws. -/
def TopCommand.nativeStep (env : Android) (classes : ClassMap) (object : Object) :
    Except InvalidAddressException ClassMap :=
  match (env.Cleaner object.Ptr).getReferent with
  | .error e => .error e
  | .ok referent =>
    if referent = 0 then .ok classes
    else
      match (env.Cleaner object.Ptr).klass with
      | .error e => .error e
      | .ok klass =>
        match ClassMap.find klass classes with
        | none => .ok classes
        | some _ =>
          match TopCommand.addNative (env.Cleaner object.Ptr) klass classes with
          | .ok classes1 => .ok classes1
          | .error _ => .ok classes

/-- The loop of lines 130-153 over the vector `cleaners`. -/
def TopCommand.nativePass (env : Android) : List Object → ClassMap →
    Except InvalidAddressException ClassMap
  | [], classes => .ok classes
  | object :: rest, classes =>
    match TopCommand.nativeStep env classes object with
    | .ok classes1 => TopCommand.nativePass env rest classes1
    | .error e => .error e

/-- The three totals of lines 155-166, in the order `total_count`, `total_shallow`,
`total_native`. -/
structure TopCommand.Totals where
  total_count : Nat
  total_shallow : Nat
  total_native : Nat
  deriving DecidableEq

/-- The loop of lines 159-166. -/
def TopCommand.totals (classes : ClassMap) : TopCommand.Totals :=
  classes.foldl
    (fun t value =>
      { total_count := wrap64 (t.total_count + value.2.alloc_count),
        total_shallow := wrap64 (t.total_shallow + value.2.shallow_size),
        total_native := wrap64 (t.total_native + value.2.native_size) })
    ⟨0, 0, 0⟩

/-- The `switch (order)` of lines 177-196 for one entry `value`: the new
`(cur_max_thiz, cur_max_pair)`. -/
def TopCommand.pick (order : TopCommand.Order) (cur value : Nat × TopCommand.Pair) :
    Nat × TopCommand.Pair :=
  match order with
  | .ORDERBY_ALLOC => if value.2.alloc_count ≥ cur.2.alloc_count then value else cur
  | .ORDERBY_SHALLOW => if value.2.shallow_size ≥ cur.2.shallow_size then value else cur
  | .ORDERBY_NATIVE => if value.2.native_size ≥ cur.2.native_size then value else cur

/-- The inner loop of lines 173-197 from `cur_max_thiz = 0`, `cur_max_pair = {0, 0, 0}`. -/
def TopCommand.curMax (order : TopCommand.Order) (classes : ClassMap) : Nat × TopCommand.Pair :=
  classes.foldl (TopCommand.pick order) (0, ⟨0, 0, 0⟩)

/-- The loop of lines 172-210 with `turns` turns left (`num - i`): the rows printed, as
`(cur_max_thiz, cur_max_pair)`, in order. -/
def TopCommand.rows (order : TopCommand.Order) : Nat → ClassMap → List (Nat × TopCommand.Pair)
  | 0, _ => []
  | turns + 1, classes =>
    if (TopCommand.curMax order classes).1 = 0 then []
    else
      TopCommand.curMax order classes
        :: TopCommand.rows order turns (ClassMap.erase (TopCommand.curMax order classes).1 classes)

/-- The line of lines 202-205 for one row. -/
def TopCommand.rowLine (env : Android) (self : TopCommand) (row : Nat × TopCommand.Pair) : Out :=
  Out.topRow row.1 row.2.alloc_count row.2.shallow_size row.2.native_size
    (if self.show_ then env.PrettyDescriptor row.1 else "")

/-- Lines 155-210 of `TopCommand::main`: the TOTAL row, the rule and the rows, for the map
`classes` the two passes left. -/
def TopCommand.table (env : Android) (self : TopCommand) (classes : ClassMap) : List Out :=
  [Out.topTotal (TopCommand.totals classes).total_count (TopCommand.totals classes).total_shallow
      (TopCommand.totals classes).total_native,
    Out.topRule]
  ++ (TopCommand.rows self.order self.num.toNat classes).map (TopCommand.rowLine env self)

/-- `TopCommand::main`: `opts` are the values `getopt_long` returns for `argv`, in order.
The header is written before the native-size pass; an exception of that pass leaves `main`. -/
def TopCommand.main (env : Android) (self : TopCommand) (argc : Int) (argv : List String)
    (opts : List TopOpt) : Run Int :=
  if !env.core.IsReady || !env.IsSdkReady || !(decide (argc > 1)) then Run.pure 0
  else
    let self1 := TopCommand.parse env self argv opts
    let g := TopCommand.group env (env.ForeachObjects self1.flag none)
    Run.bind (LOGI (Out.topHeader self1.show_)) (fun _ =>
      Run.bind (Run.read (TopCommand.nativePass env g.cleaners g.classes)) (fun classes1 =>
        ⟨TopCommand.table env self1 classes1, .ok 0⟩))

/-! ## Properties the statements use, and a small runtime to evaluate the commands on -/

/-- The visited objects that are not classes. -/
def nonClassObjects (objects : List Object) : List Object :=
  objects.filter (fun o => !o.IsClass)

/-- The visited objects that are not classes and whose class is at address `c`. -/
def instancesOf (c : Nat) (objects : List Object) : List Object :=
  objects.filter (fun o => !o.IsClass && decide (o.GetClass = c))

/-- The sum of `SizeOf()` over a list of objects. -/
def sumSizeOf (objects : List Object) : Nat :=
  (objects.map Object.SizeOf).sum

/-- The exception the example reads throw. -/
def invalidAddress : InvalidAddressException := ⟨"Invalid address"⟩

/-- Class `java.lang.Object` of the example runtime: no fields. -/
def demoObjectClass : Class :=
  { Ptr := 0x60, PrettyDescriptor := "java.lang.Object", IsStringClass := false,
    IsArrayClass := false, fields := [] }

/-- Field `private java.lang.String name` at offset 12: null in the object at `0x1000`, a
reference to unmapped memory (`0xdead0000`) in the object at `0x2000`. -/
def demoFieldName : ArtField :=
  { offset := 12, access_flags := "private ", PrettyTypeDescriptor := "java.lang.String",
    GetName := "name", type := .basic_object,
    Get := fun a => if a = 0x1000 then .ok 0 else if a = 0x2000 then .ok 0xdead0000
                    else .error invalidAddress }

/-- Field `private int count` at offset 8: 7 in the object at `0x1000`, 9 in the one at
`0x2000`. -/
def demoFieldCount : ArtField :=
  { offset := 8, access_flags := "private ", PrettyTypeDescriptor := "int",
    GetName := "count", type := .basic_int,
    Get := fun a => if a = 0x1000 then .ok 7 else if a = 0x2000 then .ok 9
                    else .error invalidAddress }

/-- Field `private boolean ready` at offset 16: set in both objects. -/
def demoFieldReady : ArtField :=
  { offset := 16, access_flags := "private ", PrettyTypeDescriptor := "boolean",
    GetName := "ready", type := .basic_boolean,
    Get := fun a => if a = 0x1000 ∨ a = 0x2000 then .ok 1 else .error invalidAddress }

/-- Class `Foo` of the example runtime, at `0x100`, with the fields `count`, `name` and
`ready`, in the order the field walk visits them. -/
def demoFoo : Class :=
  { Ptr := 0x100, PrettyDescriptor := "Foo", IsStringClass := false, IsArrayClass := false,
    fields := [demoFieldCount, demoFieldName, demoFieldReady] }

/-- The heap of the example runtime: two instances of `Foo` of 24 bytes, at `0x1000` and at
`0x2000`; no other address can be read. -/
def demoHeap (a : Nat) : HeapObject :=
  if a = 0x1000 ∨ a = 0x2000 then
    { Ptr := a, SizeOf := .ok 24, IsClass := false, GetClass := demoFoo,
      supers := [demoObjectClass], IsString := .ok false, GetLength := .ok 0,
      ToModifiedUtf8 := .ok "", DumpClass := Run.pure (), DumpArray := Run.pure () }
  else
    { Ptr := a, SizeOf := .error invalidAddress, IsClass := false,
      GetClass := { Ptr := 0, PrettyDescriptor := "", IsStringClass := false,
                    IsArrayClass := false, fields := [] },
      supers := [], IsString := .error invalidAddress, GetLength := .error invalidAddress,
      ToModifiedUtf8 := .error invalidAddress, DumpClass := Run.pure (),
      DumpArray := Run.pure () }

/-- The objects the walk of the example runtime visits: the two instances of `Foo`, the class
`Foo` itself, an instance of `Bar` (class at `0x200`) and two instances of
`sun.misc.Cleaner` (class at `0x300`). -/
def demoObjects : List Object :=
  [ ⟨0x1000, false, 0x100, 24⟩, ⟨0x2000, false, 0x100, 24⟩, ⟨0x100, true, 0x50, 128⟩,
    ⟨0x3000, false, 0x200, 32⟩, ⟨0x4000, false, 0x300, 40⟩, ⟨0x4100, false, 0x300, 40⟩ ]

/-- The cleaners of the example runtime. The one at `0x4000` guards 64 native bytes of the
`Foo` at `0x1000`. Of the one at `0x4100`, whose referent is the `Bar` at `0x3000`, the thunk
cannot be read. -/
def demoCleaner (a : Nat) : CleanerView :=
  if a = 0x4000 then
    { getReferent := .ok 0x1000, klass := .ok 0x100, getThunk := .ok 0x5000,
      getRegistry := .ok 0x6000, getSize := .ok 64 }
  else
    { getReferent := .ok 0x3000, klass := .ok 0x200, getThunk := .error invalidAddress,
      getRegistry := .error invalidAddress, getSize := .error invalidAddress }

/-- The example runtime: a loaded core with the heap, the objects and the cleaners above.
`Utils::atol` and `Utils::ToHex` are given by what they yield on the strings and addresses
that occur: `atol` is 0 on a string that is not a number, such as `"p"`. -/
def demoEnv : Android :=
  { core := ⟨true, []⟩, IsSdkReady := true,
    ForeachObjects := fun _ _ => demoObjects,
    PrettyDescriptor := fun c =>
      if c = 0x100 then "Foo" else if c = 0x200 then "Bar"
      else if c = 0x300 then "sun.misc.Cleaner" else "java.lang.Class",
    instanceof := fun a name => (a = 0x1000 ∨ a = 0x2000) ∧ name = "java.lang.Object",
    regex_search := fun descriptor pattern => pattern = "o+" ∧ descriptor = "Foo",
    Cleaner := demoCleaner, heap := demoHeap,
    atol := fun s => if s = "1000" then 0x1000 else if s = "2000" then 0x2000 else 0,
    atoi := fun s => if s = "2" then 2 else if s = "10" then 10 else 0,
    ToHex := fun a => if a = 0x1000 then "1000" else if a = 0x2000 then "2000" else "0",
    kObjectAlignment := 8, OFFSET_String_count_ := 8,
    EACH_APP_OBJECTS := 1, EACH_ZYGOTE_OBJECTS := 2, EACH_IMAGE_OBJECTS := 4,
    EACH_FAKE_OBJECTS := 8, SEARCH_OBJECT := 1, SEARCH_CLASS := 2 }

/-- The example runtime with a cleaner at `0x4000` whose referent pointer leads to unmapped
memory, so that `referent.klass()` throws; the cleaner at `0x4100` guards 32 native bytes of
the `Bar` at `0x3000`. -/
def staleCleanerEnv : Android :=
  { demoEnv with
    Cleaner := fun a =>
      if a = 0x4000 then
        { getReferent := .ok 0xdead0000, klass := .error invalidAddress,
          getThunk := .ok 0x5000, getRegistry := .ok 0x6000, getSize := .ok 64 }
      else
        { getReferent := .ok 0x3000, klass := .ok 0x200, getThunk := .ok 0x5100,
          getRegistry := .ok 0x6100, getSize := .ok 32 } }

/-- The command table of the examples: the print command of the example runtime. -/
def demoManager : CommandManager :=
  { inline_commands := [PrintCommand.command demoEnv], extend_commands := [] }

/-- The members of a `TopCommand` that has not run yet. -/
def TopCommand.fresh : TopCommand := ⟨0, .ORDERBY_ALLOC, false, 0⟩

/-- The members of a `SearchCommand` that has not run yet. -/
def SearchCommand.fresh : SearchCommand := ⟨0, 0, false, false, false, false, 0⟩

/-- The map the two passes of `top` leave on the example runtime. -/
def demoClasses : ClassMap :=
  [(0x100, ⟨2, 48, 64⟩), (0x200, ⟨1, 32, 0⟩), (0x300, ⟨2, 80, 0⟩)]

/-- The members of a `SearchCommand` in the course of the walk, after `n` objects were
reported: `SearchObjects` changes `total_objects` only. -/
def SearchCommand.during (self : SearchCommand) (n : Nat) : SearchCommand :=
  { self with total_objects := n }

/-- The run of `SearchObjects` reported the object: its first line is the match line with
the number `n`, the address of the object and the descriptor of its class. -/
def SearchCommand.reports (env : Android) (run : Run SearchCommand) (n : Nat)
    (object : Object) : Prop :=
  run.out.head?
    = some (Out.searchMatch n object.Ptr (env.PrettyDescriptor (SearchCommand.thiz object)))

instance (env : Android) (run : Run SearchCommand) (n : Nat) (object : Object) :
    Decidable (SearchCommand.reports env run n object) := by
  unfold SearchCommand.reports; infer_instance

/-- The type filter of lines 117-119 lets the object through. -/
def SearchCommand.passesTypeFilter (env : Android) (self : SearchCommand) (object : Object) :
    Prop :=
  self.type_flag &&& (if object.IsClass then env.SEARCH_CLASS else env.SEARCH_OBJECT) ≠ 0

instance (env : Android) (self : SearchCommand) (object : Object) :
    Decidable (SearchCommand.passesTypeFilter env self object) := by
  unfold SearchCommand.passesTypeFilter; infer_instance

/-- The last of the options `-r` and `-i` in the order given, `none` when neither is
given. -/
def SearchCommand.lastMode : List SearchOpt → Option SearchOpt
  | [] => none
  | opt :: rest =>
    match SearchCommand.lastMode rest with
    | some m => some m
    | none => if opt = .r ∨ opt = .i then some opt else none

/-- The header line `PrintField` writes for a field before it reads the value. -/
def PrintCommand.fieldHeader (format : Nat) (field : ArtField) : Out :=
  Out.printField format field.offset field.access_flags field.PrettyTypeDescriptor field.GetName

/-- The lines `DumpObject` writes before it dispatches on the kind of object. -/
def PrintCommand.sizeLines (env : Android) (size : Nat) : List Out :=
  [Out.printSize (RoundUp size env.kObjectAlignment)]
  ++ (if size ≠ RoundUp size env.kObjectAlignment then
        [Out.printPadding (RoundUp size env.kObjectAlignment - size)]
      else [])

/-- The lines of `DumpInstance` up to and including the header of the field `f` of the class
`c`: the object name, the turns of the classes `before`, the `extends` line of `c`, the
fields `pre` of `c`, and the header of `f`. -/
def PrintCommand.linesUpTo (env : Android) (object : HeapObject) (size : Nat)
    (before : List Class) (c : Class) (pre : List ArtField) (f : ArtField) : List Out :=
  [Out.printObjectName object.GetClass.PrettyDescriptor]
  ++ (Run.forEach
        (PrintCommand.DumpInstance.turn env (PrintCommand.FormatSize size) object object.GetClass)
        before).out
  ++ (if object.GetClass.Ptr ≠ c.Ptr then [Out.printExtends c.PrettyDescriptor] else [])
  ++ (Run.forEach (PrintCommand.PrintField env (PrintCommand.FormatSize size) c object) pre).out
  ++ [PrintCommand.fieldHeader (PrintCommand.FormatSize size) f]

/-- The keys of the map, in iteration order. -/
def ClassMap.keys (m : ClassMap) : List Nat := m.map Prod.fst

/-- The sum over the entries of the map of one counter `g` of the pair, not wrapped. -/
def ClassMap.sumOf (g : TopCommand.Pair → Nat) (m : ClassMap) : Nat :=
  (m.map (fun e => g e.2)).sum

/-- The entries of the map without their native size. -/
def ClassMap.counts (m : ClassMap) : List (Nat × Nat × Nat) :=
  m.map (fun e => (e.1, e.2.alloc_count, e.2.shallow_size))

/-- The entry grouping by class address calls for under the key `c` once the objects
`objects` are visited: none when no visited non-class object has its class at `c`, else the
number of such objects, the sum of their `SizeOf()` and no native size yet. -/
def TopCommand.expectedEntry (c : Nat) (objects : List Object) : Option TopCommand.Pair :=
  if instancesOf c objects = [] then none
  else some ⟨(instancesOf c objects).length, sumSizeOf (instancesOf c objects), 0⟩

/-! ## The symbol in effect in the window pass -/

/-- The loop of lines 344-367 over the values `ks` of `k`, starting with `symbol` in hand: for
every differing window, the address `current` and the symbol in hand when its line is written
(line 362, after the test of lines 353-361), in loop order. -/
def symbolsInEffect (b : LoadBlock) : List Nat → NiceSymbol → List (Nat × NiceSymbol)
  | [], _ => []
  | k :: ks, symbol =>
    (if windowDiffers b k then [(current b k, (windowStep b symbol k).1)] else [])
      ++ symbolsInEffect b ks (windowStep b symbol k).1

/-- What the specification asks for, in its words: "for each differing window, resolve the
nearest preceding symbol from the block's attached module (if any)". The resolver of the
module is asked for every differing window; without a module the symbol is "none". -/
def resolveEveryWindow (b : LoadBlock) (ks : List Nat) : List (Nat × NiceSymbol) :=
  (ks.filter (windowDiffers b)).map
    (fun k =>
      (current b k,
        match b.handle with
        | some niceMethod => niceMethod (current b k)
        | none => NiceSymbol.Invalid))

/-- The resolver answers by range: an address inside the range `[offset, offset + size)` of a
symbol the resolver returns for some address gets that same symbol. (A resolver that looks
the address up in a table of symbols with disjoint ranges, and returns an invalid symbol for
an address no range contains, answers by range.) -/
def resolvesByRange (niceMethod : Nat → NiceSymbol) : Prop :=
  ∀ a a1, (niceMethod a1).valid = true → (niceMethod a1).offset ≤ a →
    a < (niceMethod a1).offset + (niceMethod a1).size → niceMethod a = niceMethod a1

/-- A resolver that knows one symbol, `main` at `[0xc000, 0xc020)`. -/
def oneSymbol (a : Nat) : NiceSymbol :=
  if 0xc000 ≤ a ∧ a < 0xc020 then ⟨"main", 0xc000, 0x20, true⟩ else NiceSymbol.Invalid

/-- A file-backed, valid 64-byte block of a module whose resolver is `oneSymbol`; the windows
at `0xc000`, `0xc010` (both inside `main`) and `0xc030` (outside) differ. -/
def symbolBlock : LoadBlock :=
  { vaddr := 0xc000, size := 64, realSize := 64, convertFlags := "r-x", name := "/lib/e.so",
    isMmapBlock := true, isValidBlock := true,
    orData := fun i => if i = 0 ∨ i = 16 ∨ i = 48 then 1 else 0, mmapData := fun _ => 0,
    handle := some oneSymbol }

/-! ## `LinkMap::name` -/

/-- Modelled from the spec: `MemoryRef::IsReady()` (`api/memory_ref.h`, not part of the
sources at hand), "a reference is ready if its address resolves to a `Valid` LoadBlock". -/
def MemoryRef.IsReady (ref : MemoryRef) : Bool :=
  match ref.Block with
  | some b => b.isValidBlock
  | none => false

/-- Modelled from the spec: `MemoryRef::Real()` (`api/memory_ref.h`, not part of the sources
at hand), "a byte-addressable view of the block's content" from the address of the reference
on, in the default source (`Original`); there is no view without a block. -/
def MemoryRef.Real (ref : MemoryRef) : Option (Nat → Byte) :=
  ref.Block.map (fun b i => b.orData (ref.Ptr - b.vaddr + i))

/-- The `const char*` that `LinkMap::name()` returns: a string literal, or the pointer
`Real()` of the reference it was called on. -/
inductive CharPtr where
  | literal (s : String)
  | real (ref : MemoryRef)

/-- `LinkMap::name()`: the pointer returned and the reference after the call.
`GetNameCache()` is called for the test of line 59 and again for `Real()` in line 61. -/
def LinkMap.name (core : CoreApi) (self : LinkMap) : CharPtr × LinkMap :=
  if !(self.GetNameCache core).name_cache.IsReady then
    (CharPtr.literal "", self.GetNameCache core)
  else
    (CharPtr.real ((self.GetNameCache core).GetNameCache core).name_cache,
      (self.GetNameCache core).GetNameCache core)

/-- A block that holds no usable source: not file-backed, not valid. -/
def invalidBlock : LoadBlock :=
  { vaddr := 0x9000, size := 0x1000, realSize := 0, convertFlags := "---", name := "",
    isMmapBlock := false, isValidBlock := false,
    orData := fun _ => 0, mmapData := fun _ => 0, handle := none }

/-! ## Constructors of `Command`, and commands to probe `Execute` with -/

/-- `Command(const char* c)` (`command.h`, line 26): the name is set, the shortcut stays the
empty string it is default-constructed to. -/
def Command.ofName (c : String) (main : Int → List String → Run Int)
    (mainWithCallback : Int → List String → Run Int → Run Int) : Command :=
  { get := c, shortcut := "", main := main, mainWithCallback := mainWithCallback }

/-- `Command(const char* c, const char* s)` (`command.h`, line 27). -/
def Command.ofNameShortcut (c s : String) (main : Int → List String → Run Int)
    (mainWithCallback : Int → List String → Run Int → Run Int) : Command :=
  { get := c, shortcut := s, main := main, mainWithCallback := mainWithCallback }

/-- The test of line 105 of `command_manager.cpp`: the command goes by `cmd`. -/
def Command.goesBy (cmd : String) (command : Command) : Bool :=
  command.get == cmd || command.shortcut == cmd

/-- The `try` block of `Execute` (lines 53-87) for the command found: the value it returns
with (`some r`), or the exception thrown inside it. It is the block that `Execute` guards,
given a name. -/
def CommandManager.tryBlock (mgr : CommandManager) (shell0 : Option Command) (position0 : Int)
    (command : Command) (argc : Int) (argv : List String) : Run (Option Int) :=
  let locals := mgr.scanArgs argc argv argc.toNat 0 ⟨shell0, position0, false⟩
  match locals.shell with
  | some shell =>
    Run.bind
      (shell.mainWithCallback (argc - locals.position)
        (argv.drop locals.position.toNat)
        (command.main (locals.position - 1) argv))
      (fun _ => Run.pure (some 0))
  | none =>
    Run.bind
      (if locals.writeout then
         Run.bind (LOGI (Out.FreopenWrite (argv.getD locals.position.toNat "")))
           (fun _ => Run.bind (command.main (locals.position - 1) argv)
             (fun _ => LOGI Out.CloseWriteout))
       else Run.pure ())
      (fun _ => Run.bind (command.main argc argv) (fun r => Run.pure (some r)))

/-- A command that shows how it was invoked: `main(argc, argv)` writes the arguments
`argv[0]` ... `argv[argc - 1]` on one line and returns `argc`. -/
def probeCommand : Command :=
  Command.ofName "probe"
    (fun argc argv => ⟨[Out.cout (String.intercalate " " (argv.take argc.toNat))], .ok argc⟩)
    (fun _ _ callback => callback)

/-- A command whose `main` throws after it wrote one line. -/
def faultyCommand : Command :=
  Command.ofNameShortcut "faulty" "f"
    (fun _ _ => ⟨[Out.cout "reading"], .error invalidAddress⟩)
    (fun _ _ callback => callback)

/-- A command table with the two probing commands. -/
def probeManager : CommandManager :=
  { inline_commands := [probeCommand, faultyCommand], extend_commands := [] }

/-! ## Members of the commands from one invocation to the next -/

/-- The members `TopCommand::main` leaves behind: untouched when `main` returns at line 37,
else as lines 39-87 set them (nothing behind line 87 writes a member). -/
def TopCommand.after (env : Android) (self : TopCommand) (argc : Int) (argv : List String)
    (opts : List TopOpt) : TopCommand :=
  if !env.core.IsReady || !env.IsSdkReady || !(decide (argc > 1)) then self
  else TopCommand.parse env self argv opts

/-- The members `SearchCommand::main` leaves behind when it returns: untouched when it
returns at line 34, else those the walk ends with. -/
def SearchCommand.after (env : Android) (mgr : CommandManager) (shell0 : Option Command)
    (position0 : Int) (self : SearchCommand) (argc : Int) (opts : List SearchOpt)
    (classname : String) : Except InvalidAddressException SearchCommand :=
  if !env.core.IsReady || !env.IsSdkReady || !(decide (argc > 1)) then .ok self
  else
    (SearchCommand.walk env mgr shell0 position0 classname
      (env.ForeachObjects (SearchCommand.parse env self opts).each_flag (some false))
      (SearchCommand.parse env self opts)).res

/-- The example runtime with heaps that `ForeachObjects` tells apart: the two instances of
`Foo` live in the app heap, the instance of `Bar` in the zygote heap, the class `Foo` and a
second instance of `Bar` in the image heap; a heap is walked when its `EACH_*_OBJECTS` bit is
set in the flag. -/
def heapsEnv : Android :=
  { demoEnv with
    ForeachObjects := fun flag _ =>
      (if flag &&& 1 ≠ 0 then [⟨0x1000, false, 0x100, 24⟩, ⟨0x2000, false, 0x100, 24⟩] else [])
      ++ (if flag &&& 2 ≠ 0 then [⟨0x3000, false, 0x200, 32⟩] else [])
      ++ (if flag &&& 4 ≠ 0 then [⟨0x100, true, 0x50, 128⟩, ⟨0x3100, false, 0x200, 32⟩]
          else []) }

/-- The proviso of the symbol claim taken address by address: every valid answer of the
resolver is a symbol whose range `[offset, offset + size)` contains the address asked for. -/
def answersContainAddress (niceMethod : Nat → NiceSymbol) : Prop :=
  ∀ a, (niceMethod a).valid = true →
    (niceMethod a).offset ≤ a ∧ a < (niceMethod a).offset + (niceMethod a).size

/-- A resolver over nested symbols, as a symbol table may hold them: `inner` at
`[0xc010, 0xc020)` lies inside `outer` at `[0xc000, 0xc040)`, and an address gets the nearest
preceding symbol that contains it. -/
def nestedSymbols (a : Nat) : NiceSymbol :=
  if 0xc010 ≤ a ∧ a < 0xc020 then ⟨"inner", 0xc010, 0x10, true⟩
  else if 0xc000 ≤ a ∧ a < 0xc040 then ⟨"outer", 0xc000, 0x40, true⟩
  else NiceSymbol.Invalid

/-- The 64-byte block `symbolBlock` (windows at `0xc000`, `0xc010` and `0xc030` differ) as a
block of a module whose resolver is `nestedSymbols`. -/
def nestedBlock : LoadBlock :=
  { symbolBlock with handle := some nestedSymbols }

/-! ## Theorems: layout registry -/

/-- C1: for both pointer widths (32 and 64) and whatever the tables held before, every field
offset set by `LargeObjectSpace::Init`, `LargeObjectMapSpace::Init`, `FreeListSpace::Init`,
`ImageHeader::Init28/29/31/34` and `LinkMap::Init` is non-negative and strictly below the
`THIS` size the same call stores in the matching size table. -/
theorem init_offsets_below_size (w : Nat) (hw : w = 32 ∨ w = 64) (r : Registry) :
    offsetsWithin (LargeObjectSpace.Init w r).__LargeObjectSpace_offset__.fields
        (LargeObjectSpace.Init w r).__LargeObjectSpace_size__.THIS
    ∧ offsetsWithin (LargeObjectMapSpace.Init w r).__LargeObjectMapSpace_offset__.fields
        (LargeObjectMapSpace.Init w r).__LargeObjectMapSpace_size__.THIS
    ∧ offsetsWithin (FreeListSpace.Init w r).__FreeListSpace_offset__.fields
        (FreeListSpace.Init w r).__FreeListSpace_size__.THIS
    ∧ offsetsWithin (ImageHeader.Init28 r).__ImageHeader_offset__.fields
        (ImageHeader.Init28 r).__ImageHeader_size__.THIS
    ∧ offsetsWithin (ImageHeader.Init29 r).__ImageHeader_offset__.fields
        (ImageHeader.Init29 r).__ImageHeader_size__.THIS
    ∧ offsetsWithin (ImageHeader.Init31 r).__ImageHeader_offset__.fields
        (ImageHeader.Init31 r).__ImageHeader_size__.THIS
    ∧ offsetsWithin (ImageHeader.Init34 r).__ImageHeader_offset__.fields
        (ImageHeader.Init34 r).__ImageHeader_size__.THIS
    ∧ offsetsWithin (LinkMap.Init w r).__LinkMap_offset__.fields
        (LinkMap.Init w r).__LinkMap_size__.THIS := by
  rcases hw with rfl | rfl <;>
    simp [offsetsWithin, LargeObjectSpace.Init, LargeObjectMapSpace.Init, FreeListSpace.Init,
      ImageHeader.Init28, ImageHeader.Init29, ImageHeader.Init31, ImageHeader.Init34,
      LinkMap.Init, LargeObjectSpace_OffsetTable.fields,
      LargeObjectMapSpace_OffsetTable.fields, FreeListSpace_OffsetTable.fields,
      ImageHeader_OffsetTable.fields, LinkMap_OffsetTable.fields]

/-- Witness of C1 at pointer width 32, from the zero-initialised tables. -/
theorem init_offsets_below_size_witness :
    (32 = 32 ∨ 32 = 64)
    ∧ offsetsWithin (LinkMap.Init 32 Registry.zero).__LinkMap_offset__.fields
        (LinkMap.Init 32 Registry.zero).__LinkMap_size__.THIS :=
  ⟨Or.inl rfl, (init_offsets_below_size 32 (Or.inl rfl) Registry.zero).2.2.2.2.2.2.2⟩

/-- C2: after `LargeObjectSpace::Init` with pointer width 64 `begin_` is 376; a following
`Init` with pointer width 32 leaves exactly the 32-bit table (`lock_` 160, ..., `begin_` 224,
`end_` 228, `THIS` 232), the same a fresh 32-bit `Init` produces, and the whole registry
equals the one a 32-bit `Init` alone would give. -/
theorem reselect_32_after_64 (r : Registry) :
    (LargeObjectSpace.Init 64 r).__LargeObjectSpace_offset__.begin_ = 376
    ∧ (LargeObjectSpace.Init 32 (LargeObjectSpace.Init 64 r)).__LargeObjectSpace_offset__.begin_
        = 224
    ∧ (LargeObjectSpace.Init 32 (LargeObjectSpace.Init 64 r)).__LargeObjectSpace_offset__
        = { lock_ := 160, num_bytes_allocated_ := 192, num_objects_allocated_ := 200,
            total_bytes_allocated_ := 208, total_objects_allocated_ := 216,
            begin_ := 224, end_ := 228 }
    ∧ (LargeObjectSpace.Init 32 (LargeObjectSpace.Init 64 r)).__LargeObjectSpace_size__
        = { THIS := 232 }
    ∧ (LargeObjectSpace.Init 32 (LargeObjectSpace.Init 64 r)).__LargeObjectSpace_offset__
        = (LargeObjectSpace.Init 32 Registry.zero).__LargeObjectSpace_offset__
    ∧ (LargeObjectSpace.Init 32 (LargeObjectSpace.Init 64 r)).__LargeObjectSpace_size__
        = (LargeObjectSpace.Init 32 Registry.zero).__LargeObjectSpace_size__
    ∧ LargeObjectSpace.Init 32 (LargeObjectSpace.Init 64 r) = LargeObjectSpace.Init 32 r := by
  simp [LargeObjectSpace.Init]

/-- C10: each of `ImageHeader::Init28`, `Init29`, `Init31`, `Init34` leaves the `LinkMap`,
`LargeObjectSpace`, `LargeObjectMapSpace` and `FreeListSpace` offset and size tables as they
were before the call. -/
theorem ImageHeader_Init_frame (r : Registry) :
    nonImageTablesEq r (ImageHeader.Init28 r) ∧ nonImageTablesEq r (ImageHeader.Init29 r)
    ∧ nonImageTablesEq r (ImageHeader.Init31 r) ∧ nonImageTablesEq r (ImageHeader.Init34 r) := by
  simp [nonImageTablesEq, ImageHeader.Init28, ImageHeader.Init29, ImageHeader.Init31,
    ImageHeader.Init34]

/-! ## Lemmas: the window pass -/

theorem readU64_eq_iff (m m1 : Nat → Byte) (k : Nat) :
    readU64 m k = readU64 m1 k ↔ ∀ i, i < 8 → m (8 * k + i) = m1 (8 * k + i) := by
  constructor
  · intro h i hi
    unfold readU64 at h
    have h0 := (m (8 * k)).isLt
    have h1 := (m (8 * k + 1)).isLt
    have h2 := (m (8 * k + 2)).isLt
    have h3 := (m (8 * k + 3)).isLt
    have h4 := (m (8 * k + 4)).isLt
    have h5 := (m (8 * k + 5)).isLt
    have h6 := (m (8 * k + 6)).isLt
    have h7 := (m (8 * k + 7)).isLt
    have g0 := (m1 (8 * k)).isLt
    have g1 := (m1 (8 * k + 1)).isLt
    have g2 := (m1 (8 * k + 2)).isLt
    have g3 := (m1 (8 * k + 3)).isLt
    have g4 := (m1 (8 * k + 4)).isLt
    have g5 := (m1 (8 * k + 5)).isLt
    have g6 := (m1 (8 * k + 6)).isLt
    have g7 := (m1 (8 * k + 7)).isLt
    apply Fin.ext
    interval_cases i
    · show (m (8 * k + 0)).val = (m1 (8 * k + 0)).val
      rw [Nat.add_zero]; omega
    all_goals omega
  · intro h
    unfold readU64
    have e0 := h 0 (by omega)
    rw [Nat.add_zero] at e0
    rw [e0, h 1 (by omega), h 2 (by omega), h 3 (by omega), h 4 (by omega), h 5 (by omega),
      h 6 (by omega), h 7 (by omega)]

/-- A window is flagged exactly when one of its sixteen bytes differs between the sources. -/
theorem windowDiffers_iff (b : LoadBlock) (k : Nat) :
    windowDiffers b k = true ↔ ∃ i, i < 16 ∧ b.orData (8 * k + i) ≠ b.mmapData (8 * k + i) := by
  have hk : ∀ i, 8 * (k + 1) + i = 8 * k + (8 + i) := fun i => by omega
  simp only [windowDiffers, LoadBlock.begin, Bool.not_eq_true', Bool.and_eq_false_imp,
    beq_iff_eq, beq_eq_false_iff_ne, ne_eq, readU64_eq_iff]
  constructor
  · intro h
    by_cases h1 : ∀ i, i < 8 → b.orData (8 * k + i) = b.mmapData (8 * k + i)
    · have h2 := h h1
      push_neg at h2
      obtain ⟨i, hi, hne⟩ := h2
      exact ⟨8 + i, by omega, by rw [← hk]; exact hne⟩
    · push_neg at h1
      obtain ⟨i, hi, hne⟩ := h1
      exact ⟨i, by omega, hne⟩
  · rintro ⟨i, hi, hne⟩ h1 h2
    by_cases h8 : i < 8
    · exact hne (h1 i h8)
    · have := h2 (i - 8) (by omega)
      rw [hk] at this
      have e : 8 + (i - 8) = i := by omega
      rw [e] at this
      exact hne this

theorem windowAddrs_append (xs ys : List Line) :
    windowAddrs (xs ++ ys) = windowAddrs xs ++ windowAddrs ys := by
  simp [windowAddrs, List.filterMap_append]

/-- One turn of the loop prints the address of window `k` when the window differs, and no
other address. -/
theorem windowAddrs_windowStep (b : LoadBlock) (symbol : NiceSymbol) (k : Nat) :
    windowAddrs (windowStep b symbol k).2
      = if windowDiffers b k then [current b k] else [] := by
  unfold windowStep
  generalize current b k = cur
  generalize readU64 (b.begin .OPT_READ_OR) k = o1
  generalize readU64 (b.begin .OPT_READ_OR) (k + 1) = o2
  generalize readU64 (b.begin .OPT_READ_MMAP) k = m1
  generalize readU64 (b.begin .OPT_READ_MMAP) (k + 1) = m2
  cases hd : windowDiffers b k with
  | false => simp [windowAddrs]
  | true =>
    simp only [if_true]
    rw [windowAddrs_append]
    have hw : windowAddrs [Line.window cur o1 o2 m1 m2] = [cur] := by
      simp [windowAddrs, Line.address?]
    rw [hw]
    cases hs : symbolStale symbol cur with
    | false => simp [windowAddrs]
    | true =>
      simp only [if_true]
      cases hh : b.handle with
      | none => simp [windowAddrs]
      | some f =>
        simp only []
        cases hv : (f cur).valid with
        | false => simp [windowAddrs]
        | true => simp [windowAddrs, Line.address?]

theorem windowAddrs_windowLoop (b : LoadBlock) (ks : List Nat) (symbol : NiceSymbol) :
    windowAddrs (windowLoop b ks symbol) = (ks.filter (windowDiffers b)).map (current b) := by
  induction ks generalizing symbol with
  | nil => simp [windowLoop, windowAddrs]
  | cons k ks ih =>
    rw [windowLoop, windowAddrs_append, ih, windowAddrs_windowStep]
    cases hd : windowDiffers b k with
    | false => simp [List.filter_cons, hd]
    | true => simp [List.filter_cons, hd]

/-- The findings of the second pass: the addresses computed for the differing windows among
the windows the loop visits, in loop order. -/
theorem windowAddrs_windowPass (b : LoadBlock) :
    windowAddrs (windowPass b)
      = ((windowIndices (windowCount b)).filter (windowDiffers b)).map (current b) := by
  rw [windowPass, windowAddrs_windowLoop]

/-- For a size that is a multiple of 16 and below `2^34` the `int` count is `size / 8`. -/
theorem windowCount_eq (b : LoadBlock) (h16 : b.size % 16 = 0) (hlt : b.size < 2 ^ 34) :
    windowCount b = ((b.size / 8 : Nat) : Int) := by
  unfold windowCount toInt32 RoundUp
  have h1 : (b.size / 8 + 2 - 1) / 2 * 2 = b.size / 8 := by omega
  rw [h1]
  omega

theorem windowIndices_natCast (n : Nat) (h : n % 2 = 0) :
    windowIndices (n : Int) = (List.range (n / 2)).map (fun j => 2 * j) := by
  unfold windowIndices
  have : ((n : Int).toNat + 1) / 2 = n / 2 := by
    rw [Int.toNat_natCast]; omega
  rw [this]

/-- Below 2 GiB the product `k * 8` fits an `int` and the address is `vaddr + 8 * k`. -/
theorem current_eq (b : LoadBlock) (k : Nat) (hk : 8 * k < 2 ^ 31)
    (hv : b.vaddr + 8 * k < 2 ^ 64) : current b k = b.vaddr + 8 * k := by
  unfold current toInt32
  omega

/-! ## Lemmas: CRC-32 -/

theorem crc32Shift_lt {c : Nat} (h : c < 2 ^ 32) : crc32Shift c < 2 ^ 32 := by
  unfold crc32Shift
  split
  · exact Nat.xor_lt_two_pow (by omega) (by norm_num)
  · omega

theorem crc32Shift_inj {c d : Nat} (hc : c < 2 ^ 32) (hd : d < 2 ^ 32)
    (h : crc32Shift c = crc32Shift d) : c = d := by
  have hodd : ∀ e, e < 2 ^ 32 → 2 ^ 31 ≤ (e / 2) ^^^ 0xEDB88320 := by
    intro e he
    by_contra hlt
    have h1 : ((e / 2) ^^^ 0xEDB88320).testBit 31 = false :=
      Nat.testBit_lt_two_pow (by omega)
    have h2 : (e / 2).testBit 31 = false := Nat.testBit_lt_two_pow (by omega)
    have h3 : (0xEDB88320 : Nat).testBit 31 = true := by decide
    rw [Nat.testBit_xor, h2, h3] at h1
    simp at h1
  unfold crc32Shift at h
  by_cases h1 : c % 2 = 1 <;> by_cases h2 : d % 2 = 1
  · rw [if_pos h1, if_pos h2] at h
    have := Nat.xor_left_injective h
    simp only at this
    omega
  · rw [if_pos h1, if_neg h2] at h
    have := hodd c hc
    omega
  · rw [if_neg h1, if_pos h2] at h
    have := hodd d hd
    omega
  · rw [if_neg h1, if_neg h2] at h
    omega

theorem crc32Update_lt {c : Nat} (x : Byte) (h : c < 2 ^ 32) : crc32Update c x < 2 ^ 32 := by
  unfold crc32Update
  have hx : c ^^^ x.val < 2 ^ 32 := Nat.xor_lt_two_pow h (by have := x.isLt; omega)
  exact crc32Shift_lt (crc32Shift_lt (crc32Shift_lt (crc32Shift_lt (crc32Shift_lt
    (crc32Shift_lt (crc32Shift_lt (crc32Shift_lt hx)))))))

theorem crc32Update_xor_inj {u v : Nat} (hu : u < 2 ^ 32) (hv : v < 2 ^ 32)
    (h : crc32Shift (crc32Shift (crc32Shift (crc32Shift (crc32Shift (crc32Shift (crc32Shift
      (crc32Shift u)))))))
      = crc32Shift (crc32Shift (crc32Shift (crc32Shift (crc32Shift (crc32Shift (crc32Shift
      (crc32Shift v)))))))) : u = v := by
  have l1 := @crc32Shift_lt
  have i1 := @crc32Shift_inj
  exact i1 hu hv (i1 (l1 hu) (l1 hv) (i1 (l1 (l1 hu)) (l1 (l1 hv))
    (i1 (l1 (l1 (l1 hu))) (l1 (l1 (l1 hv)))
    (i1 (l1 (l1 (l1 (l1 hu)))) (l1 (l1 (l1 (l1 hv))))
    (i1 (l1 (l1 (l1 (l1 (l1 hu))))) (l1 (l1 (l1 (l1 (l1 hv)))))
    (i1 (l1 (l1 (l1 (l1 (l1 (l1 hu)))))) (l1 (l1 (l1 (l1 (l1 (l1 hv))))))
    (i1 (l1 (l1 (l1 (l1 (l1 (l1 (l1 hu))))))) (l1 (l1 (l1 (l1 (l1 (l1 (l1 hv))))))) h)))))))

theorem crc32Update_inj_state {c d : Nat} (x : Byte) (hc : c < 2 ^ 32) (hd : d < 2 ^ 32)
    (h : crc32Update c x = crc32Update d x) : c = d := by
  unfold crc32Update at h
  have hx : x.val < 2 ^ 32 := by have := x.isLt; omega
  have := crc32Update_xor_inj (Nat.xor_lt_two_pow hc hx) (Nat.xor_lt_two_pow hd hx) h
  exact Nat.xor_left_injective this

theorem crc32Update_inj_byte {c : Nat} (x y : Byte) (hc : c < 2 ^ 32)
    (h : crc32Update c x = crc32Update c y) : x = y := by
  unfold crc32Update at h
  have hx : x.val < 2 ^ 32 := by have := x.isLt; omega
  have hy : y.val < 2 ^ 32 := by have := y.isLt; omega
  have := crc32Update_xor_inj (Nat.xor_lt_two_pow hc hx) (Nat.xor_lt_two_pow hc hy) h
  exact Fin.ext (Nat.xor_right_injective this)

theorem foldl_crc32Update_lt (bytes : List Byte) {c : Nat} (h : c < 2 ^ 32) :
    bytes.foldl crc32Update c < 2 ^ 32 := by
  induction bytes generalizing c with
  | nil => exact h
  | cons x xs ih => exact ih (crc32Update_lt x h)

theorem foldl_crc32Update_inj (bytes : List Byte) {c d : Nat} (hc : c < 2 ^ 32)
    (hd : d < 2 ^ 32) (h : bytes.foldl crc32Update c = bytes.foldl crc32Update d) : c = d := by
  induction bytes generalizing c d with
  | nil => exact h
  | cons x xs ih =>
    exact crc32Update_inj_state x hc hd (ih (crc32Update_lt x hc) (crc32Update_lt x hd) h)

/-- The standard CRC-32 tells apart two byte strings that differ in exactly one byte. -/
theorem CRC32_singleByteSensitive : SingleByteSensitive CRC32 := by
  intro pre post x y hxy h
  unfold CRC32 at h
  have h1 := Nat.xor_left_injective h
  simp only [List.foldl_append, List.foldl_cons] at h1
  have hs : pre.foldl crc32Update 0xFFFFFFFF < 2 ^ 32 :=
    foldl_crc32Update_lt pre (by norm_num)
  have h2 := foldl_crc32Update_inj post (crc32Update_lt x hs) (crc32Update_lt y hs) h1
  exact hxy (crc32Update_inj_byte x y hs h2)
set_option maxRecDepth 100000 in
/-- The modelled checksum is the standard CRC-32: its check value on `"123456789"`. -/
theorem CRC32_check :
    CRC32 [0x31, 0x32, 0x33, 0x34, 0x35, 0x36, 0x37, 0x38, 0x39] = 0xCBF43926 := by decide

/-! ## Lemmas: the callback and the walk -/

theorem callback_of_filtered (env : Env) (num : Int) (st : ScanState) (b : LoadBlock)
    (h : b.isMmapBlock = false ∨ b.isValidBlock = false) :
    callback env num st b = (false, skipBlock st) := by
  unfold callback skipBlock
  rcases h with h | h <;> simp only [h] <;> split <;> simp

theorem callback_of_unselected (env : Env) (num : Int) (st : ScanState) (b : LoadBlock)
    (h0 : num ≠ 0) (hn : num ≠ st.index + 1) :
    callback env num st b = (false, skipBlock st) := by
  unfold callback skipBlock
  simp [h0, hn]

theorem callback_of_checked (env : Env) (num : Int) (st : ScanState) (b : LoadBlock)
    (hm : b.isMmapBlock = true) (hv : b.isValidBlock = true)
    (hsel : num = 0 ∨ num = st.index + 1) :
    callback env num st b = (false, checkBlock env (skipBlock st) b) := by
  unfold callback skipBlock
  rcases hsel with h | h <;> simp [h, hm, hv]

theorem callback_fst (env : Env) (num : Int) (st : ScanState) (b : LoadBlock) :
    (callback env num st b).1 = false := by
  unfold callback
  simp only []
  split
  · rfl
  · split
    · rfl
    · split <;> rfl

theorem checkBlock_of_eq (env : Env) (st : ScanState) (b : LoadBlock)
    (h : (blockChecksums env b).1 = (blockChecksums env b).2) :
    checkBlock env st b = { st with crcCalls := st.crcCalls + 2 } := by
  unfold checkBlock
  simp [h]

theorem checkBlock_out_of_ne (env : Env) (st : ScanState) (b : LoadBlock)
    (h : (blockChecksums env b).1 ≠ (blockChecksums env b).2) :
    (checkBlock env st b).out
      = st.out ++ ((if st.first then [] else [Line.enter])
          ++ [Line.block st.index b.vaddr ((b.vaddr + b.size) % 2 ^ 64) b.convertFlags
                b.realSize b.name]
          ++ windowPass b) := by
  unfold checkBlock
  simp only [h, ne_eq, not_false_eq_true, if_true]
  cases st.first <;> simp

theorem checkBlock_crcCalls (env : Env) (st : ScanState) (b : LoadBlock) :
    (checkBlock env st b).crcCalls = st.crcCalls + 2 := by
  unfold checkBlock
  simp only []
  split <;> rfl

theorem checkBlock_index (env : Env) (st : ScanState) (b : LoadBlock) :
    (checkBlock env st b).index = st.index := by
  unfold checkBlock
  simp only []
  split <;> rfl

/-- The findings printed for a checked block: those of the window pass when the checksums
differ, none otherwise. -/
theorem windowAddrs_printedSince_checkBlock (env : Env) (st : ScanState) (b : LoadBlock) :
    windowAddrs (printedSince st (checkBlock env (skipBlock st) b))
      = if (blockChecksums env b).1 = (blockChecksums env b).2 then []
        else windowAddrs (windowPass b) := by
  by_cases h : (blockChecksums env b).1 = (blockChecksums env b).2
  · rw [if_pos h, checkBlock_of_eq env _ b h]
    simp [printedSince, skipBlock, windowAddrs]
  · rw [if_neg h]
    unfold printedSince
    rw [checkBlock_out_of_ne env _ b h]
    have hs : (skipBlock st).out = st.out := rfl
    rw [hs, List.drop_left, windowAddrs_append, windowAddrs_append]
    have h1 : windowAddrs (if (skipBlock st).first = true then [] else [Line.enter]) = [] := by
      cases (skipBlock st).first <;> rfl
    have h2 : ∀ a c d e f g, windowAddrs [Line.block a c d e f g] = [] :=
      fun _ _ _ _ _ _ => rfl
    rw [h1, h2, List.nil_append, List.nil_append]

theorem bytesAt_congr (m m1 : Nat → Byte) (off len : Nat)
    (h : ∀ i, i < len → m (off + i) = m1 (off + i)) : bytesAt m off len = bytesAt m1 off len := by
  unfold bytesAt
  apply List.map_congr_left
  intro i hi
  exact h i (List.mem_range.mp hi)

/-- The walk hands every block to the callback: it is a left fold of the callback. -/
theorem ForeachLoadBlock_callback (env : Env) (num : Int) (bs : List LoadBlock)
    (st : ScanState) :
    ForeachLoadBlock (callback env num) bs st
      = bs.foldl (fun s b => (callback env num s b).2) st := by
  induction bs generalizing st with
  | nil => rfl
  | cons b bs ih =>
    rw [ForeachLoadBlock, List.foldl_cons]
    simp only [callback_fst, Bool.false_eq_true, if_false]
    exact ih _

theorem foldl_callback_unselected (env : Env) (num : Int) (bs : List LoadBlock)
    (st : ScanState) (h0 : num ≠ 0)
    (hn : num ≤ st.index ∨ st.index + (bs.length : Int) < num) :
    bs.foldl (fun s b => (callback env num s b).2) st
      = { st with index := st.index + (bs.length : Int) } := by
  induction bs generalizing st with
  | nil => simp
  | cons b bs ih =>
    rw [List.foldl_cons, callback_of_unselected env num st b h0 (by
      simp only [List.length_cons, Nat.cast_add, Nat.cast_one] at hn; omega)]
    rw [ih]
    · simp only [skipBlock, List.length_cons, Nat.cast_add, Nat.cast_one]
      congr 1
      omega
    · simp only [skipBlock, List.length_cons, Nat.cast_add, Nat.cast_one] at hn ⊢
      omega

theorem visitBlock_index (env : Env) (st : ScanState) (b : LoadBlock) :
    (visitBlock env st b).index = st.index + 1 := by
  unfold visitBlock
  split
  · rw [checkBlock_index]; rfl
  · rfl

theorem callback_of_selected (env : Env) (num : Int) (st : ScanState) (b : LoadBlock)
    (hsel : num = 0 ∨ num = st.index + 1) :
    (callback env num st b).2 = visitBlock env st b := by
  unfold visitBlock
  cases hm : b.isMmapBlock with
  | false => rw [callback_of_filtered env num st b (Or.inl hm)]; rfl
  | true =>
    cases hv : b.isValidBlock with
    | false => rw [callback_of_filtered env num st b (Or.inr hv)]; rfl
    | true => rw [callback_of_checked env num st b hm hv hsel]; rfl

theorem bytesAt_succ (m : Nat → Byte) (off len : Nat) :
    bytesAt m off (len + 1) = m off :: bytesAt m (off + 1) len := by
  unfold bytesAt
  rw [List.range_succ_eq_map, List.map_cons, List.map_map]
  congr 1
  apply List.map_congr_left
  intro i _
  simp only [Function.comp, Nat.succ_eq_add_one]
  congr 1
  omega

/-- The bytes of a range, cut at position `i`. -/
theorem bytesAt_split (m : Nat → Byte) (off len i : Nat) (hi : i < len) :
    bytesAt m off len
      = bytesAt m off i ++ m (off + i) :: bytesAt m (off + i + 1) (len - i - 1) := by
  induction i generalizing off len with
  | zero =>
    obtain ⟨l, rfl⟩ : ∃ l, len = l + 1 := ⟨len - 1, by omega⟩
    rw [bytesAt_succ]
    simp [bytesAt]
  | succ i ih =>
    obtain ⟨l, rfl⟩ : ∃ l, len = l + 1 := ⟨len - 1, by omega⟩
    rw [bytesAt_succ, bytesAt_succ, ih (off + 1) l (by omega), List.cons_append]
    have e1 : off + 1 + i = off + (i + 1) := by omega
    have e2 : l - i - 1 = l + 1 - (i + 1) - 1 := by omega
    rw [e1, e2]

/-- A single-byte-sensitive checksum tells apart two memories that differ in one byte of
the range it is taken over. -/
theorem crc_bytesAt_ne (crc : List Byte → Nat) (hcrc : SingleByteSensitive crc)
    (m m1 : Nat → Byte) (off len i : Nat) (hi : i < len) (hne : m (off + i) ≠ m1 (off + i))
    (hsame : ∀ j, j < len → j ≠ i → m (off + j) = m1 (off + j)) :
    crc (bytesAt m off len) ≠ crc (bytesAt m1 off len) := by
  rw [bytesAt_split m off len i hi, bytesAt_split m1 off len i hi]
  have h1 : bytesAt m off i = bytesAt m1 off i :=
    bytesAt_congr m m1 off i (fun j hj => hsame j (by omega) (by omega))
  have h2 : bytesAt m (off + i + 1) (len - i - 1) = bytesAt m1 (off + i + 1) (len - i - 1) :=
    bytesAt_congr m m1 (off + i + 1) (len - i - 1) (fun j hj => by
      have := hsame (i + 1 + j) (by omega) (by omega)
      have e : off + (i + 1 + j) = off + i + 1 + j := by omega
      rw [e] at this
      exact this)
  rw [h1, h2]
  exact hcrc _ _ _ _ hne

theorem blockChecksums_eq_of_same (env : Env) (b : LoadBlock)
    (hsame : ∀ i, i < b.size → b.orData i = b.mmapData i)
    (hehdr : isElfMagic b.mmapData = true → env.sizeofEhdr ≤ b.size) :
    (blockChecksums env b).1 = (blockChecksums env b).2 := by
  unfold blockChecksums
  simp only [LoadBlock.begin, LoadBlock.GetCRC32]
  split
  · rename_i helf
    have hle := hehdr helf
    simp only []
    congr 1
    apply bytesAt_congr
    intro i hi
    exact hsame _ (by omega)
  · simp only []
    congr 1
    apply bytesAt_congr
    intro i hi
    exact hsame _ (by omega)

theorem blockChecksums_ne_of_differOnlyAt (env : Env) (b : LoadBlock) (off : Nat)
    (hcrc : SingleByteSensitive env.CRC32) (hsz : b.size < 2 ^ 64) (hd : differOnlyAt b off)
    (helf : isElfMagic b.mmapData = true → env.sizeofEhdr ≤ off) :
    (blockChecksums env b).1 ≠ (blockChecksums env b).2 := by
  obtain ⟨hoff, hne, hrest⟩ := hd
  unfold blockChecksums
  simp only [LoadBlock.begin, LoadBlock.GetCRC32]
  split
  · rename_i hmagic
    have hle := helf hmagic
    simp only []
    have hlen : (b.size + 2 ^ 64 - env.sizeofEhdr) % 2 ^ 64 = b.size - env.sizeofEhdr := by
      omega
    rw [hlen]
    have e : env.sizeofEhdr + (off - env.sizeofEhdr) = off := by omega
    apply crc_bytesAt_ne env.CRC32 hcrc _ _ _ _ (off - env.sizeofEhdr) (by omega)
    · rw [e]; exact hne
    · intro j hj hji
      exact hrest _ (by omega) (by omega)
  · simp only []
    apply crc_bytesAt_ne env.CRC32 hcrc _ _ _ _ off hoff
    · rw [Nat.zero_add]; exact hne
    · intro j hj hji
      rw [Nat.zero_add]
      exact hrest j hj hji

/-- A filter of `range n` is the strictly ascending list of the numbers below `n` that pass
the test. -/
theorem filter_range_eq (n : Nat) (p : Nat → Bool) (l : List Nat) (hl : l.Sorted (· < ·))
    (hmem : ∀ j, j ∈ l ↔ j < n ∧ p j = true) : (List.range n).filter p = l := by
  have hs : ((List.range n).filter p).Sorted (· < ·) := (List.sorted_lt_range n).filter p
  refine List.eq_of_perm_of_sorted ?_ hs hl
  rw [List.perm_ext_iff_of_nodup hs.nodup hl.nodup]
  intro j
  rw [hmem, List.mem_filter, List.mem_range]

/-- The windows the loop visits in a block of at most 2 GiB whose size is a multiple of 16:
the `size / 16` windows of the block. -/
theorem windowIndices_small (b : LoadBlock) (h16 : b.size % 16 = 0) (hsz : b.size ≤ 2 ^ 31) :
    windowIndices (windowCount b) = (List.range (b.size / 16)).map (fun j => 2 * j) := by
  rw [windowCount_eq b h16 (by omega), windowIndices_natCast _ (by omega)]
  have e : b.size / 8 / 2 = b.size / 16 := by omega
  rw [e]

/-- The findings of the second pass over a block of at most 2 GiB whose size is a multiple
of 16 and whose end does not wrap: the start addresses of the differing 16-byte windows of
the block, in ascending order, one per window. -/
theorem windowAddrs_windowPass_small (b : LoadBlock) (h16 : b.size % 16 = 0)
    (hsz : b.size ≤ 2 ^ 31) (hva : b.vaddr + b.size ≤ 2 ^ 64) :
    windowAddrs (windowPass b)
      = ((List.range (b.size / 16)).filter (fun j => windowDiffers b (2 * j))).map
          (fun j => b.vaddr + 16 * j) := by
  rw [windowAddrs_windowPass, windowIndices_small b h16 hsz, List.filter_map, List.map_map]
  simp only [Function.comp_def]
  apply List.map_congr_left
  intro j hj
  have hj1 : j < b.size / 16 := List.mem_range.mp (List.mem_filter.mp hj).1
  rw [current_eq b (2 * j) (by omega) (by omega)]
  omega

/-- With one differing byte, the only differing window is the one that holds it. -/
theorem windowDiffers_of_differOnlyAt (b : LoadBlock) (off j : Nat) (h16 : b.size % 16 = 0)
    (hd : differOnlyAt b off) (hj : j < b.size / 16) :
    windowDiffers b (2 * j) = true ↔ j = off / 16 := by
  obtain ⟨hoff, hne, hrest⟩ := hd
  rw [windowDiffers_iff]
  constructor
  · rintro ⟨i, hi, hdiff⟩
    by_contra hc
    exact hdiff (hrest _ (by omega) (by omega))
  · rintro rfl
    refine ⟨off % 16, by omega, ?_⟩
    have e : 8 * (2 * (off / 16)) + off % 16 = off := by omega
    rw [e]
    exact hne

theorem blockChecksums_eq_of_elf (env : Env) (b : LoadBlock)
    (hmagic : isElfMagic b.mmapData = true) (hle : env.sizeofEhdr ≤ b.size)
    (hsame : ∀ i, env.sizeofEhdr ≤ i → i < b.size → b.orData i = b.mmapData i) :
    (blockChecksums env b).1 = (blockChecksums env b).2 := by
  unfold blockChecksums
  simp only [LoadBlock.begin, hmagic, if_true]
  congr 1
  apply bytesAt_congr
  intro i hi
  exact hsame _ (by omega) (by omega)

theorem windowCount_hugeBlock : windowCount hugeBlock = -(2 ^ 31) := by
  unfold windowCount toInt32 RoundUp
  decide

theorem windowCount_wrapBlock : windowCount wrapBlock = ((2 ^ 28 + 2 : Nat) : Int) := by
  rw [windowCount_eq wrapBlock (by decide) (by decide)]
  rfl

theorem wrapBlock_differs_iff (x : Nat) :
    wrapBlock.orData x ≠ wrapBlock.mmapData x ↔ x = 8 ∨ x = 2 ^ 31 := by
  show (if x = 8 ∨ x = 2 ^ 31 then (1 : Byte) else elfBytes x) ≠ elfBytes x ↔ _
  constructor
  · intro h
    by_contra hc
    rw [if_neg hc] at h
    exact h rfl
  · intro h
    rw [if_pos h]
    rcases h with rfl | rfl <;> decide

theorem windowDiffers_wrapBlock (j : Nat) :
    windowDiffers wrapBlock (2 * j) = true ↔ j = 0 ∨ j = 2 ^ 27 := by
  rw [windowDiffers_iff]
  constructor
  · rintro ⟨i, hi, hne⟩
    rw [wrapBlock_differs_iff] at hne
    omega
  · intro h
    rcases h with h | h
    · exact ⟨8, by omega, (wrapBlock_differs_iff _).mpr (by omega)⟩
    · exact ⟨0, by omega, (wrapBlock_differs_iff _).mpr (by omega)⟩

/-- With the ELF magic in the replayed file, a single differing byte behind the skipped
header makes the checksums differ, whatever the header bytes are. -/
theorem blockChecksums_ne_of_elf (env : Env) (b : LoadBlock) (off : Nat)
    (hcrc : SingleByteSensitive env.CRC32) (hsz : b.size < 2 ^ 64)
    (hmagic : isElfMagic b.mmapData = true) (hle : env.sizeofEhdr ≤ off) (hoff : off < b.size)
    (hne : b.orData off ≠ b.mmapData off)
    (hrest : ∀ i, env.sizeofEhdr ≤ i → i < b.size → i ≠ off → b.orData i = b.mmapData i) :
    (blockChecksums env b).1 ≠ (blockChecksums env b).2 := by
  unfold blockChecksums
  simp only [LoadBlock.begin, hmagic, if_true]
  have hlen : (b.size + 2 ^ 64 - env.sizeofEhdr) % 2 ^ 64 = b.size - env.sizeofEhdr := by
    omega
  rw [hlen]
  have e : env.sizeofEhdr + (off - env.sizeofEhdr) = off := by omega
  apply crc_bytesAt_ne env.CRC32 hcrc _ _ _ _ (off - env.sizeofEhdr) (by omega)
  · rw [e]; exact hne
  · intro j hj hji
    exact hrest _ (by omega) (by omega) (by omega)

theorem current_wrapBlock_first : current wrapBlock (2 * 0) = 0x100000000 := by
  unfold current toInt32
  decide

theorem current_wrapBlock_last : current wrapBlock (2 * 2 ^ 27) = 0x80000000 := by
  unfold current toInt32
  decide

theorem count_true_differFlags (b : LoadBlock) :
    (differFlags b).count true
      = ((List.range (b.size / 16)).filter (fun j => windowDiffers b (2 * j))).length := by
  unfold differFlags
  rw [List.count_eq_countP, List.countP_map, List.countP_eq_length_filter]
  simp only [Function.comp_def, beq_true]

/-- Up to 2 GiB the second pass reports the window at `vaddr + 16 * j` exactly when one of
its sixteen bytes differs between the two sources. -/
theorem window_reported_iff_small (b : LoadBlock) (h16 : b.size % 16 = 0)
    (hsz : b.size ≤ 2 ^ 31) (hva : b.vaddr + b.size ≤ 2 ^ 64) (j : Nat) (hj : j < b.size / 16) :
    b.vaddr + 16 * j ∈ windowAddrs (windowPass b)
      ↔ ∃ i, i < 16 ∧ b.orData (16 * j + i) ≠ b.mmapData (16 * j + i) := by
  rw [windowAddrs_windowPass_small b h16 hsz hva, List.mem_map]
  have e : 8 * (2 * j) = 16 * j := by omega
  rw [← e, ← windowDiffers_iff]
  constructor
  · rintro ⟨j1, hmem, hEq⟩
    have : j1 = j := by omega
    subst this
    exact (List.mem_filter.mp hmem).2
  · intro hw
    exact ⟨j, List.mem_filter.mpr ⟨List.mem_range.mpr hj, hw⟩, by omega⟩

/-- Up to 2 GiB the findings of the second pass come in strictly ascending address order. -/
theorem findings_ascending_small (b : LoadBlock) (h16 : b.size % 16 = 0)
    (hsz : b.size ≤ 2 ^ 31) (hva : b.vaddr + b.size ≤ 2 ^ 64) :
    (windowAddrs (windowPass b)).Sorted (· < ·) := by
  rw [windowAddrs_windowPass_small b h16 hsz hva]
  have hs : ((List.range (b.size / 16)).filter (fun j => windowDiffers b (2 * j))).Sorted
      (· < ·) := (List.sorted_lt_range _).filter _
  exact List.Pairwise.map _ (fun x y hxy => by omega) hs

/-! ## Theorems: the consistency verifier -/

/-- C7: for a block that is not file-backed (`isMmapBlock` false) or not valid
(`isValidBlock` false) the callback of `clocLoadCRC32` only counts the block: whatever the
selector `num`, the checksum function and the block's contents, it computes no checksum and
prints nothing. -/
theorem unbacked_block_not_checked (env : Env) (num : Int) (st : ScanState) (b : LoadBlock)
    (h : b.isMmapBlock = false ∨ b.isValidBlock = false) :
    callback env num st b = (false, { st with index := st.index + 1 })
    ∧ (callback env num st b).2.crcCalls = st.crcCalls
    ∧ (callback env num st b).2.out = st.out := by
  rw [callback_of_filtered env num st b h]
  exact ⟨rfl, rfl, rfl⟩

/-- Witness of C7: an anonymous block differing from its (absent) file in every byte. -/
theorem unbacked_block_not_checked_witness :
    (callback env64 0 ScanState.init anonBlock).2.crcCalls = 0
    ∧ (callback env64 0 ScanState.init anonBlock).2.out = [] :=
  (unbacked_block_not_checked env64 0 ScanState.init anonBlock (Or.inl rfl)).2

/-- C8: with `num = 0` the walk checks every block: each block is counted and, when
file-backed and valid, checked. With `num = n > 0` the outcome is that of visiting the block
at 1-based position `n` alone (positions count every block of the walk, whatever its
flags): nothing is computed or printed for any other block, and nothing at all when the walk
has fewer than `n` blocks. -/
theorem selector_picks_block (env : Env) (core : CoreApi) (n : Nat)
    (hready : core.IsReady = true) :
    clocLoadCRC32 env core 0 = core.loads.foldl (visitBlock env) ScanState.init
    ∧ (0 < n → clocLoadCRC32 env core (n : Int)
        = match core.loads[n - 1]? with
          | some b =>
            { visitBlock env { ScanState.init with index := (n : Int) - 1 } b with
              index := (core.loads.length : Int) }
          | none => { ScanState.init with index := (core.loads.length : Int) }) := by
  unfold clocLoadCRC32
  simp only [hready, Bool.not_true, Bool.false_eq_true, if_false]
  rw [ForeachLoadBlock_callback, ForeachLoadBlock_callback]
  constructor
  · congr 1
    funext st b
    exact callback_of_selected env 0 st b (Or.inl rfl)
  · intro hn
    have h0 : (n : Int) ≠ 0 := by omega
    cases hb : core.loads[n - 1]? with
    | none =>
      simp only []
      have hlen : core.loads.length ≤ n - 1 := List.getElem?_eq_none_iff.mp hb
      rw [foldl_callback_unselected env n core.loads ScanState.init h0 (by
        right; simp only [ScanState.init]; omega)]
      simp [ScanState.init]
    | some b =>
      simp only []
      have hlt : n - 1 < core.loads.length := by
        by_contra hc
        rw [List.getElem?_eq_none_iff.mpr (by omega)] at hb
        exact Option.noConfusion hb
      have hget : core.loads[n - 1] = b := by
        rw [List.getElem?_eq_getElem hlt] at hb
        exact Option.some.inj hb
      have hsplit : core.loads
          = core.loads.take (n - 1) ++ b :: core.loads.drop (n - 1 + 1) := by
        rw [← hget, ← List.drop_eq_getElem_cons hlt, List.take_append_drop]
      have hlen1 : (core.loads.take (n - 1)).length = n - 1 := by
        rw [List.length_take]; omega
      have hlen2 : (core.loads.drop (n - 1 + 1)).length = core.loads.length - n := by
        rw [List.length_drop]; omega
      clear hget hb
      generalize core.loads.take (n - 1) = pre at hsplit hlen1
      generalize core.loads.drop (n - 1 + 1) = post at hsplit hlen2
      generalize hL : core.loads.length = len at hlt hlen2
      rw [hsplit, List.foldl_append, List.foldl_cons]
      rw [foldl_callback_unselected env n pre ScanState.init h0 (by
        right; simp only [ScanState.init]; omega)]
      have hidx : ({ ScanState.init with
          index := ScanState.init.index + (pre.length : Int) } : ScanState)
          = { ScanState.init with index := (n : Int) - 1 } := by
        simp only [ScanState.init, hlen1]
        congr 1
        omega
      rw [hidx, callback_of_selected env n _ b (Or.inr (by simp))]
      have hvi := visitBlock_index env { ScanState.init with index := (n : Int) - 1 } b
      rw [foldl_callback_unselected env n post _ h0 (by left; rw [hvi]; simp)]
      rw [hvi, hlen2]
      congr 1
      simp only []
      omega

/-- Witness of C8: on a walk of an anonymous block followed by a clean file-backed block,
`--num 2` checks the second block (two checksums, nothing printed). -/
theorem selector_picks_block_witness :
    clocLoadCRC32 env64 ⟨true, [anonBlock, cleanBlock]⟩ ((2 : Nat) : Int)
      = { visitBlock env64 { ScanState.init with index := ((2 : Nat) : Int) - 1 } cleanBlock
          with index := 2 } :=
  (selector_picks_block env64 ⟨true, [anonBlock, cleanBlock]⟩ 2 rfl).2 (by decide)

/-- C4: for a valid file-backed block the walk checks, whose two sources hold the same bytes
over the block's size, `clocLoadCRC32` computes two checksums, they are equal, and nothing is
printed for the block: no block line and no window line. (When the replayed file starts
with the ELF magic the block is taken to hold the whole ELF header the checksums skip:
`SIZEOF(Elfx_Ehdr) ≤ size`; a smaller block makes the unsigned length wrap and the checksum
run outside the block.) -/
theorem identical_sources_no_report (env : Env) (num : Int) (st : ScanState) (b : LoadBlock)
    (hm : b.isMmapBlock = true) (hv : b.isValidBlock = true)
    (hsel : num = 0 ∨ num = st.index + 1)
    (hsame : ∀ i, i < b.size → b.orData i = b.mmapData i)
    (hehdr : isElfMagic b.mmapData = true → env.sizeofEhdr ≤ b.size) :
    (blockChecksums env b).1 = (blockChecksums env b).2
    ∧ (callback env num st b).2.crcCalls = st.crcCalls + 2
    ∧ (callback env num st b).2.out = st.out := by
  have heq := blockChecksums_eq_of_same env b hsame hehdr
  rw [callback_of_checked env num st b hm hv hsel, checkBlock_of_eq env _ b heq]
  exact ⟨heq, rfl, rfl⟩

/-- Witness of C4: the clean block, checked first in a walk of all blocks. -/
theorem identical_sources_no_report_witness :
    (blockChecksums env64 cleanBlock).1 = (blockChecksums env64 cleanBlock).2
    ∧ (callback env64 0 ScanState.init cleanBlock).2.crcCalls = ScanState.init.crcCalls + 2
    ∧ (callback env64 0 ScanState.init cleanBlock).2.out = ScanState.init.out :=
  identical_sources_no_report env64 0 ScanState.init cleanBlock rfl rfl (Or.inl rfl)
    (fun _ _ => rfl) (fun h => absurd h (by decide))

/-- C3, as the code has it: for a valid file-backed block the walk checks, of at most 2 GiB,
whose size is a multiple of 16 and whose end does not wrap, if the two sources differ in
exactly one byte of the block and that byte is not in the ELF header the checksums skip
(offset at least `SIZEOF(Elfx_Ehdr)` when the replayed file starts with the ELF magic), then,
with a checksum that tells single-byte changes apart, exactly one window line is printed for
the block and its 16-byte range holds the address of the differing byte. -/
theorem single_byte_localized (env : Env) (num : Int) (st : ScanState) (b : LoadBlock)
    (off : Nat) (hcrc : SingleByteSensitive env.CRC32)
    (hm : b.isMmapBlock = true) (hv : b.isValidBlock = true)
    (hsel : num = 0 ∨ num = st.index + 1)
    (h16 : b.size % 16 = 0) (hsz : b.size ≤ 2 ^ 31) (hva : b.vaddr + b.size ≤ 2 ^ 64)
    (hd : differOnlyAt b off)
    (helf : isElfMagic b.mmapData = true → env.sizeofEhdr ≤ off) :
    localizesByte env num st b off := by
  have hne := blockChecksums_ne_of_differOnlyAt env b off hcrc (by omega) hd helf
  have hoff : off < b.size := hd.1
  unfold localizesByte
  rw [callback_of_checked env num st b hm hv hsel]
  simp only []
  rw [windowAddrs_printedSince_checkBlock, if_neg hne, windowAddrs_windowPass_small b h16 hsz hva,
    filter_range_eq (b.size / 16) _ [off / 16] (List.sorted_singleton _) (by
      intro j
      rw [List.mem_singleton]
      constructor
      · rintro rfl
        have hj : off / 16 < b.size / 16 := by omega
        exact ⟨hj, (windowDiffers_of_differOnlyAt b off _ h16 hd hj).mpr rfl⟩
      · rintro ⟨hj, hw⟩
        exact (windowDiffers_of_differOnlyAt b off j h16 hd hj).mp hw)]
  exact ⟨b.vaddr + 16 * (off / 16), rfl, by omega, by omega⟩

/-- Witness of C3 as amended: byte 20 of the patched block is found in the window at
`vaddr + 16`. -/
theorem single_byte_localized_witness :
    localizesByte env64 0 ScanState.init patchedBlock 20 :=
  single_byte_localized env64 0 ScanState.init patchedBlock 20 CRC32_singleByteSensitive
    rfl rfl (Or.inl rfl) (by decide) (by decide) (by decide)
    ⟨by decide, by decide, fun i _ hi => if_neg hi⟩ (fun h => absurd h (by decide))

/-- C3 as stated fails: byte 8 of `elfBlock` lies in the ELF header both checksums skip, so
a block whose sources differ in exactly that byte is checked, its checksums agree, and
nothing is printed for it, no window line in particular. -/
theorem single_byte_in_elf_header_missed :
    elfBlock.isMmapBlock = true ∧ elfBlock.isValidBlock = true
    ∧ differOnlyAt elfBlock 8
    ∧ (callback env64 0 ScanState.init elfBlock).2.out = []
    ∧ ¬ localizesByte env64 0 ScanState.init elfBlock 8 := by
  have hmagic : isElfMagic elfBlock.mmapData = true := by decide
  have heq : (blockChecksums env64 elfBlock).1 = (blockChecksums env64 elfBlock).2 :=
    blockChecksums_eq_of_elf env64 elfBlock hmagic (by decide) (fun i hi _ => by
      have h8 : i ≠ 8 := by
        have : (64 : Nat) ≤ i := hi
        omega
      exact if_neg h8)
  have hcb : (callback env64 0 ScanState.init elfBlock).2
      = { skipBlock ScanState.init with crcCalls := (skipBlock ScanState.init).crcCalls + 2 } := by
    rw [callback_of_checked env64 0 ScanState.init elfBlock rfl rfl (Or.inl rfl),
      checkBlock_of_eq env64 _ elfBlock heq]
  refine ⟨rfl, rfl, ⟨by decide, by decide, fun i _ hi => if_neg hi⟩, ?_, ?_⟩
  · rw [hcb]; rfl
  · rintro ⟨addr, h, _⟩
    rw [hcb] at h
    exact List.noConfusion h

/-- C5 at a failing input: in the 16 GiB block `hugeBlock` (size a multiple of 16) the two
checksums differ and the window at the block start differs, yet `int count` is `-2^31`, the
loop runs no turn and the second pass prints no window line at all. -/
theorem huge_block_window_missed :
    hugeBlock.size % 16 = 0
    ∧ (blockChecksums env64 hugeBlock).1 ≠ (blockChecksums env64 hugeBlock).2
    ∧ windowDiffers hugeBlock (2 * 0) = true
    ∧ windowCount hugeBlock = -(2 ^ 31)
    ∧ windowPass hugeBlock = []
    ∧ windowAddrs (printedSince ScanState.init
        (callback env64 0 ScanState.init hugeBlock).2) = [] := by
  have hne : (blockChecksums env64 hugeBlock).1 ≠ (blockChecksums env64 hugeBlock).2 :=
    blockChecksums_ne_of_differOnlyAt env64 hugeBlock 0 CRC32_singleByteSensitive (by decide)
      ⟨by decide, by decide, fun i _ hi => if_neg hi⟩ (fun h => absurd h (by decide))
  have hpass : windowPass hugeBlock = [] := by
    rw [windowPass, windowCount_hugeBlock]
    rfl
  refine ⟨by decide, hne, by decide, windowCount_hugeBlock, hpass, ?_⟩
  rw [callback_of_checked env64 0 ScanState.init hugeBlock rfl rfl (Or.inl rfl)]
  simp only []
  rw [windowAddrs_printedSince_checkBlock, if_neg hne, hpass]
  rfl

/-- C6, as the code has it: the window pass does not coalesce. Every differing window the
loop visits gets a window line of its own, so the number of findings is the number of
differing windows visited. In a block of at most 2 GiB whose size is a multiple of 16 and
whose end does not wrap these are the 16-byte windows of the block: the findings are the
start addresses of the differing windows, in ascending order, and their number is the number
of differing windows. -/
theorem one_finding_per_differing_window (b : LoadBlock) :
    (windowAddrs (windowPass b)).length
      = (windowIndices (windowCount b)).countP (windowDiffers b)
    ∧ (b.size % 16 = 0 → b.size ≤ 2 ^ 31 → b.vaddr + b.size ≤ 2 ^ 64 →
        windowAddrs (windowPass b)
          = ((List.range (b.size / 16)).filter (fun j => windowDiffers b (2 * j))).map
              (fun j => b.vaddr + 16 * j)
        ∧ (windowAddrs (windowPass b)).length = (differFlags b).count true) := by
  constructor
  · rw [windowAddrs_windowPass, List.length_map, List.countP_eq_length_filter]
  · intro h16 hsz hva
    have h := windowAddrs_windowPass_small b h16 hsz hva
    refine ⟨h, ?_⟩
    rw [h, List.length_map, count_true_differFlags]

/-- Witness of C6 as amended: the block with two adjacent differing windows. -/
theorem one_finding_per_differing_window_witness :
    windowAddrs (windowPass adjacentBlock)
      = ((List.range (adjacentBlock.size / 16)).filter
          (fun j => windowDiffers adjacentBlock (2 * j))).map
          (fun j => adjacentBlock.vaddr + 16 * j)
    ∧ (windowAddrs (windowPass adjacentBlock)).length = (differFlags adjacentBlock).count true :=
  (one_finding_per_differing_window adjacentBlock).2 (by decide) (by decide) (by decide)

set_option maxRecDepth 1000000 in
/-- C6 as stated fails: the two 16-byte windows of `adjacentBlock` differ and are adjacent,
one maximal run, yet the checked block gets two window lines, one per window. -/
theorem adjacent_windows_not_coalesced :
    differFlags adjacentBlock = [true, true]
    ∧ runCount (differFlags adjacentBlock) = 1
    ∧ windowAddrs (windowPass adjacentBlock) = [0xb000, 0xb010]
    ∧ windowAddrs (printedSince ScanState.init
        (callback env64 0 ScanState.init adjacentBlock).2) = [0xb000, 0xb010]
    ∧ (windowAddrs (windowPass adjacentBlock)).length
        ≠ runCount (differFlags adjacentBlock) := by
  have hflags : differFlags adjacentBlock = [true, true] := by decide
  have haddrs : windowAddrs (windowPass adjacentBlock) = [0xb000, 0xb010] := by
    rw [windowAddrs_windowPass_small adjacentBlock (by decide) (by decide) (by decide)]
    decide
  have hne : (blockChecksums env64 adjacentBlock).1 ≠ (blockChecksums env64 adjacentBlock).2 := by
    decide
  refine ⟨hflags, ?_, haddrs, ?_, ?_⟩
  · rw [hflags]; decide
  · rw [callback_of_checked env64 0 ScanState.init adjacentBlock rfl rfl (Or.inl rfl)]
    simp only []
    rw [windowAddrs_printedSince_checkBlock, if_neg hne, haddrs]
  · rw [hflags, haddrs]; decide

/-- C9 at a failing input: in `wrapBlock` (2 GiB + 16 bytes at `0x100000000`) the checksums
differ and the windows at word indices 0 and `2^28` differ. The product `k * 8` is formed in
`int` and wraps at `k = 2^28`, so the second finding is printed with address `0x80000000`:
not `vaddr + 8 * k = 0x180000000`, below the block start, and smaller than the address
printed before it. -/
theorem findings_wrap_beyond_2GiB :
    (blockChecksums env64 wrapBlock).1 ≠ (blockChecksums env64 wrapBlock).2
    ∧ windowAddrs (printedSince ScanState.init
        (callback env64 0 ScanState.init wrapBlock).2) = [0x100000000, 0x80000000]
    ∧ current wrapBlock (2 ^ 28) ≠ wrapBlock.vaddr + 8 * 2 ^ 28
    ∧ current wrapBlock (2 ^ 28) < current wrapBlock 0
    ∧ ¬ (windowAddrs (printedSince ScanState.init
        (callback env64 0 ScanState.init wrapBlock).2)).Sorted (· < ·) := by
  have hne : (blockChecksums env64 wrapBlock).1 ≠ (blockChecksums env64 wrapBlock).2 :=
    blockChecksums_ne_of_elf env64 wrapBlock (2 ^ 31) CRC32_singleByteSensitive (by decide)
      (by decide) (by decide) (by decide) ((wrapBlock_differs_iff _).mpr (Or.inr rfl))
      (fun i hi _ hi2 => by
        by_contra hc
        have := (wrapBlock_differs_iff i).mp hc
        have h64 : (64 : Nat) ≤ i := hi
        omega)
  have hpass : windowAddrs (windowPass wrapBlock) = [0x100000000, 0x80000000] := by
    rw [windowAddrs_windowPass, windowCount_wrapBlock, windowIndices_natCast _ (by decide),
      List.filter_map]
    simp only [Function.comp_def]
    rw [filter_range_eq ((2 ^ 28 + 2) / 2) _ [0, 2 ^ 27] (by decide) (by
      intro j
      rw [windowDiffers_wrapBlock]
      simp only [List.mem_cons, List.mem_singleton, List.not_mem_nil, or_false]
      omega)]
    rw [List.map_map]
    simp only [Function.comp_def, List.map_cons, List.map_nil]
    rw [current_wrapBlock_first, current_wrapBlock_last]
  have haddrs : windowAddrs (printedSince ScanState.init
      (callback env64 0 ScanState.init wrapBlock).2) = [0x100000000, 0x80000000] := by
    rw [callback_of_checked env64 0 ScanState.init wrapBlock rfl rfl (Or.inl rfl)]
    simp only []
    rw [windowAddrs_printedSince_checkBlock, if_neg hne, hpass]
  have hlast : current wrapBlock (2 ^ 28) = 0x80000000 := current_wrapBlock_last
  have hfirst : current wrapBlock 0 = 0x100000000 := current_wrapBlock_first
  refine ⟨hne, haddrs, ?_, ?_, ?_⟩
  · rw [hlast]; decide
  · rw [hlast, hfirst]; decide
  · rw [haddrs]; decide

/-! ## Theorems: layout registry, continued -/

/-- C11: running the same `Init` twice in a row with the same pointer width (or the same
version) leaves the registry, hence the offset and size tables of every structure kind,
equal to the registry after running it once; this holds for every pointer width and from
every earlier contents of the tables. -/
theorem Init_idempotent (w : Nat) (r : Registry) :
    LargeObjectSpace.Init w (LargeObjectSpace.Init w r) = LargeObjectSpace.Init w r
    ∧ LargeObjectMapSpace.Init w (LargeObjectMapSpace.Init w r) = LargeObjectMapSpace.Init w r
    ∧ FreeListSpace.Init w (FreeListSpace.Init w r) = FreeListSpace.Init w r
    ∧ LinkMap.Init w (LinkMap.Init w r) = LinkMap.Init w r
    ∧ ImageHeader.Init28 (ImageHeader.Init28 r) = ImageHeader.Init28 r
    ∧ ImageHeader.Init29 (ImageHeader.Init29 r) = ImageHeader.Init29 r
    ∧ ImageHeader.Init31 (ImageHeader.Init31 r) = ImageHeader.Init31 r
    ∧ ImageHeader.Init34 (ImageHeader.Init34 r) = ImageHeader.Init34 r := by
  refine ⟨?_, ?_, ?_, rfl, rfl, rfl, rfl, rfl⟩
  · unfold LargeObjectSpace.Init
    split <;> rfl
  · unfold LargeObjectMapSpace.Init
    split <;> rfl
  · unfold FreeListSpace.Init
    split <;> rfl

/-- C12: for pointer width `w` of 32 or 64, `LinkMap::Init` divides by `cap = 64 / w`, which
is not zero, and stores the offsets 0, 1, 2, 3, 4 times `w / 8` for `l_addr`, `l_name`,
`l_ld`, `l_next`, `l_prev` and the size 5 times `w / 8`: 0, 8, 16, 24, 32 and 40 for 64-bit,
0, 4, 8, 12, 16 and 20 for 32-bit. -/
theorem LinkMap_Init_layout (w : Nat) (hw : w = 32 ∨ w = 64) (r : Registry) :
    64 / w ≠ 0
    ∧ (LinkMap.Init w r).__LinkMap_offset__
        = { l_addr := 0 * (w / 8), l_name := 1 * (w / 8), l_ld := 2 * (w / 8),
            l_next := 3 * (w / 8), l_prev := 4 * (w / 8) }
    ∧ (LinkMap.Init w r).__LinkMap_size__ = { THIS := 5 * (w / 8) }
    ∧ (w = 64 → (LinkMap.Init w r).__LinkMap_offset__
          = { l_addr := 0, l_name := 8, l_ld := 16, l_next := 24, l_prev := 32 }
        ∧ (LinkMap.Init w r).__LinkMap_size__ = { THIS := 40 })
    ∧ (w = 32 → (LinkMap.Init w r).__LinkMap_offset__
          = { l_addr := 0, l_name := 4, l_ld := 8, l_next := 12, l_prev := 16 }
        ∧ (LinkMap.Init w r).__LinkMap_size__ = { THIS := 20 }) := by
  rcases hw with rfl | rfl <;> simp [LinkMap.Init]

/-- Witness of C12 at pointer width 32, from the zero-initialised tables. -/
theorem LinkMap_Init_layout_witness :
    (LinkMap.Init 32 Registry.zero).__LinkMap_offset__
        = { l_addr := 0, l_name := 4, l_ld := 8, l_next := 12, l_prev := 16 }
    ∧ (LinkMap.Init 32 Registry.zero).__LinkMap_size__ = { THIS := 20 } :=
  (LinkMap_Init_layout 32 (Or.inl rfl) Registry.zero).2.2.2.2 rfl

/-! ## Theorems: typed memory references -/

/-- C13, as the code has it: the caches are keyed on a non-null address. When the `l_addr`
(respectively `l_name`) field is not zero, every call of `GetAddrCache` (respectively
`GetNameCache`) after the first returns the cached sub-reference and leaves the reference as
it is: the field is not read again and nothing is prepared again. -/
theorem cache_kept_when_nonzero (core : CoreApi) (self : LinkMap) (n : Nat) :
    (self.l_addr ≠ 0 →
      (LinkMap.GetAddrCache core)^[n] (self.GetAddrCache core) = self.GetAddrCache core)
    ∧ (self.l_name ≠ 0 →
      (LinkMap.GetNameCache core)^[n] (self.GetNameCache core) = self.GetNameCache core) := by
  constructor
  · intro h
    have hfix : LinkMap.GetAddrCache core (self.GetAddrCache core) = self.GetAddrCache core := by
      unfold LinkMap.GetAddrCache
      by_cases hc : self.addr_cache.Ptr = 0
      · simp [hc, MemoryRef.Prepare, MemoryRef.ofPtr, h]
      · simp [hc]
    exact Function.iterate_fixed hfix n
  · intro h
    have hfix : LinkMap.GetNameCache core (self.GetNameCache core) = self.GetNameCache core := by
      unfold LinkMap.GetNameCache
      by_cases hc : self.name_cache.Ptr = 0
      · simp [hc, MemoryRef.Prepare, MemoryRef.ofPtr, h]
      · simp [hc]
    exact Function.iterate_fixed hfix n

/-- Witness of C13 as amended: a link map whose `l_addr` is `0x7000`, three later calls. -/
theorem cache_kept_when_nonzero_witness :
    (LinkMap.GetAddrCache ⟨true, [anonBlock]⟩)^[3]
        ((LinkMap.ofPtr 0x5000 0x7000 0x5100).GetAddrCache ⟨true, [anonBlock]⟩)
      = (LinkMap.ofPtr 0x5000 0x7000 0x5100).GetAddrCache ⟨true, [anonBlock]⟩ :=
  (cache_kept_when_nonzero ⟨true, [anonBlock]⟩ (LinkMap.ofPtr 0x5000 0x7000 0x5100) 3).1
    (by decide)

/-- C13 as stated fails: for a link map whose `l_addr` field is zero (a program loaded at its
link address) the cache stays null, and the second call of `GetAddrCache` reads the field and
prepares the sub-reference again; the same holds for `GetNameCache` and a null `l_name`. -/
theorem zero_field_read_again :
    ((LinkMap.ofPtr 0x5000 0 0).GetAddrCache ⟨true, []⟩).fieldReads = 1
    ∧ (((LinkMap.ofPtr 0x5000 0 0).GetAddrCache ⟨true, []⟩).GetAddrCache ⟨true, []⟩).fieldReads = 2
    ∧ (((LinkMap.ofPtr 0x5000 0 0).GetAddrCache ⟨true, []⟩).GetAddrCache ⟨true, []⟩).prepares = 2
    ∧ (((LinkMap.ofPtr 0x5000 0 0).GetNameCache ⟨true, []⟩).GetNameCache ⟨true, []⟩).fieldReads = 2
    ∧ (((LinkMap.ofPtr 0x5000 0 0).GetNameCache ⟨true, []⟩).GetNameCache ⟨true, []⟩).prepares = 2 := by
  refine ⟨rfl, rfl, rfl, rfl, rfl⟩

/-! ## Theorems: the search command -/

theorem Run.bind_eq {α β : Type} (x : Run α) (f : α → Run β) : x >>= f = Run.bind x f := rfl

theorem Run.pure_eq {α : Type} (a : α) : (pure a : Run α) = Run.pure a := rfl

/-- What a step wrote stays at the front of what the sequence wrote. -/
theorem Run.bind_out {α β : Type} (x : Run α) (f : α → Run β) :
    ∃ rest, (Run.bind x f).out = x.out ++ rest := by
  unfold Run.bind
  cases h : x.res with
  | ok a => exact ⟨(f a).out, rfl⟩
  | error e => exact ⟨[], by simp⟩

/-- The `type_flag` the option loop leaves: the flag before, with `SEARCH_OBJECT` set when
`-o` was given and `SEARCH_CLASS` set when `-c` was given. -/
theorem SearchCommand.foldl_type_flag (env : Android) (opts : List SearchOpt)
    (s : SearchCommand) :
    (opts.foldl (SearchCommand.onOption env) s).type_flag
      = s.type_flag ||| (if SearchOpt.o ∈ opts then env.SEARCH_OBJECT else 0)
          ||| (if SearchOpt.c ∈ opts then env.SEARCH_CLASS else 0) := by
  induction opts generalizing s with
  | nil => simp
  | cons opt rest ih =>
    rw [List.foldl_cons, ih]
    cases opt <;> simp [SearchCommand.onOption] <;>
      (apply Nat.eq_of_testBit_eq; intro i; split_ifs <;>
        simp only [Nat.testBit_or, Nat.zero_testBit] <;>
        cases s.type_flag.testBit i <;> cases env.SEARCH_OBJECT.testBit i <;>
        cases env.SEARCH_CLASS.testBit i <;> rfl)

/-- A sequence that starts with a written line has that line first. -/
theorem Run.bind_LOGI_head {β : Type} (line : Out) (f : Unit → Run β) :
    ((LOGI line).bind f).out.head? = some line := by
  simp [Run.bind, LOGI]

/-- An object the type filter stops is not reported and changes nothing. -/
theorem SearchCommand.SearchObjects_filtered (env : Android) (mgr : CommandManager)
    (shell0 : Option Command) (position0 : Int) (self : SearchCommand) (classname : String)
    (object : Object) (h : ¬ SearchCommand.passesTypeFilter env self object) :
    SearchCommand.SearchObjects env mgr shell0 position0 self classname object
      = Run.pure self := by
  unfold SearchCommand.passesTypeFilter at h
  unfold SearchCommand.SearchObjects
  simp only [ne_eq, not_not] at h
  simp only [h, if_true]

/-- An object that passes the type filter is reported exactly when the test of lines 131-133
holds. -/
theorem SearchCommand.SearchObjects_reports (env : Android) (mgr : CommandManager)
    (shell0 : Option Command) (position0 : Int) (self : SearchCommand) (classname : String)
    (object : Object) (h : SearchCommand.passesTypeFilter env self object) :
    SearchCommand.reports env
        (SearchCommand.SearchObjects env mgr shell0 position0 self classname object)
        (self.total_objects + 1) object
      ↔ SearchCommand.matches env self classname object = true := by
  unfold SearchCommand.passesTypeFilter at h
  unfold SearchCommand.SearchObjects SearchCommand.reports
  simp only [ne_eq] at h
  simp only [h, if_false]
  by_cases hm : SearchCommand.matches env self classname object = true
  · simp only [hm, if_true, Run.bind_eq, iff_true]
    exact Run.bind_LOGI_head _ _
  · simp [hm, Run.pure]

/-- The type filter the options leave: with `-o` and without `-c` only non-class objects
pass, with `-c` and without `-o` only class objects, otherwise every object passes. -/
theorem SearchCommand.parse_type_filter (env : Android) (self : SearchCommand)
    (opts : List SearchOpt) (n : Nat) (object : Object)
    (hO : env.SEARCH_OBJECT ≠ 0) (hC : env.SEARCH_CLASS ≠ 0)
    (hOC : env.SEARCH_OBJECT &&& env.SEARCH_CLASS = 0) :
    SearchCommand.passesTypeFilter env ((SearchCommand.parse env self opts).during n) object
      ↔ (object.IsClass = true ∧ (SearchOpt.c ∈ opts ∨ SearchOpt.o ∉ opts))
        ∨ (object.IsClass = false ∧ (SearchOpt.o ∈ opts ∨ SearchOpt.c ∉ opts)) := by
  have hCO : env.SEARCH_CLASS &&& env.SEARCH_OBJECT = 0 := by rw [Nat.and_comm]; exact hOC
  have hboth : env.SEARCH_OBJECT ||| env.SEARCH_CLASS ≠ 0 := by
    intro h
    apply hO
    apply Nat.eq_of_testBit_eq
    intro i
    have := congrArg (fun x => x.testBit i) h
    simp only [Nat.testBit_or, Nat.zero_testBit, Bool.or_eq_false_iff] at this
    simp [this.1]
  have hbO : (env.SEARCH_OBJECT ||| env.SEARCH_CLASS) &&& env.SEARCH_OBJECT ≠ 0 := by
    rw [Nat.and_comm, Nat.and_or_distrib_left, Nat.and_self, hOC, Nat.or_zero]; exact hO
  have hbC : (env.SEARCH_OBJECT ||| env.SEARCH_CLASS) &&& env.SEARCH_CLASS ≠ 0 := by
    rw [Nat.and_comm, Nat.and_or_distrib_left, Nat.and_self, hCO, Nat.zero_or]; exact hC
  have htf : ((SearchCommand.parse env self opts).during n).type_flag
      = if SearchOpt.o ∈ opts then
          (if SearchOpt.c ∈ opts then env.SEARCH_OBJECT ||| env.SEARCH_CLASS
           else env.SEARCH_OBJECT)
        else
          (if SearchOpt.c ∈ opts then env.SEARCH_CLASS
           else env.SEARCH_OBJECT ||| env.SEARCH_CLASS) := by
    unfold SearchCommand.parse SearchCommand.during
    simp only [SearchCommand.foldl_type_flag]
    by_cases ho : SearchOpt.o ∈ opts <;> by_cases hc : SearchOpt.c ∈ opts <;>
      simp [ho, hc, hO, hC, hboth] <;> split_ifs <;> rfl
  unfold SearchCommand.passesTypeFilter
  rw [htf]
  by_cases ho : SearchOpt.o ∈ opts <;> by_cases hc : SearchOpt.c ∈ opts <;>
    cases hk : object.IsClass <;>
    simp [ho, hc, hO, hC, hOC, hCO, hbO, hbC]

/-- C19: `SearchCommand` reports a class object only when class search is on and a non-class
object only when object search is on. With `-o` given and `-c` not, `SearchObjects` leaves a
class object unreported (it writes nothing and changes nothing); with `-c` given and `-o`
not, it leaves a non-class object unreported; with both or neither given an object of either
kind is reported exactly when the name test of lines 131-133 holds for it. Stated for the
members at any point of the walk (`n` objects reported so far), for flag constants
`SEARCH_OBJECT` and `SEARCH_CLASS` that are non-zero and share no bit. -/
theorem type_filter_follows_options (env : Android) (mgr : CommandManager)
    (shell0 : Option Command) (position0 : Int) (self : SearchCommand)
    (opts : List SearchOpt) (classname : String) (object : Object) (n : Nat)
    (hO : env.SEARCH_OBJECT ≠ 0) (hC : env.SEARCH_CLASS ≠ 0)
    (hOC : env.SEARCH_OBJECT &&& env.SEARCH_CLASS = 0) :
    (SearchOpt.o ∈ opts → SearchOpt.c ∉ opts → object.IsClass = true →
      SearchCommand.SearchObjects env mgr shell0 position0
          ((SearchCommand.parse env self opts).during n) classname object
        = Run.pure ((SearchCommand.parse env self opts).during n))
    ∧ (SearchOpt.c ∈ opts → SearchOpt.o ∉ opts → object.IsClass = false →
      SearchCommand.SearchObjects env mgr shell0 position0
          ((SearchCommand.parse env self opts).during n) classname object
        = Run.pure ((SearchCommand.parse env self opts).during n))
    ∧ ((SearchOpt.o ∈ opts ↔ SearchOpt.c ∈ opts) →
      (SearchCommand.reports env
          (SearchCommand.SearchObjects env mgr shell0 position0
            ((SearchCommand.parse env self opts).during n) classname object)
          (n + 1) object
        ↔ SearchCommand.matches env ((SearchCommand.parse env self opts).during n)
            classname object = true)) := by
  have hf := SearchCommand.parse_type_filter env self opts n object hO hC hOC
  refine ⟨?_, ?_, ?_⟩
  · intro ho hc hk
    apply SearchCommand.SearchObjects_filtered
    rw [hf]
    simp [ho, hc, hk]
  · intro hc ho hk
    apply SearchCommand.SearchObjects_filtered
    rw [hf]
    simp [ho, hc, hk]
  · intro hoc
    have hp : SearchCommand.passesTypeFilter env
        ((SearchCommand.parse env self opts).during n) object := by
      rw [hf]
      by_cases ho : SearchOpt.o ∈ opts
      · have hc := hoc.mp ho
        cases hk : object.IsClass <;> simp [ho, hc]
      · have hc : SearchOpt.c ∉ opts := fun h => ho (hoc.mpr h)
        cases hk : object.IsClass <;> simp [ho, hc]
    exact SearchCommand.SearchObjects_reports env mgr shell0 position0 _ classname object hp

/-- Witness of C19 on the example runtime: after `search Foo -o` the class `Foo` at `0x100`
is not reported, after `search Foo -c` the instance at `0x1000` is not, and after `search Foo`
both are, as their class is named `Foo`. -/
theorem type_filter_follows_options_witness :
    SearchCommand.SearchObjects demoEnv demoManager none 0
        ((SearchCommand.parse demoEnv SearchCommand.fresh [.o]).during 1) "Foo"
        ⟨0x100, true, 0x50, 128⟩
      = Run.pure ((SearchCommand.parse demoEnv SearchCommand.fresh [.o]).during 1)
    ∧ SearchCommand.SearchObjects demoEnv demoManager none 0
        ((SearchCommand.parse demoEnv SearchCommand.fresh [.c]).during 1) "Foo"
        ⟨0x1000, false, 0x100, 24⟩
      = Run.pure ((SearchCommand.parse demoEnv SearchCommand.fresh [.c]).during 1)
    ∧ SearchCommand.reports demoEnv
        (SearchCommand.SearchObjects demoEnv demoManager none 0
          ((SearchCommand.parse demoEnv SearchCommand.fresh []).during 1) "Foo"
          ⟨0x100, true, 0x50, 128⟩) 2 ⟨0x100, true, 0x50, 128⟩
    ∧ SearchCommand.reports demoEnv
        (SearchCommand.SearchObjects demoEnv demoManager none 0
          ((SearchCommand.parse demoEnv SearchCommand.fresh []).during 1) "Foo"
          ⟨0x1000, false, 0x100, 24⟩) 2 ⟨0x1000, false, 0x100, 24⟩ :=
  ⟨(type_filter_follows_options demoEnv demoManager none 0 SearchCommand.fresh [.o] "Foo"
      ⟨0x100, true, 0x50, 128⟩ 1 (by decide) (by decide) (by decide)).1
      (by decide) (by decide) rfl,
   (type_filter_follows_options demoEnv demoManager none 0 SearchCommand.fresh [.c] "Foo"
      ⟨0x1000, false, 0x100, 24⟩ 1 (by decide) (by decide) (by decide)).2.1
      (by decide) (by decide) rfl,
   ((type_filter_follows_options demoEnv demoManager none 0 SearchCommand.fresh [] "Foo"
      ⟨0x100, true, 0x50, 128⟩ 1 (by decide) (by decide) (by decide)).2.2
      (by decide)).mpr (by decide),
   ((type_filter_follows_options demoEnv demoManager none 0 SearchCommand.fresh [] "Foo"
      ⟨0x1000, false, 0x100, 24⟩ 1 (by decide) (by decide) (by decide)).2.2
      (by decide)).mpr (by decide)⟩

/-- The mode the option loop leaves: `regex` and `instof` are those of the last of `-r` and
`-i`, and untouched when neither is given. -/
theorem SearchCommand.foldl_mode (env : Android) (opts : List SearchOpt) (s : SearchCommand) :
    (SearchCommand.lastMode opts = some .r →
      (opts.foldl (SearchCommand.onOption env) s).regex = true
      ∧ (opts.foldl (SearchCommand.onOption env) s).instof = false)
    ∧ (SearchCommand.lastMode opts = some .i →
      (opts.foldl (SearchCommand.onOption env) s).regex = false
      ∧ (opts.foldl (SearchCommand.onOption env) s).instof = true)
    ∧ (SearchCommand.lastMode opts = none →
      (opts.foldl (SearchCommand.onOption env) s).regex = s.regex
      ∧ (opts.foldl (SearchCommand.onOption env) s).instof = s.instof) := by
  induction opts generalizing s with
  | nil => simp [SearchCommand.lastMode]
  | cons opt rest ih =>
    rw [List.foldl_cons]
    obtain ⟨ih1, ih2, ih3⟩ := ih (SearchCommand.onOption env s opt)
    cases hl : SearchCommand.lastMode rest with
    | some m =>
      simp only [SearchCommand.lastMode, hl]
      refine ⟨fun h => ih1 (by rw [hl]; exact h), fun h => ih2 (by rw [hl]; exact h), ?_⟩
      intro h
      cases h
    | none =>
      obtain ⟨h3r, h3i⟩ := ih3 hl
      simp only [SearchCommand.lastMode, hl]
      rw [h3r, h3i]
      cases opt <;> simp [SearchCommand.onOption]

/-- The members `regex` and `instof` that `parse` leaves are those the option loop leaves. -/
theorem SearchCommand.parse_mode (env : Android) (self : SearchCommand)
    (opts : List SearchOpt) (n : Nat) :
    ((SearchCommand.parse env self opts).during n).regex
        = (opts.foldl (SearchCommand.onOption env)
            { self with type_flag := 0, each_flag := 0, regex := false, show_ := false,
                        format_hex := false }).regex
    ∧ ((SearchCommand.parse env self opts).during n).instof
        = (opts.foldl (SearchCommand.onOption env)
            { self with type_flag := 0, each_flag := 0, regex := false, show_ := false,
                        format_hex := false }).instof := by
  unfold SearchCommand.parse SearchCommand.during
  constructor <;> (simp only []; split_ifs <;> rfl)

/-- C20: in `SearchCommand` the options `-r` and `-i` are exclusive and the last one given
wins, whatever `instof` held before. When the last is `-r`, `regex` is set and `instof`
cleared, and an object that passes the type filter is reported if and only if the regular
expression CLASSNAME matches somewhere in the pretty descriptor of its class or the
descriptor equals CLASSNAME. When the last is `-i`, `instof` is set and `regex` cleared, and
such an object is reported if and only if the descriptor equals CLASSNAME or the object is an
instance of CLASSNAME. -/
theorem mode_last_option_wins (env : Android) (mgr : CommandManager)
    (shell0 : Option Command) (position0 : Int) (self : SearchCommand)
    (opts : List SearchOpt) (classname : String) (object : Object) (n : Nat)
    (hpass : SearchCommand.passesTypeFilter env
      ((SearchCommand.parse env self opts).during n) object) :
    (SearchCommand.lastMode opts = some .r →
      ((SearchCommand.parse env self opts).during n).regex = true
      ∧ ((SearchCommand.parse env self opts).during n).instof = false
      ∧ (SearchCommand.reports env
            (SearchCommand.SearchObjects env mgr shell0 position0
              ((SearchCommand.parse env self opts).during n) classname object)
            (n + 1) object
          ↔ env.regex_search (env.PrettyDescriptor (SearchCommand.thiz object)) classname = true
            ∨ env.PrettyDescriptor (SearchCommand.thiz object) = classname))
    ∧ (SearchCommand.lastMode opts = some .i →
      ((SearchCommand.parse env self opts).during n).regex = false
      ∧ ((SearchCommand.parse env self opts).during n).instof = true
      ∧ (SearchCommand.reports env
            (SearchCommand.SearchObjects env mgr shell0 position0
              ((SearchCommand.parse env self opts).during n) classname object)
            (n + 1) object
          ↔ env.PrettyDescriptor (SearchCommand.thiz object) = classname
            ∨ env.instanceof object.Ptr classname = true)) := by
  have hrep := SearchCommand.SearchObjects_reports env mgr shell0 position0
    ((SearchCommand.parse env self opts).during n) classname object hpass
  have hn : ((SearchCommand.parse env self opts).during n).total_objects + 1 = n + 1 := rfl
  rw [hn] at hrep
  obtain ⟨hr, hi⟩ := SearchCommand.parse_mode env self opts n
  obtain ⟨h1, h2, _⟩ := SearchCommand.foldl_mode env opts
    { self with type_flag := 0, each_flag := 0, regex := false, show_ := false,
                format_hex := false }
  constructor
  · intro hl
    obtain ⟨a, b⟩ := h1 hl
    rw [← hr] at a
    rw [← hi] at b
    refine ⟨a, b, ?_⟩
    rw [hrep]
    unfold SearchCommand.matches
    rw [a, b]
    simp
  · intro hl
    obtain ⟨a, b⟩ := h2 hl
    rw [← hr] at a
    rw [← hi] at b
    refine ⟨a, b, ?_⟩
    rw [hrep]
    unfold SearchCommand.matches
    rw [a, b]
    simp

/-- Witness of C20 on the example runtime, for a command whose `instof` is still set from an
earlier run: after `search o+ -i -r` the instance of `Foo` at `0x1000` is reported, as `o+`
matches in `Foo`; after `search java.lang.Object -r -i` it is reported, as it is an instance
of `java.lang.Object`. -/
theorem mode_last_option_wins_witness :
    (((SearchCommand.parse demoEnv ⟨0, 0, false, false, false, true, 0⟩ [.i, .r]).during 0).regex
        = true
      ∧ ((SearchCommand.parse demoEnv ⟨0, 0, false, false, false, true, 0⟩ [.i, .r]).during 0).instof
        = false
      ∧ (SearchCommand.reports demoEnv
            (SearchCommand.SearchObjects demoEnv demoManager none 0
              ((SearchCommand.parse demoEnv ⟨0, 0, false, false, false, true, 0⟩ [.i, .r]).during 0)
              "o+" ⟨0x1000, false, 0x100, 24⟩)
            (0 + 1) ⟨0x1000, false, 0x100, 24⟩
          ↔ demoEnv.regex_search
              (demoEnv.PrettyDescriptor (SearchCommand.thiz ⟨0x1000, false, 0x100, 24⟩)) "o+" = true
            ∨ demoEnv.PrettyDescriptor (SearchCommand.thiz ⟨0x1000, false, 0x100, 24⟩) = "o+"))
    ∧ (((SearchCommand.parse demoEnv ⟨0, 0, false, false, false, true, 0⟩ [.r, .i]).during 0).regex
        = false
      ∧ ((SearchCommand.parse demoEnv ⟨0, 0, false, false, false, true, 0⟩ [.r, .i]).during 0).instof
        = true
      ∧ (SearchCommand.reports demoEnv
            (SearchCommand.SearchObjects demoEnv demoManager none 0
              ((SearchCommand.parse demoEnv ⟨0, 0, false, false, false, true, 0⟩ [.r, .i]).during 0)
              "java.lang.Object" ⟨0x1000, false, 0x100, 24⟩)
            (0 + 1) ⟨0x1000, false, 0x100, 24⟩
          ↔ demoEnv.PrettyDescriptor (SearchCommand.thiz ⟨0x1000, false, 0x100, 24⟩)
              = "java.lang.Object"
            ∨ demoEnv.instanceof 0x1000 "java.lang.Object" = true)) :=
  ⟨(mode_last_option_wins demoEnv demoManager none 0 ⟨0, 0, false, false, false, true, 0⟩
      [.i, .r] "o+" ⟨0x1000, false, 0x100, 24⟩ 0 (by decide)).1 (by decide),
   (mode_last_option_wins demoEnv demoManager none 0 ⟨0, 0, false, false, false, true, 0⟩
      [.r, .i] "java.lang.Object" ⟨0x1000, false, 0x100, 24⟩ 0 (by decide)).2 (by decide)⟩

/-! ## Theorems: the print command and `CommandManager::Execute` -/

theorem Run.bind_ok {α β : Type} (x : Run α) (f : α → Run β) (a : α) (h : x.res = .ok a) :
    x.bind f = ⟨x.out ++ (f a).out, (f a).res⟩ := by
  unfold Run.bind
  rw [h]

theorem Run.bind_error {α β : Type} (x : Run α) (f : α → Run β) (e : InvalidAddressException)
    (h : x.res = .error e) : x.bind f = ⟨x.out, .error e⟩ := by
  unfold Run.bind
  rw [h]

/-- A loop whose body throws at `f`, after the turns for `pre` went through, wrote what those
turns and the failing turn wrote, and throws. -/
theorem Run.forEach_error {α : Type} (body : α → Run Unit) (pre : List α) (f : α)
    (post : List α) (e : InvalidAddressException)
    (hpre : (Run.forEach body pre).res = .ok ()) (hf : (body f).res = .error e) :
    Run.forEach body (pre ++ f :: post)
      = ⟨(Run.forEach body pre).out ++ (body f).out, .error e⟩ := by
  induction pre with
  | nil =>
    simp only [List.nil_append, Run.forEach]
    rw [Run.bind_error _ _ e hf]
    simp [Run.pure]
  | cons x xs ih =>
    simp only [List.cons_append, Run.forEach] at hpre ⊢
    cases hx : (body x).res with
    | error e1 =>
      rw [Run.bind_error _ _ e1 hx] at hpre
      cases hpre
    | ok u =>
      rw [Run.bind_ok _ _ u hx] at hpre
      simp only at hpre
      have ih2 := ih hpre
      simp only [Run.bind, hx, List.append_eq, ih2, List.append_assoc]

/-- A `PrintField` that throws wrote the header of the field and nothing else. -/
theorem PrintCommand.PrintField_error (env : Android) (format : Nat) (clazz : Class)
    (object : HeapObject) (field : ArtField) (e : InvalidAddressException)
    (h : (PrintCommand.PrintField env format clazz object field).res = .error e) :
    PrintCommand.PrintField env format clazz object field
      = ⟨[PrintCommand.fieldHeader format field], .error e⟩ := by
  unfold PrintCommand.PrintField at h ⊢
  unfold PrintCommand.fieldHeader
  simp only [Run.bind_eq, Run.pure_eq] at h ⊢
  cases ht : field.type <;> simp only [ht] at h ⊢ <;> (try split_ifs at h ⊢) <;>
    cases hr : field.Get object.Ptr <;> cases hl : object.GetLength <;>
    simp [Run.bind, LOGI, Run.read, Run.pure, hr, hl] at h ⊢ <;> (try exact h)
  all_goals
    rename_i tmp _
    by_cases h0 : tmp = 0
    · simp [h0] at h
    · cases hs : (env.heap tmp).IsString with
      | error e1 => simp [h0, hs] at h ⊢; exact h
      | ok b =>
        cases b
        · simp [h0, hs] at h
        · cases hu : (env.heap tmp).ToModifiedUtf8 <;> simp [h0, hs, hu] at h ⊢
          exact h

/-- The turn of `DumpInstance` for a class one of whose fields cannot be read ends at that
field. -/
theorem PrintCommand.DumpInstance.turn_error (env : Android) (format : Nat)
    (object : HeapObject) (clazz c : Class) (pre : List ArtField) (f : ArtField)
    (post : List ArtField) (e : InvalidAddressException)
    (hfields : c.fields = pre ++ f :: post)
    (hpre : (Run.forEach (PrintCommand.PrintField env format c object) pre).res = .ok ())
    (hfail : (PrintCommand.PrintField env format c object f).res = .error e) :
    PrintCommand.DumpInstance.turn env format object clazz c
      = ⟨(if clazz.Ptr ≠ c.Ptr then [Out.printExtends c.PrettyDescriptor] else [])
          ++ (Run.forEach (PrintCommand.PrintField env format c object) pre).out
          ++ [PrintCommand.fieldHeader format f], .error e⟩ := by
  unfold PrintCommand.DumpInstance.turn
  rw [hfields, Run.forEach_error _ pre f post e hpre hfail,
    PrintCommand.PrintField_error env format c object f e hfail]
  simp only [Run.bind_eq, Run.pure_eq]
  split_ifs <;> simp [Run.bind, LOGI, Run.pure, pure]

/-- `DumpInstance` ends at the first field that cannot be read. -/
theorem PrintCommand.DumpInstance_error (env : Android) (object : HeapObject) (size : Nat)
    (before : List Class) (c : Class) (after : List Class)
    (pre : List ArtField) (f : ArtField) (post : List ArtField) (e : InvalidAddressException)
    (hsize : object.SizeOf = .ok size)
    (hchain : object.GetClass :: object.supers = before ++ c :: after)
    (hfields : c.fields = pre ++ f :: post)
    (hbefore : (Run.forEach
      (PrintCommand.DumpInstance.turn env (PrintCommand.FormatSize size) object object.GetClass)
      before).res = .ok ())
    (hpre : (Run.forEach (PrintCommand.PrintField env (PrintCommand.FormatSize size) c object)
      pre).res = .ok ())
    (hfail : (PrintCommand.PrintField env (PrintCommand.FormatSize size) c object f).res
      = .error e) :
    PrintCommand.DumpInstance env object
      = ⟨PrintCommand.linesUpTo env object size before c pre f, .error e⟩ := by
  have hturn := PrintCommand.DumpInstance.turn_error env (PrintCommand.FormatSize size) object
    object.GetClass c pre f post e hfields hpre hfail
  have hres : (PrintCommand.DumpInstance.turn env (PrintCommand.FormatSize size) object
      object.GetClass c).res = .error e := by rw [hturn]
  unfold PrintCommand.DumpInstance PrintCommand.linesUpTo
  simp only [Run.bind_eq, Run.pure_eq, hsize, Run.bind, Run.read, LOGI]
  rw [hchain, Run.forEach_error _ before c after e hbefore hres, hturn]
  simp

/-- `DumpObject` on an instance that is neither a class nor an array: the size lines, then
`DumpInstance`. -/
theorem PrintCommand.DumpObject_instance (env : Android) (object : HeapObject) (size : Nat)
    (hsize : object.SizeOf = .ok size) (hclazz : object.GetClass.Ptr ≠ 0)
    (hclass : object.IsClass = false) (harray : object.GetClass.IsArrayClass = false) :
    PrintCommand.DumpObject env object
      = ⟨PrintCommand.sizeLines env size ++ (PrintCommand.DumpInstance env object).out,
          (PrintCommand.DumpInstance env object).res⟩ := by
  unfold PrintCommand.DumpObject PrintCommand.sizeLines
  by_cases hp : size = RoundUp size env.kObjectAlignment
  · simp [Run.bind_eq, hsize, hclazz, hclass, harray, ← hp, Run.bind, LOGI, Run.read,
      Run.pure, pure]
  · simp [Run.bind_eq, hsize, hclazz, hclass, harray, hp, Run.bind, LOGI, Run.read,
      Run.pure, pure]

/-- Without `|` and `>` among the arguments the scan of lines 56-72 leaves the locals of
`Execute` as they were. -/
theorem CommandManager.scanArgs_plain (mgr : CommandManager) (argc : Int) (argv : List String)
    (h : ∀ a ∈ argv, a ≠ "|" ∧ a ≠ ">") (fuel i : Nat) (locals : ExecuteLocals) :
    mgr.scanArgs argc argv fuel i locals = locals := by
  induction fuel generalizing i with
  | zero => rfl
  | succ fuel ih =>
    unfold CommandManager.scanArgs
    have hget : argv.getD i "" ≠ "|" ∧ argv.getD i "" ≠ ">" := by
      by_cases hi : i < argv.length
      · rw [List.getD_eq_getElem argv "" hi]
        exact h _ (List.getElem_mem hi)
      · rw [List.getD_eq_default argv "" (by omega)]
        exact ⟨by decide, by decide⟩
    simp only [hget.1, hget.2, if_false, ih]
    split_ifs <;> rfl

/-- `Execute` on a command whose `main` throws, with no `|` and no `>` among the arguments and
a null `shell`: what `main` wrote, the message of the exception, and the return value 0. -/
theorem CommandManager.Execute_catch (mgr : CommandManager) (position0 : Int) (cmd : String)
    (command : Command) (argc : Int) (argv : List String) (e : InvalidAddressException)
    (hfind : mgr.FindCommand cmd = some command)
    (hplain : ∀ a ∈ argv, a ≠ "|" ∧ a ≠ ">")
    (hmain : (command.main argc argv).res = .error e) :
    mgr.Execute none position0 (some cmd) argc argv
      = ⟨(command.main argc argv).out ++ [Out.cout e.what], .ok 0⟩ := by
  unfold CommandManager.Execute
  simp only [hfind, CommandManager.scanArgs_plain mgr argc argv hplain]
  simp [Run.bind, Run.tryCatch, Run.pure, LOGI, hmain]

/-- `Execute` on a command whose `main` returns, with no `|` and no `>` among the arguments
and a null `shell`: what `main` wrote and returned. -/
theorem CommandManager.Execute_plain (mgr : CommandManager) (position0 : Int) (cmd : String)
    (command : Command) (argc : Int) (argv : List String) (r : Int)
    (hfind : mgr.FindCommand cmd = some command)
    (hplain : ∀ a ∈ argv, a ≠ "|" ∧ a ≠ ">")
    (hmain : (command.main argc argv).res = .ok r) :
    mgr.Execute none position0 (some cmd) argc argv
      = ⟨(command.main argc argv).out, .ok r⟩ := by
  unfold CommandManager.Execute
  simp only [hfind, CommandManager.scanArgs_plain mgr argc argv hplain]
  simp [Run.bind, Run.tryCatch, Run.pure, hmain]

/-- C17, as amended: when reading one field of the object being dumped fails with an
invalid-address error, the dump ends at that field. `DumpInstance` has written the object
name, the classes before the one that declares the field, the fields before it and the
header of the field itself, and throws: no later field and no later superclass is printed
(first part). The exception leaves `PrintCommand::main`; `CommandManager::Execute`, entered
with a null `shell` and arguments without `|` and `>`, catches it, writes its message after
the lines of the dump and returns 0 (second part). The first failure is given by its place:
the classes `before` and the fields `pre` of the class `c` are dumped without failure, the
field `f` of `c` is the one whose read throws `e`. -/
theorem dump_ends_at_failed_field (env : Android) (object : HeapObject) (size : Nat)
    (before : List Class) (c : Class) (after : List Class)
    (pre : List ArtField) (f : ArtField) (post : List ArtField) (e : InvalidAddressException)
    (hsize : object.SizeOf = .ok size)
    (hchain : object.GetClass :: object.supers = before ++ c :: after)
    (hfields : c.fields = pre ++ f :: post)
    (hbefore : (Run.forEach
      (PrintCommand.DumpInstance.turn env (PrintCommand.FormatSize size) object object.GetClass)
      before).res = .ok ())
    (hpre : (Run.forEach (PrintCommand.PrintField env (PrintCommand.FormatSize size) c object)
      pre).res = .ok ())
    (hfail : (PrintCommand.PrintField env (PrintCommand.FormatSize size) c object f).res
      = .error e) :
    PrintCommand.DumpInstance env object
      = ⟨PrintCommand.linesUpTo env object size before c pre f, .error e⟩
    ∧ ∀ (mgr : CommandManager) (position0 : Int) (cmd : String) (argc : Int)
        (argv : List String),
        mgr.FindCommand cmd = some (PrintCommand.command env) →
        (∀ a ∈ argv, a ≠ "|" ∧ a ≠ ">") →
        env.core.IsReady = true → env.IsSdkReady = true → argc ≠ 0 →
        env.heap (env.atol (argv.getD 0 "")) = object →
        object.GetClass.Ptr ≠ 0 → object.IsClass = false →
        object.GetClass.IsArrayClass = false →
        mgr.Execute none position0 (some cmd) argc argv
          = ⟨PrintCommand.sizeLines env size
              ++ PrintCommand.linesUpTo env object size before c pre f
              ++ [Out.cout e.what], .ok 0⟩ := by
  have hdump := PrintCommand.DumpInstance_error env object size before c after pre f post e
    hsize hchain hfields hbefore hpre hfail
  refine ⟨hdump, ?_⟩
  intro mgr position0 cmd argc argv hfind hplain hready hsdk hargc hobj hclazz hclass harray
  have hmain : (PrintCommand.command env).main argc argv
      = ⟨PrintCommand.sizeLines env size
          ++ PrintCommand.linesUpTo env object size before c pre f, .error e⟩ := by
    show PrintCommand.main env argc argv = _
    have hz : (argc == 0) = false := by simpa using hargc
    unfold PrintCommand.main
    simp only [hready, hsdk, hz, hobj, Run.bind_eq, Run.pure_eq,
      PrintCommand.DumpObject_instance env object size hsize hclazz hclass harray, hdump]
    simp [Run.bind]
  have hres : ((PrintCommand.command env).main argc argv).res = .error e := by rw [hmain]
  rw [CommandManager.Execute_catch mgr position0 cmd _ argc argv e hfind hplain hres, hmain]

/-- Witness of C17 as amended, on the example runtime: the object at `0x2000` holds a
reference to unmapped memory in its second field `name`. Its dump ends with the header of
`name`, and `Execute("p", 1, argv)` with `argv[0] = "2000"` writes the size, those lines and the message of
the exception, and returns 0. -/
theorem dump_ends_at_failed_field_witness :
    PrintCommand.DumpInstance demoEnv (demoHeap 0x2000)
      = ⟨[Out.printObjectName "Foo", Out.printField 2 8 "private " "int" "count",
          Out.printValue .basic_int 9,
          Out.printField 2 12 "private " "java.lang.String" "name"], .error invalidAddress⟩
    ∧ demoManager.Execute none 0 (some "p") 1 ["2000"]
      = ⟨[Out.printSize 24, Out.printObjectName "Foo",
          Out.printField 2 8 "private " "int" "count", Out.printValue .basic_int 9,
          Out.printField 2 12 "private " "java.lang.String" "name",
          Out.cout "Invalid address"], .ok 0⟩ :=
  ⟨(dump_ends_at_failed_field demoEnv (demoHeap 0x2000) 24 [] demoFoo [demoObjectClass]
      [demoFieldCount] demoFieldName [demoFieldReady] invalidAddress rfl rfl rfl rfl rfl rfl).1,
   (dump_ends_at_failed_field demoEnv (demoHeap 0x2000) 24 [] demoFoo [demoObjectClass]
      [demoFieldCount] demoFieldName [demoFieldReady] invalidAddress rfl rfl rfl rfl rfl rfl).2
      demoManager 0 "p" 1 ["2000"] rfl (by decide) rfl rfl (by decide) rfl (by decide) rfl rfl⟩

/-- Counterexample to C17 as stated, on the example runtime: the object at `0x2000` has the
fields `count`, `name`, `ready` and the superclass `java.lang.Object`, and its `name` refers
to unmapped memory. The dump does not continue behind `name`: it ends with the header of
`name` and throws, so neither the field `ready` nor the line of the superclass is written,
which the dump of the object at `0x1000` (same class, `name` null) shows behind `name`. -/
theorem failed_field_ends_dump :
    (PrintCommand.DumpInstance demoEnv (demoHeap 0x2000)).out
      = [Out.printObjectName "Foo", Out.printField 2 8 "private " "int" "count",
          Out.printValue .basic_int 9,
          Out.printField 2 12 "private " "java.lang.String" "name"]
    ∧ (PrintCommand.DumpInstance demoEnv (demoHeap 0x2000)).res = .error invalidAddress
    ∧ Out.printField 2 16 "private " "boolean" "ready"
        ∉ (PrintCommand.DumpInstance demoEnv (demoHeap 0x2000)).out
    ∧ Out.printExtends "java.lang.Object"
        ∉ (PrintCommand.DumpInstance demoEnv (demoHeap 0x2000)).out
    ∧ (demoManager.Execute none 0 (some "p") 1 ["2000"]).out
      = [Out.printSize 24, Out.printObjectName "Foo",
          Out.printField 2 8 "private " "int" "count", Out.printValue .basic_int 9,
          Out.printField 2 12 "private " "java.lang.String" "name",
          Out.cout "Invalid address"]
    ∧ (PrintCommand.DumpInstance demoEnv (demoHeap 0x1000)).out
      = [Out.printObjectName "Foo", Out.printField 2 8 "private " "int" "count",
          Out.printValue .basic_int 7,
          Out.printField 2 12 "private " "java.lang.String" "name",
          Out.printValue .basic_object 0,
          Out.printField 2 16 "private " "boolean" "ready", Out.printValue .basic_boolean 1,
          Out.printExtends "java.lang.Object"]
    ∧ (PrintCommand.DumpInstance demoEnv (demoHeap 0x1000)).res = .ok () := by
  refine ⟨by decide, rfl, by decide, by decide, by decide, by decide, rfl⟩

/-! ## Theorems: `search --print` -/

/-- C18, evaluation of the code at the failing input: `search Foo -o -p` on the example
runtime, whose heap holds two instances of `Foo`, at `0x1000` and at `0x2000`.
`SearchObjects` calls `Execute("p", 2, argv)` with `argv[0] = "p"` and the address of the
match in `argv[1]`, and `PrintCommand::main` dumps the object at `Utils::atol(argv[0])`: for
every runtime the run of the print command is the same for any two matched addresses (first
part). On the example runtime `atol("p")` is 0, which cannot be read: each match line is
followed by the message of the exception instead of a dump, and the first line of the dump of
the matched object, `Size: 0x18`, is written nowhere (second to fourth part). -/
theorem search_print_dumps_command_name :
    (∀ (env : Android) (a b : Nat),
      PrintCommand.main env 2 ["p", env.ToHex a, ""]
        = PrintCommand.main env 2 ["p", env.ToHex b, ""])
    ∧ (SearchCommand.main demoEnv demoManager none 0 SearchCommand.fresh 4 [.o, .p] "Foo").out
      = [Out.searchMatch 1 0x1000 "Foo", Out.cout "Invalid address",
          Out.searchMatch 2 0x2000 "Foo", Out.cout "Invalid address"]
    ∧ (PrintCommand.DumpObject demoEnv (demoEnv.heap 0x1000)).out
      = [Out.printSize 24, Out.printObjectName "Foo",
          Out.printField 2 8 "private " "int" "count", Out.printValue .basic_int 7,
          Out.printField 2 12 "private " "java.lang.String" "name",
          Out.printValue .basic_object 0,
          Out.printField 2 16 "private " "boolean" "ready", Out.printValue .basic_boolean 1,
          Out.printExtends "java.lang.Object"]
    ∧ Out.printSize 24
        ∉ (SearchCommand.main demoEnv demoManager none 0 SearchCommand.fresh 4 [.o, .p] "Foo").out := by
  refine ⟨fun _ _ _ => rfl, by decide, by decide, by decide⟩

/-! ## Theorems: the top command -/

theorem ClassMap.find_insert (key c : Nat) (pair : TopCommand.Pair) (m : ClassMap)
    (h : ClassMap.find key m = none) :
    ClassMap.find c (ClassMap.insert key pair m)
      = if c = key then some pair else ClassMap.find c m := by
  induction m with
  | nil =>
    simp only [ClassMap.insert, ClassMap.find]
    by_cases hc : c = key
    · simp [hc]
    · simp [hc, Ne.symm hc]
  | cons x rest ih =>
    obtain ⟨k, p⟩ := x
    simp only [ClassMap.find] at h
    by_cases hk : k = key
    · simp [hk] at h
    · simp only [hk, if_false] at h
      simp only [ClassMap.insert]
      by_cases hlt : key < k
      · simp only [hlt, if_true, ClassMap.find]
        by_cases hc : c = key
        · simp [hc]
        · simp [hc, Ne.symm hc]
      · simp only [hlt, if_false, Ne.symm hk, ClassMap.find, ih h]
        by_cases hc : c = key
        · have : k ≠ c := by rw [hc]; exact hk
          simp [hc, hk]
        · simp [hc]

theorem ClassMap.find_modify (key c : Nat) (f : TopCommand.Pair → TopCommand.Pair)
    (m : ClassMap) :
    ClassMap.find c (ClassMap.modify key f m)
      = if c = key then (ClassMap.find key m).map f else ClassMap.find c m := by
  induction m with
  | nil => simp [ClassMap.modify, ClassMap.find]
  | cons x rest ih =>
    obtain ⟨k, p⟩ := x
    simp only [ClassMap.modify]
    by_cases hk : k = key
    · simp only [hk, if_true, ClassMap.find]
      by_cases hc : c = key
      · simp [hc]
      · simp [hc, Ne.symm hc]
    · simp only [hk, if_false, ClassMap.find, ih]
      by_cases hc : c = key
      · have : k ≠ c := by rw [hc]; exact hk
        simp [hc, hk]
      · simp [hc]

theorem ClassMap.keys_modify (key : Nat) (f : TopCommand.Pair → TopCommand.Pair)
    (m : ClassMap) : ClassMap.keys (ClassMap.modify key f m) = ClassMap.keys m := by
  induction m with
  | nil => rfl
  | cons x rest ih =>
    obtain ⟨k, p⟩ := x
    simp only [ClassMap.modify]
    by_cases hk : k = key
    · simp [hk, ClassMap.keys]
    · simp only [hk, if_false]
      simp only [ClassMap.keys, List.map_cons] at ih ⊢
      rw [ih]

theorem ClassMap.mem_keys_insert (key k1 : Nat) (pair : TopCommand.Pair) (m : ClassMap)
    (h : k1 ∈ ClassMap.keys (ClassMap.insert key pair m)) :
    k1 = key ∨ k1 ∈ ClassMap.keys m := by
  induction m with
  | nil =>
    simp [ClassMap.insert, ClassMap.keys] at h
    exact Or.inl h
  | cons x rest ih =>
    obtain ⟨k, p⟩ := x
    simp only [ClassMap.insert] at h
    by_cases hlt : key < k
    · simp only [hlt, if_true] at h
      simp only [ClassMap.keys, List.map_cons, List.mem_cons] at h ⊢
      exact h
    · simp only [hlt, if_false] at h
      by_cases hk : key = k
      · simp only [hk, if_true] at h
        exact Or.inr h
      · simp only [hk, if_false] at h
        simp only [ClassMap.keys, List.map_cons, List.mem_cons] at h ih ⊢
        rcases h with h | h
        · exact Or.inr (Or.inl h)
        · rcases ih h with h1 | h1
          · exact Or.inl h1
          · exact Or.inr (Or.inr h1)

/-- An insertion keeps the keys in strictly ascending order. -/
theorem ClassMap.keys_insert_sorted (key : Nat) (pair : TopCommand.Pair) (m : ClassMap)
    (h : (ClassMap.keys m).Pairwise (fun a b => a < b)) :
    (ClassMap.keys (ClassMap.insert key pair m)).Pairwise (fun a b => a < b) := by
  induction m with
  | nil => simp [ClassMap.insert, ClassMap.keys]
  | cons x rest ih =>
    obtain ⟨k, p⟩ := x
    have h1 : ∀ b ∈ ClassMap.keys rest, k < b := by
      simp only [ClassMap.keys, List.map_cons, List.pairwise_cons] at h
      exact h.1
    have h2 : (ClassMap.keys rest).Pairwise (fun a b => a < b) := by
      simp only [ClassMap.keys, List.map_cons, List.pairwise_cons] at h
      exact h.2
    simp only [ClassMap.insert]
    by_cases hlt : key < k
    · simp only [hlt, if_true]
      show (key :: k :: ClassMap.keys rest).Pairwise (fun a b => a < b)
      refine List.Pairwise.cons ?_ h
      intro b hb
      rcases List.mem_cons.mp hb with hb | hb
      · rw [hb]; exact hlt
      · exact Nat.lt_trans hlt (h1 b hb)
    · simp only [hlt, if_false]
      by_cases hk : key = k
      · simp only [hk, if_true]
        exact h
      · simp only [hk, if_false]
        show (k :: ClassMap.keys (ClassMap.insert key pair rest)).Pairwise (fun a b => a < b)
        refine List.Pairwise.cons ?_ (ih h2)
        intro b hb
        rcases ClassMap.mem_keys_insert key b pair rest hb with hb | hb
        · rw [hb]; omega
        · exact h1 b hb

theorem ClassMap.sumOf_insert (g : TopCommand.Pair → Nat) (key : Nat) (pair : TopCommand.Pair)
    (m : ClassMap) (h : ClassMap.find key m = none) :
    ClassMap.sumOf g (ClassMap.insert key pair m) = ClassMap.sumOf g m + g pair := by
  induction m with
  | nil => simp [ClassMap.insert, ClassMap.sumOf]
  | cons x rest ih =>
    obtain ⟨k, p⟩ := x
    simp only [ClassMap.find] at h
    by_cases hk : k = key
    · simp [hk] at h
    · simp only [hk, if_false] at h
      simp only [ClassMap.insert]
      by_cases hlt : key < k
      · simp only [hlt, if_true, ClassMap.sumOf, List.map_cons, List.sum_cons]
        omega
      · simp only [hlt, if_false, Ne.symm hk]
        have := ih h
        simp only [ClassMap.sumOf, List.map_cons, List.sum_cons] at this ⊢
        omega

theorem ClassMap.sumOf_modify (g : TopCommand.Pair → Nat) (key : Nat)
    (f : TopCommand.Pair → TopCommand.Pair) (old : TopCommand.Pair) (m : ClassMap)
    (h : ClassMap.find key m = some old) :
    ClassMap.sumOf g (ClassMap.modify key f m) + g old = ClassMap.sumOf g m + g (f old) := by
  induction m with
  | nil => simp [ClassMap.find] at h
  | cons x rest ih =>
    obtain ⟨k, p⟩ := x
    simp only [ClassMap.find] at h
    simp only [ClassMap.modify]
    by_cases hk : k = key
    · simp only [hk, if_true, Option.some.injEq] at h
      simp only [hk, if_true, ClassMap.sumOf, List.map_cons, List.sum_cons, h]
      omega
    · simp only [hk, if_false] at h
      have := ih h
      simp only [hk, if_false, ClassMap.sumOf, List.map_cons, List.sum_cons] at this ⊢
      omega

theorem wrap64_of_lt (n : Nat) (h : n < 2 ^ 64) : wrap64 n = n := by
  unfold wrap64
  omega

/-- The loop of lines 159-166 from totals `t` that fit 64 bits. -/
theorem TopCommand.totals_foldl (m : ClassMap) (t : TopCommand.Totals)
    (hc : t.total_count < 2 ^ 64) (hs : t.total_shallow < 2 ^ 64)
    (hn : t.total_native < 2 ^ 64) :
    m.foldl
        (fun t value =>
          ({ total_count := wrap64 (t.total_count + value.2.alloc_count),
             total_shallow := wrap64 (t.total_shallow + value.2.shallow_size),
             total_native := wrap64 (t.total_native + value.2.native_size) } :
            TopCommand.Totals)) t
      = ⟨wrap64 (t.total_count + ClassMap.sumOf (fun p => p.alloc_count) m),
         wrap64 (t.total_shallow + ClassMap.sumOf (fun p => p.shallow_size) m),
         wrap64 (t.total_native + ClassMap.sumOf (fun p => p.native_size) m)⟩ := by
  induction m generalizing t with
  | nil =>
    simp only [List.foldl_nil, ClassMap.sumOf, List.map_nil, List.sum_nil, Nat.add_zero]
    rw [wrap64_of_lt _ hc, wrap64_of_lt _ hs, wrap64_of_lt _ hn]
  | cons x rest ih =>
    rw [List.foldl_cons, ih]
    · simp only [ClassMap.sumOf, List.map_cons, List.sum_cons, wrap64]
      congr 1 <;> omega
    · simp only [wrap64]; omega
    · simp only [wrap64]; omega
    · simp only [wrap64]; omega

/-- The totals are the sums of the entries, wrapped to 64 bits. -/
theorem TopCommand.totals_eq (m : ClassMap) :
    TopCommand.totals m
      = ⟨wrap64 (ClassMap.sumOf (fun p => p.alloc_count) m),
         wrap64 (ClassMap.sumOf (fun p => p.shallow_size) m),
         wrap64 (ClassMap.sumOf (fun p => p.native_size) m)⟩ := by
  unfold TopCommand.totals
  rw [TopCommand.totals_foldl m ⟨0, 0, 0⟩ (by simp) (by simp) (by simp)]
  simp

theorem sumSizeOf_append (a b : List Object) :
    sumSizeOf (a ++ b) = sumSizeOf a + sumSizeOf b := by
  simp [sumSizeOf]

theorem nonClassObjects_append (a b : List Object) :
    nonClassObjects (a ++ b) = nonClassObjects a ++ nonClassObjects b := by
  simp [nonClassObjects]

theorem instancesOf_append (c : Nat) (a b : List Object) :
    instancesOf c (a ++ b) = instancesOf c a ++ instancesOf c b := by
  simp [instancesOf]

/-- The instances of one class are among the non-class objects: they are no more, and their
sizes sum to no more. -/
theorem instancesOf_le (c : Nat) (l : List Object) :
    (instancesOf c l).length ≤ (nonClassObjects l).length
    ∧ sumSizeOf (instancesOf c l) ≤ sumSizeOf (nonClassObjects l) := by
  induction l with
  | nil => simp [instancesOf, nonClassObjects, sumSizeOf]
  | cons x rest ih =>
    simp only [instancesOf, nonClassObjects, sumSizeOf] at ih ⊢
    cases hk : x.IsClass <;> by_cases hc : x.GetClass = c <;>
      simp [List.filter_cons, hk, hc] <;> omega

/-- The map groups the objects `seen` by class address. -/
theorem TopCommand.callback_grouped (env : Android) (st : TopCommand.Grouping)
    (seen : List Object) (x : Object)
    (hfind : ∀ c, ClassMap.find c st.classes = TopCommand.expectedEntry c seen)
    (hsorted : (ClassMap.keys st.classes).Pairwise (fun a b => a < b))
    (halloc : ClassMap.sumOf (fun p => p.alloc_count) st.classes
      = (nonClassObjects seen).length)
    (hshallow : ClassMap.sumOf (fun p => p.shallow_size) st.classes
      = sumSizeOf (nonClassObjects seen))
    (hcount : (nonClassObjects (seen ++ [x])).length < 2 ^ 64)
    (hsize : sumSizeOf (nonClassObjects (seen ++ [x])) < 2 ^ 64) :
    (∀ c, ClassMap.find c (TopCommand.callback env st x).classes
        = TopCommand.expectedEntry c (seen ++ [x]))
    ∧ (ClassMap.keys (TopCommand.callback env st x).classes).Pairwise (fun a b => a < b)
    ∧ ClassMap.sumOf (fun p => p.alloc_count) (TopCommand.callback env st x).classes
        = (nonClassObjects (seen ++ [x])).length
    ∧ ClassMap.sumOf (fun p => p.shallow_size) (TopCommand.callback env st x).classes
        = sumSizeOf (nonClassObjects (seen ++ [x])) := by
  have hnote : (TopCommand.noteCleaner env st x).classes = st.classes := by
    unfold TopCommand.noteCleaner
    split_ifs <;> rfl
  unfold TopCommand.callback
  cases hk : x.IsClass with
  | true =>
    have h1 : nonClassObjects (seen ++ [x]) = nonClassObjects seen := by
      simp [nonClassObjects, hk]
    have h2 : ∀ c, instancesOf c (seen ++ [x]) = instancesOf c seen := by
      intro c; simp [instancesOf, hk]
    simp only [if_true, h1]
    refine ⟨?_, hsorted, halloc, hshallow⟩
    intro c
    rw [hfind c]
    unfold TopCommand.expectedEntry
    rw [h2 c]
  | false =>
    have h1 : nonClassObjects (seen ++ [x]) = nonClassObjects seen ++ [x] := by
      simp [nonClassObjects, hk]
    have h2 : ∀ c, instancesOf c (seen ++ [x])
        = if x.GetClass = c then instancesOf c seen ++ [x] else instancesOf c seen := by
      intro c
      by_cases hc : x.GetClass = c <;> simp [instancesOf, hk, hc]
    have hle := instancesOf_le x.GetClass seen
    rw [h1] at hcount hsize
    simp only [List.length_append, List.length_singleton, sumSizeOf_append] at hcount hsize
    have hx : sumSizeOf [x] = x.SizeOf := by simp [sumSizeOf]
    rw [hx] at hsize
    simp only [Bool.false_eq_true, if_false, hnote]
    have hentry := hfind x.GetClass
    cases hf : ClassMap.find x.GetClass st.classes with
    | none =>
      rw [hf] at hentry
      have hnil : instancesOf x.GetClass seen = [] := by
        unfold TopCommand.expectedEntry at hentry
        by_contra hne
        simp [hne] at hentry
      simp only
      refine ⟨?_, ClassMap.keys_insert_sorted _ _ _ hsorted, ?_, ?_⟩
      · intro c
        rw [ClassMap.find_insert _ _ _ _ hf, hfind c]
        unfold TopCommand.expectedEntry
        rw [h2 c]
        by_cases hc : c = x.GetClass
        · subst hc
          simp [hnil, sumSizeOf]
        · simp [hc, Ne.symm hc]
      · rw [ClassMap.sumOf_insert _ _ _ _ hf, halloc, h1]
        simp
      · rw [ClassMap.sumOf_insert _ _ _ _ hf, hshallow, h1, sumSizeOf_append, hx]
    | some old =>
      rw [hf] at hentry
      have hne : instancesOf x.GetClass seen ≠ [] := by
        unfold TopCommand.expectedEntry at hentry
        intro hnil
        simp [hnil] at hentry
      have hold : old = ⟨(instancesOf x.GetClass seen).length,
          sumSizeOf (instancesOf x.GetClass seen), 0⟩ := by
        unfold TopCommand.expectedEntry at hentry
        simp only [hne, if_false, Option.some.injEq] at hentry
        exact hentry
      have hw1 : wrap64 (old.alloc_count + 1) = old.alloc_count + 1 := by
        apply wrap64_of_lt
        rw [hold]
        simp only
        omega
      have hw2 : wrap64 (old.shallow_size + x.SizeOf) = old.shallow_size + x.SizeOf := by
        apply wrap64_of_lt
        rw [hold]
        simp only
        omega
      simp only
      refine ⟨?_, ?_, ?_, ?_⟩
      · intro c
        rw [ClassMap.find_modify, hfind c]
        unfold TopCommand.expectedEntry
        rw [h2 c]
        by_cases hc : c = x.GetClass
        · subst hc
          simp only [if_true, hf, Option.map_some', hw1, hw2]
          rw [hold]
          simp [sumSizeOf_append, hx]
        · simp [hc, Ne.symm hc]
      · rw [ClassMap.keys_modify]
        exact hsorted
      · have := ClassMap.sumOf_modify (fun p => p.alloc_count) x.GetClass
          (fun pair => ⟨wrap64 (pair.alloc_count + 1), wrap64 (pair.shallow_size + x.SizeOf),
            pair.native_size⟩) old st.classes hf
        simp only [hw1] at this
        rw [h1]
        simp only [List.length_append, List.length_singleton]
        omega
      · have := ClassMap.sumOf_modify (fun p => p.shallow_size) x.GetClass
          (fun pair => ⟨wrap64 (pair.alloc_count + 1), wrap64 (pair.shallow_size + x.SizeOf),
            pair.native_size⟩) old st.classes hf
        simp only [hw2] at this
        rw [h1, sumSizeOf_append, hx]
        omega

/-- The walk from a map that groups the objects `seen` leaves a map that groups `seen` and
the objects walked. -/
theorem TopCommand.foldl_grouped (env : Android) (rest seen : List Object)
    (st : TopCommand.Grouping)
    (hfind : ∀ c, ClassMap.find c st.classes = TopCommand.expectedEntry c seen)
    (hsorted : (ClassMap.keys st.classes).Pairwise (fun a b => a < b))
    (halloc : ClassMap.sumOf (fun p => p.alloc_count) st.classes
      = (nonClassObjects seen).length)
    (hshallow : ClassMap.sumOf (fun p => p.shallow_size) st.classes
      = sumSizeOf (nonClassObjects seen))
    (hcount : (nonClassObjects (seen ++ rest)).length < 2 ^ 64)
    (hsize : sumSizeOf (nonClassObjects (seen ++ rest)) < 2 ^ 64) :
    (∀ c, ClassMap.find c (rest.foldl (TopCommand.callback env) st).classes
        = TopCommand.expectedEntry c (seen ++ rest))
    ∧ (ClassMap.keys (rest.foldl (TopCommand.callback env) st).classes).Pairwise
        (fun a b => a < b)
    ∧ ClassMap.sumOf (fun p => p.alloc_count) (rest.foldl (TopCommand.callback env) st).classes
        = (nonClassObjects (seen ++ rest)).length
    ∧ ClassMap.sumOf (fun p => p.shallow_size)
          (rest.foldl (TopCommand.callback env) st).classes
        = sumSizeOf (nonClassObjects (seen ++ rest)) := by
  induction rest generalizing seen st with
  | nil =>
    simp only [List.foldl_nil, List.append_nil]
    exact ⟨hfind, hsorted, halloc, hshallow⟩
  | cons x rest ih =>
    have happ : seen ++ x :: rest = (seen ++ [x]) ++ rest := by simp
    rw [happ] at hcount hsize ⊢
    have hc1 : (nonClassObjects (seen ++ [x])).length < 2 ^ 64 := by
      rw [nonClassObjects_append (seen ++ [x]) rest, List.length_append] at hcount
      omega
    have hs1 : sumSizeOf (nonClassObjects (seen ++ [x])) < 2 ^ 64 := by
      rw [nonClassObjects_append (seen ++ [x]) rest, sumSizeOf_append] at hsize
      omega
    obtain ⟨a, b, c, d⟩ := TopCommand.callback_grouped env st seen x hfind hsorted halloc
      hshallow hc1 hs1
    rw [List.foldl_cons]
    exact ih (seen ++ [x]) (TopCommand.callback env st x) a b c d hcount hsize

theorem ClassMap.counts_modify (key : Nat) (f : TopCommand.Pair → TopCommand.Pair)
    (m : ClassMap)
    (hf : ∀ p, (f p).alloc_count = p.alloc_count ∧ (f p).shallow_size = p.shallow_size) :
    ClassMap.counts (ClassMap.modify key f m) = ClassMap.counts m := by
  induction m with
  | nil => rfl
  | cons x rest ih =>
    obtain ⟨k, p⟩ := x
    simp only [ClassMap.modify]
    by_cases hk : k = key
    · simp [hk, ClassMap.counts, (hf p).1, (hf p).2]
    · simp only [hk, if_false]
      simp only [ClassMap.counts, List.map_cons] at ih ⊢
      rw [ih]

/-- The `try` block of the native-size pass changes no allocation count and no shallow
size. -/
theorem TopCommand.addNative_counts (cleaner : CleanerView) (klass : Nat)
    (classes classes1 : ClassMap)
    (h : TopCommand.addNative cleaner klass classes = .ok classes1) :
    ClassMap.counts classes1 = ClassMap.counts classes := by
  unfold TopCommand.addNative at h
  cases ht : cleaner.getThunk with
  | error e => simp [ht] at h
  | ok thunk =>
    simp only [ht] at h
    by_cases h0 : thunk = 0
    · simp only [h0, if_true, Except.ok.injEq] at h
      rw [← h]
    · simp only [h0, if_false] at h
      cases hr : cleaner.getRegistry with
      | error e => simp [hr] at h
      | ok registry =>
        simp only [hr] at h
        by_cases h1 : registry = 0
        · simp only [h1, if_true, Except.ok.injEq] at h
          rw [← h]
        · simp only [h1, if_false] at h
          cases hs : cleaner.getSize with
          | error e => simp [hs] at h
          | ok size =>
            simp only [hs, Except.ok.injEq] at h
            rw [← h]
            exact ClassMap.counts_modify _ _ _ (fun p => ⟨rfl, rfl⟩)

theorem TopCommand.nativeStep_counts (env : Android) (classes classes1 : ClassMap)
    (object : Object) (h : TopCommand.nativeStep env classes object = .ok classes1) :
    ClassMap.counts classes1 = ClassMap.counts classes := by
  unfold TopCommand.nativeStep at h
  cases hr : (env.Cleaner object.Ptr).getReferent with
  | error e => simp [hr] at h
  | ok referent =>
    simp only [hr] at h
    by_cases h0 : referent = 0
    · simp only [h0, if_true, Except.ok.injEq] at h
      rw [← h]
    · simp only [h0, if_false] at h
      cases hk : (env.Cleaner object.Ptr).klass with
      | error e => simp [hk] at h
      | ok klass =>
        simp only [hk] at h
        cases hf : ClassMap.find klass classes with
        | none =>
          simp only [hf, Except.ok.injEq] at h
          rw [← h]
        | some old =>
          simp only [hf] at h
          cases ha : TopCommand.addNative (env.Cleaner object.Ptr) klass classes with
          | error e =>
            simp only [ha, Except.ok.injEq] at h
            rw [← h]
          | ok c1 =>
            simp only [ha, Except.ok.injEq] at h
            rw [← h]
            exact TopCommand.addNative_counts _ _ _ _ ha

/-- The native-size pass changes no allocation count and no shallow size. -/
theorem TopCommand.nativePass_counts (env : Android) (cleaners : List Object)
    (classes classes1 : ClassMap)
    (h : TopCommand.nativePass env cleaners classes = .ok classes1) :
    ClassMap.counts classes1 = ClassMap.counts classes := by
  induction cleaners generalizing classes with
  | nil =>
    simp only [TopCommand.nativePass, Except.ok.injEq] at h
    rw [← h]
  | cons x rest ih =>
    simp only [TopCommand.nativePass] at h
    cases hs : TopCommand.nativeStep env classes x with
    | error e => simp [hs] at h
    | ok c1 =>
      simp only [hs] at h
      rw [ih c1 h]
      exact TopCommand.nativeStep_counts env classes c1 x hs

theorem ClassMap.sumOf_counts (m : ClassMap) :
    ClassMap.sumOf (fun p => p.alloc_count) m = ((ClassMap.counts m).map (fun e => e.2.1)).sum
    ∧ ClassMap.sumOf (fun p => p.shallow_size) m
        = ((ClassMap.counts m).map (fun e => e.2.2)).sum := by
  simp [ClassMap.sumOf, ClassMap.counts, Function.comp_def]

/-- C14: `TopCommand::main` groups the visited objects by the address of their class. After
the walk the keys of the map are in strictly ascending order, so no address has two entries;
under the address `c` the map holds an entry exactly when some visited non-class object has
its class at `c`, and that entry's `alloc_count` is the number of those objects and its
`shallow_size` the sum of their `SizeOf()`; and when the native-size pass has gone through,
the TOTAL row holds the number of non-class objects visited and the sum of their sizes.
Stated for counters that do not wrap: fewer than `2^64` non-class objects, whose sizes sum to
less than `2^64`. -/
theorem top_groups_by_class (env : Android) (objects : List Object)
    (hcount : (nonClassObjects objects).length < 2 ^ 64)
    (hsize : sumSizeOf (nonClassObjects objects) < 2 ^ 64) :
    (ClassMap.keys (TopCommand.group env objects).classes).Pairwise (fun a b => a < b)
    ∧ (∀ c, ClassMap.find c (TopCommand.group env objects).classes
        = TopCommand.expectedEntry c objects)
    ∧ ∀ classes1,
        TopCommand.nativePass env (TopCommand.group env objects).cleaners
            (TopCommand.group env objects).classes = .ok classes1 →
        (TopCommand.totals classes1).total_count = (nonClassObjects objects).length
        ∧ (TopCommand.totals classes1).total_shallow = sumSizeOf (nonClassObjects objects) := by
  obtain ⟨hfind, hsorted, halloc, hshallow⟩ :=
    TopCommand.foldl_grouped env objects [] TopCommand.Grouping.init
      (by intro c; simp [TopCommand.Grouping.init, ClassMap.find, TopCommand.expectedEntry,
            instancesOf])
      (by simp [TopCommand.Grouping.init, ClassMap.keys])
      (by simp [TopCommand.Grouping.init, ClassMap.sumOf, nonClassObjects])
      (by simp [TopCommand.Grouping.init, ClassMap.sumOf, nonClassObjects, sumSizeOf])
      (by simpa using hcount) (by simpa using hsize)
  simp only [List.nil_append] at hfind hsorted halloc hshallow
  refine ⟨hsorted, hfind, ?_⟩
  intro classes1 hpass
  have halloc1 : ClassMap.sumOf (fun p => p.alloc_count) (TopCommand.group env objects).classes
      = (nonClassObjects objects).length := halloc
  have hshallow1 : ClassMap.sumOf (fun p => p.shallow_size)
      (TopCommand.group env objects).classes = sumSizeOf (nonClassObjects objects) := hshallow
  have hc := TopCommand.nativePass_counts env _ _ _ hpass
  have h1 := ClassMap.sumOf_counts classes1
  have h2 := ClassMap.sumOf_counts (TopCommand.group env objects).classes
  rw [hc] at h1
  rw [TopCommand.totals_eq]
  simp only
  rw [h1.1, ← h2.1, halloc1, h1.2, ← h2.2, hshallow1, wrap64_of_lt _ hcount,
    wrap64_of_lt _ hsize]
  exact ⟨rfl, rfl⟩

/-- Witness of C14 on the example runtime: of the six objects visited five are not classes;
the map has the keys `0x100`, `0x200`, `0x300`, with two instances of `Foo` of 48 bytes in
all under `0x100`, and the TOTAL row counts 5 objects of 160 bytes. -/
theorem top_groups_by_class_witness :
    ClassMap.keys (TopCommand.group demoEnv demoObjects).classes = [0x100, 0x200, 0x300]
    ∧ ClassMap.find 0x100 (TopCommand.group demoEnv demoObjects).classes = some ⟨2, 48, 0⟩
    ∧ TopCommand.expectedEntry 0x100 demoObjects = some ⟨2, 48, 0⟩
    ∧ TopCommand.nativePass demoEnv (TopCommand.group demoEnv demoObjects).cleaners
        (TopCommand.group demoEnv demoObjects).classes = .ok demoClasses
    ∧ (TopCommand.totals demoClasses).total_count = 5
    ∧ (TopCommand.totals demoClasses).total_shallow = 160 :=
  have h := top_groups_by_class demoEnv demoObjects (by decide) (by decide)
  ⟨by decide, (h.2.1 0x100).trans (by decide), by decide, rfl,
    (h.2.2 demoClasses rfl).1.trans (by decide), (h.2.2 demoClasses rfl).2.trans (by decide)⟩

/-- A cleaner whose referent and the class of whose referent can be read never ends the
native-size pass: what the `try` block throws is swallowed. -/
theorem TopCommand.nativeStep_caught (env : Android) (classes : ClassMap) (object : Object)
    (referent klass : Nat)
    (hr : (env.Cleaner object.Ptr).getReferent = .ok referent)
    (hk : (env.Cleaner object.Ptr).klass = .ok klass) :
    ∃ classes1, TopCommand.nativeStep env classes object = .ok classes1 := by
  unfold TopCommand.nativeStep
  simp only [hr, hk]
  split_ifs
  · exact ⟨_, rfl⟩
  · cases ClassMap.find klass classes with
    | none => exact ⟨_, rfl⟩
    | some old =>
      cases TopCommand.addNative (env.Cleaner object.Ptr) klass classes with
      | ok c1 => exact ⟨_, rfl⟩
      | error e => exact ⟨_, rfl⟩

/-- A cleaner whose referent cannot be read, or the class of whose non-null referent cannot
be read, ends the native-size pass with the exception: both reads stand before the `try`. -/
theorem TopCommand.nativeStep_thrown (env : Android) (classes : ClassMap) (object : Object)
    (e : InvalidAddressException) :
    ((env.Cleaner object.Ptr).getReferent = .error e →
      TopCommand.nativeStep env classes object = .error e)
    ∧ (∀ referent, (env.Cleaner object.Ptr).getReferent = .ok referent → referent ≠ 0 →
      (env.Cleaner object.Ptr).klass = .error e →
      TopCommand.nativeStep env classes object = .error e) := by
  constructor
  · intro h
    unfold TopCommand.nativeStep
    simp only [h]
  · intro referent hr h0 hk
    unfold TopCommand.nativeStep
    simp only [hr, h0, if_false, hk]

/-- C16, evaluation of the code at the failing input: `top 10` on the example runtime in
which the referent of the first cleaner (at `0x4000`) points to unmapped memory, while the
second (at `0x4100`) guards 32 native bytes of the `Bar` at `0x3000`. Reading the class of
the referent throws before the `try` block is entered: the pass ends there, `main` ends with
the exception after the header line, and neither the TOTAL row nor any class row is written
(first and second part). The second cleaner alone goes through the pass and gives `Bar` its
32 native bytes (third part), and on the example runtime whose second cleaner fails inside
the `try` block (its thunk cannot be read) the table is written in full (fourth part). -/
theorem stale_referent_aborts_top :
    (TopCommand.main staleCleanerEnv TopCommand.fresh 2 ["top", "10"] []).out
      = [Out.topHeader false]
    ∧ (TopCommand.main staleCleanerEnv TopCommand.fresh 2 ["top", "10"] []).res
      = .error invalidAddress
    ∧ TopCommand.nativePass staleCleanerEnv [⟨0x4100, false, 0x300, 40⟩]
        (TopCommand.group staleCleanerEnv demoObjects).classes
      = .ok [(0x100, ⟨2, 48, 0⟩), (0x200, ⟨1, 32, 32⟩), (0x300, ⟨2, 80, 0⟩)]
    ∧ (TopCommand.main demoEnv TopCommand.fresh 2 ["top", "10"] []).out
      = [Out.topHeader false, Out.topTotal 5 160 64, Out.topRule,
          Out.topRow 0x300 2 80 0 "", Out.topRow 0x100 2 48 64 "", Out.topRow 0x200 1 32 0 ""] := by
  refine ⟨by decide, rfl, rfl, by decide⟩

/-! ## Theorems: the symbol in effect in the window pass -/

/-- A turn at a window that does not differ keeps the symbol in hand. -/
theorem windowStep_fst_of_same (b : LoadBlock) (symbol : NiceSymbol) (k : Nat)
    (hd : windowDiffers b k = false) : (windowStep b symbol k).1 = symbol := by
  unfold windowStep
  simp only [hd, Bool.false_eq_true, if_false]

/-- Without a module handle every turn keeps the symbol in hand and writes no symbol line. -/
theorem windowStep_of_no_handle (b : LoadBlock) (symbol : NiceSymbol) (k : Nat)
    (hf : b.handle = none) :
    (windowStep b symbol k).1 = symbol
    ∧ ∀ name, Line.symbol name ∉ (windowStep b symbol k).2 := by
  unfold windowStep
  generalize current b k = cur
  cases hd : windowDiffers b k with
  | false => simp
  | true =>
    simp only [if_true, hf]
    cases hs : symbolStale symbol cur <;> simp

/-- With a resolver that answers by range, the symbol in hand after the turn at a differing
window is the answer of the resolver for the address of the window, whether it was resolved
in this turn or kept from an earlier one. -/
theorem windowStep_fst_of_differs (b : LoadBlock) (niceMethod : Nat → NiceSymbol)
    (hf : b.handle = some niceMethod) (hres : resolvesByRange niceMethod)
    (symbol : NiceSymbol) (k : Nat)
    (hinv : symbol.valid = true → ∃ a1, symbol = niceMethod a1)
    (hd : windowDiffers b k = true) :
    (windowStep b symbol k).1 = niceMethod (current b k) := by
  unfold windowStep
  generalize current b k = cur
  simp only [hd, if_true, hf]
  cases hs : symbolStale symbol cur with
  | true => simp
  | false =>
    simp only [Bool.false_eq_true, if_false]
    unfold symbolStale at hs
    simp only [Bool.or_eq_false_iff, Bool.not_eq_false', decide_eq_false_iff_not] at hs
    obtain ⟨hv, hlo, hhi⟩ := hs
    obtain ⟨a1, ha1⟩ := hinv hv
    have hmod : (symbol.offset + symbol.size) % 2 ^ 64 ≤ symbol.offset + symbol.size :=
      Nat.mod_le _ _
    have h1 : symbol.offset ≤ cur := by omega
    have h2 : cur < symbol.offset + symbol.size := by omega
    rw [ha1] at hv h1 h2 ⊢
    exact (hres cur a1 hv h1 h2).symm

/-- The symbols in effect along the loop, for a block with a resolver that answers by range
and a symbol in hand that is invalid or an answer of the resolver. -/
theorem symbolsInEffect_of_handle (b : LoadBlock) (niceMethod : Nat → NiceSymbol)
    (hf : b.handle = some niceMethod) (hres : resolvesByRange niceMethod)
    (ks : List Nat) (symbol : NiceSymbol)
    (hinv : symbol.valid = true → ∃ a1, symbol = niceMethod a1) :
    symbolsInEffect b ks symbol = resolveEveryWindow b ks := by
  induction ks generalizing symbol with
  | nil => rfl
  | cons k ks ih =>
    unfold resolveEveryWindow at ih ⊢
    rw [symbolsInEffect]
    cases hd : windowDiffers b k with
    | false =>
      rw [windowStep_fst_of_same b symbol k hd, ih symbol hinv]
      simp [List.filter_cons, hd]
    | true =>
      rw [windowStep_fst_of_differs b niceMethod hf hres symbol k hinv hd,
        ih (niceMethod (current b k)) (fun _ => ⟨_, rfl⟩)]
      simp [List.filter_cons, hd, hf]

/-- The symbols in effect along the loop for a block without a module handle, from an
invalid symbol in hand. -/
theorem symbolsInEffect_of_no_handle (b : LoadBlock) (hf : b.handle = none) (ks : List Nat) :
    symbolsInEffect b ks NiceSymbol.Invalid = resolveEveryWindow b ks := by
  induction ks with
  | nil => rfl
  | cons k ks ih =>
    unfold resolveEveryWindow at ih ⊢
    rw [symbolsInEffect, (windowStep_of_no_handle b NiceSymbol.Invalid k hf).1, ih]
    cases hd : windowDiffers b k <;> simp [List.filter_cons, hd, hf]

/-- Without a module handle the loop writes no symbol line. -/
theorem windowLoop_no_symbol_line (b : LoadBlock) (hf : b.handle = none) (ks : List Nat)
    (symbol : NiceSymbol) (name : String) : Line.symbol name ∉ windowLoop b ks symbol := by
  induction ks generalizing symbol with
  | nil => simp [windowLoop]
  | cons k ks ih =>
    rw [windowLoop, List.mem_append]
    intro h
    rcases h with h | h
    · exact (windowStep_of_no_handle b symbol k hf).2 name h
    · exact ih _ h

/-- The pairs of `symbolsInEffect` stand for the window lines: their addresses are the
address columns of the window lines the loop writes, in the same order. -/
theorem symbolsInEffect_addresses (b : LoadBlock) (ks : List Nat) (symbol : NiceSymbol) :
    (symbolsInEffect b ks symbol).map Prod.fst = windowAddrs (windowLoop b ks symbol) := by
  rw [windowAddrs_windowLoop]
  induction ks generalizing symbol with
  | nil => rfl
  | cons k ks ih =>
    rw [symbolsInEffect, List.map_append, ih]
    cases hd : windowDiffers b k <;> simp [List.filter_cons, hd]

/-- A symbol line the loop writes names a valid answer of the resolver for the address of a
differing window of the loop. -/
theorem windowLoop_symbol_line (b : LoadBlock) (niceMethod : Nat → NiceSymbol)
    (hf : b.handle = some niceMethod) (ks : List Nat) (symbol : NiceSymbol) (name : String)
    (h : Line.symbol name ∈ windowLoop b ks symbol) :
    ∃ k ∈ ks, windowDiffers b k = true ∧ (niceMethod (current b k)).valid = true
      ∧ name = (niceMethod (current b k)).symbol := by
  induction ks generalizing symbol with
  | nil => simp [windowLoop] at h
  | cons k ks ih =>
    rw [windowLoop, List.mem_append] at h
    rcases h with h | h
    · refine ⟨k, List.mem_cons_self _ _, ?_⟩
      unfold windowStep at h
      generalize current b k = cur at h ⊢
      cases hd : windowDiffers b k with
      | false => simp [hd] at h
      | true =>
        simp only [hd, if_true, hf] at h
        cases hs : symbolStale symbol cur with
        | false => simp [hs] at h
        | true =>
          simp only [hs, if_true] at h
          cases hv : (niceMethod cur).valid with
          | false => simp [hv] at h
          | true =>
            simp only [hv, if_true, List.mem_append, List.mem_singleton, Line.symbol.injEq,
              reduceCtorEq, or_false] at h
            exact ⟨rfl, rfl, h⟩
    · obtain ⟨k1, hk1, hrest⟩ := ih _ h
      exact ⟨k1, List.mem_cons_of_mem _ hk1, hrest⟩

theorem oneSymbol_resolvesByRange : resolvesByRange oneSymbol := by
  intro a a1 hv hlo hhi
  unfold oneSymbol at hv hlo hhi ⊢
  by_cases h1 : 0xc000 ≤ a1 ∧ a1 < 0xc020
  · simp only [h1, and_self, if_true] at hv hlo hhi ⊢
    have h : 0xc000 ≤ a ∧ a < 0xc020 := ⟨hlo, by omega⟩
    simp only [h, and_self, if_true]
  · simp [h1, NiceSymbol.Invalid] at hv

/-- C22, as amended: in the window pass of `EnvCommand::clocLoadCRC32`, reusing the symbol
resolved earlier while the address lies in its range gives the same symbols as asking the
resolver for every differing window, provided the resolver answers by range: an address
inside the range `[offset, offset + size)` of a symbol the resolver returns for some address
gets that same symbol. Then, for every list of loop indices, from the invalid symbol the loop
starts with, the symbol in hand when the line of a differing window at address `a` is written
is the answer of the block's resolver (`NiceMethod`) for `a`, and "none" (invalid) for a
block without a module handle (`symbolsInEffect`, from the code, equals
`resolveEveryWindow`, from the specification), and these pairs stand for the window lines
written (first part). A block without a module handle never has a symbol line written
(second part), and with a module a symbol line names a valid answer of the resolver for the
address of a differing window (third part). -/
theorem cached_symbol_is_resolver_answer (b : LoadBlock)
    (hres : ∀ niceMethod, b.handle = some niceMethod → resolvesByRange niceMethod) :
    (∀ ks, symbolsInEffect b ks NiceSymbol.Invalid = resolveEveryWindow b ks
      ∧ (symbolsInEffect b ks NiceSymbol.Invalid).map Prod.fst
          = windowAddrs (windowLoop b ks NiceSymbol.Invalid))
    ∧ (b.handle = none → ∀ name, Line.symbol name ∉ windowPass b)
    ∧ (∀ niceMethod, b.handle = some niceMethod → ∀ name, Line.symbol name ∈ windowPass b →
        ∃ k, windowDiffers b k = true ∧ (niceMethod (current b k)).valid = true
          ∧ name = (niceMethod (current b k)).symbol) := by
  refine ⟨?_, ?_, ?_⟩
  · intro ks
    refine ⟨?_, symbolsInEffect_addresses b ks NiceSymbol.Invalid⟩
    cases hf : b.handle with
    | none => exact symbolsInEffect_of_no_handle b hf ks
    | some niceMethod =>
      exact symbolsInEffect_of_handle b niceMethod hf (hres niceMethod hf) ks NiceSymbol.Invalid
        (fun hv => by simp [NiceSymbol.Invalid] at hv)
  · intro hf name
    exact windowLoop_no_symbol_line b hf _ _ name
  · intro niceMethod hf name h
    obtain ⟨k, _, hk⟩ := windowLoop_symbol_line b niceMethod hf _ _ name h
    exact ⟨k, hk⟩

/-- Witness of C22 as amended: a 64-byte block of a module that knows the symbol `main` at
`[0xc000, 0xc020)`, differing in the windows at `0xc000`, `0xc010` and `0xc030`. The second
window reuses the symbol resolved for the first, the fourth lies outside and gets an invalid
symbol, as the resolver answers for each; `0, 2, 4, 6` are the indices of the pass. -/
theorem cached_symbol_is_resolver_answer_witness :
    symbolsInEffect symbolBlock [0, 2, 4, 6] NiceSymbol.Invalid
      = resolveEveryWindow symbolBlock [0, 2, 4, 6]
    ∧ resolveEveryWindow symbolBlock [0, 2, 4, 6]
      = [(0xc000, ⟨"main", 0xc000, 0x20, true⟩), (0xc010, ⟨"main", 0xc000, 0x20, true⟩),
          (0xc030, NiceSymbol.Invalid)]
    ∧ windowIndices (windowCount symbolBlock) = [0, 2, 4, 6] :=
  ⟨((cached_symbol_is_resolver_answer symbolBlock
      (fun _ hf => Option.some.inj hf ▸ oneSymbol_resolvesByRange)).1 [0, 2, 4, 6]).1,
    by unfold resolveEveryWindow current toInt32; decide,
    by unfold windowCount toInt32 RoundUp; decide⟩

/-! ## Theorems: `LinkMap::name` -/

/-- The second call of `GetNameCache` yields the sub-reference of the first: the snapshot is
read-only, so a field read again and prepared again gives the same reference. -/
theorem LinkMap.GetNameCache_twice (core : CoreApi) (self : LinkMap) :
    ((self.GetNameCache core).GetNameCache core).name_cache
      = (self.GetNameCache core).name_cache := by
  unfold LinkMap.GetNameCache
  by_cases hc : self.name_cache.Ptr = 0
  · by_cases hn : self.l_name = 0
    · simp [hc, hn, MemoryRef.Prepare, MemoryRef.ofPtr]
    · simp [hc, hn, MemoryRef.Prepare, MemoryRef.ofPtr]
  · simp [hc]

/-- C23: `LinkMap::name()` returns the empty string whenever the sub-reference for the
`l_name` target is not ready, and reads through `Real()` only when it is ready. If
`GetNameCache()` is not ready, the result is the literal `""` (first part); if the result is
the pointer `Real()` of a reference, that reference is the sub-reference `GetNameCache()`
yields, it is ready, and it has a block to view (second part). For a reference on which
nothing was cached yet, the result is the literal `""` exactly when the address in `l_name`
does not resolve to a valid block (third part). -/
theorem name_empty_unless_ready (core : CoreApi) (self : LinkMap) :
    ((self.GetNameCache core).name_cache.IsReady = false →
      (self.name core).1 = CharPtr.literal "")
    ∧ (∀ ref, (self.name core).1 = CharPtr.real ref →
        ref = (self.GetNameCache core).name_cache ∧ ref.IsReady = true
        ∧ ref.Real.isSome = true)
    ∧ ∀ ptr l_addr l_name,
        ((LinkMap.ofPtr ptr l_addr l_name).name core).1 = CharPtr.literal ""
          ↔ ¬ ∃ b, core.FindLoadBlock l_name false = some b ∧ b.isValidBlock = true := by
  refine ⟨?_, ?_, ?_⟩
  · intro h
    unfold LinkMap.name
    simp [h]
  · intro ref h
    unfold LinkMap.name at h
    cases hr : (self.GetNameCache core).name_cache.IsReady with
    | false => simp [hr] at h
    | true =>
      simp only [hr, Bool.not_true, Bool.false_eq_true, if_false, CharPtr.real.injEq] at h
      rw [LinkMap.GetNameCache_twice] at h
      rw [← h]
      refine ⟨rfl, hr, ?_⟩
      unfold MemoryRef.IsReady at hr
      unfold MemoryRef.Real
      cases hb : (self.GetNameCache core).name_cache.Block with
      | none => simp [hb] at hr
      | some b => rfl
  · intro ptr l_addr l_name
    have hcache : ((LinkMap.ofPtr ptr l_addr l_name).GetNameCache core).name_cache
        = ⟨l_name, core.FindLoadBlock l_name false⟩ := by
      simp [LinkMap.GetNameCache, LinkMap.ofPtr, MemoryRef.ofPtr, MemoryRef.Prepare]
    unfold LinkMap.name
    rw [hcache]
    unfold MemoryRef.IsReady
    cases hb : core.FindLoadBlock l_name false with
    | none => simp
    | some b => cases hv : b.isValidBlock <;> simp [hv]

/-- Witness of C23: in a core whose only block at `0x9000` is not valid, the name of a link
map whose `l_name` is `0x9010` is the literal `""`; the same holds when `l_name` is unmapped
or null. -/
theorem name_empty_unless_ready_witness :
    ((LinkMap.ofPtr 0x5000 0x7000 0x9010).name ⟨true, [invalidBlock]⟩).1 = CharPtr.literal ""
    ∧ ((LinkMap.ofPtr 0x5000 0x7000 0x5100).name ⟨true, [invalidBlock]⟩).1 = CharPtr.literal ""
    ∧ ((LinkMap.ofPtr 0x5000 0x7000 0).name ⟨true, [invalidBlock]⟩).1 = CharPtr.literal "" :=
  ⟨(name_empty_unless_ready ⟨true, [invalidBlock]⟩ (LinkMap.ofPtr 0x5000 0x7000 0x9010)).1 rfl,
   (name_empty_unless_ready ⟨true, [invalidBlock]⟩ (LinkMap.ofPtr 0x5000 0x7000 0x5100)).1 rfl,
   (name_empty_unless_ready ⟨true, [invalidBlock]⟩ (LinkMap.ofPtr 0x5000 0x7000 0)).1 rfl⟩

/-! ## Theorems: `CommandManager` -/

/-- A loop that overwrites `result` with every element that passes `p` ends on the last such
element, and on the initial `result` when there is none. -/
theorem foldl_overwrite {α : Type} (p : α → Bool) (l : List α) (init : Option α) :
    l.foldl (fun result x => if p x then some x else result) init
      = match (l.filter p).getLast? with
        | some x => some x
        | none => init := by
  induction l generalizing init with
  | nil => rfl
  | cons x xs ih =>
    rw [List.foldl_cons, ih]
    cases hp : p x with
    | false => simp [List.filter_cons, hp]
    | true =>
      simp only [if_true, List.filter_cons, hp, List.getLast?_cons]
      cases (xs.filter p).getLast? <;> rfl

/-- `FindCommand` yields the last command in callback order that goes by `cmd`. -/
theorem CommandManager.FindCommand_eq (mgr : CommandManager) (cmd : String) :
    mgr.FindCommand cmd
      = ((mgr.inline_commands ++ mgr.extend_commands).filter (Command.goesBy cmd)).getLast? := by
  unfold CommandManager.FindCommand CommandManager.ForeachCommand
  have h := foldl_overwrite (Command.goesBy cmd) (mgr.inline_commands ++ mgr.extend_commands)
    none
  unfold Command.goesBy at h ⊢
  rw [h]
  cases ((mgr.inline_commands ++ mgr.extend_commands).filter
    (fun command => command.get == cmd || command.shortcut == cmd)).getLast? <;> rfl

/-- C27: `CommandManager::FindCommand(cmd)` returns null if and only if no registered command
has its name or its shortcut equal to `cmd`; otherwise it returns the last such command in
registration order, inline commands before extension commands. The result is the last
element, among the inline commands followed by the extension commands, of those that go by
`cmd` (first part); it is null exactly when no command has the name or the shortcut `cmd`
(second part); a command that goes by `cmd` and is followed by none that does is the result
(third part); and when a command constructed without a shortcut is registered, the lookup of
the empty string yields a command, one whose name or shortcut is empty (fourth part). -/
theorem FindCommand_last_registered (mgr : CommandManager) (cmd : String) :
    mgr.FindCommand cmd
      = ((mgr.inline_commands ++ mgr.extend_commands).filter (Command.goesBy cmd)).getLast?
    ∧ (mgr.FindCommand cmd = none
        ↔ ∀ c ∈ mgr.inline_commands ++ mgr.extend_commands, c.get ≠ cmd ∧ c.shortcut ≠ cmd)
    ∧ (∀ pre c post, mgr.inline_commands ++ mgr.extend_commands = pre ++ c :: post →
        (c.get = cmd ∨ c.shortcut = cmd) →
        (∀ d ∈ post, d.get ≠ cmd ∧ d.shortcut ≠ cmd) →
        mgr.FindCommand cmd = some c)
    ∧ ∀ name main mainWithCallback,
        Command.ofName name main mainWithCallback
            ∈ mgr.inline_commands ++ mgr.extend_commands →
        ∃ r, mgr.FindCommand "" = some r ∧ (r.get = "" ∨ r.shortcut = "") := by
  refine ⟨CommandManager.FindCommand_eq mgr cmd, ?_, ?_, ?_⟩
  · rw [CommandManager.FindCommand_eq, List.getLast?_eq_none_iff, List.filter_eq_nil_iff]
    simp [Command.goesBy]
  · intro pre c post hsplit hc hpost
    have hcb : Command.goesBy cmd c = true := by
      simpa [Command.goesBy] using hc
    have hpostnil : post.filter (Command.goesBy cmd) = [] := by
      rw [List.filter_eq_nil_iff]
      intro d hd
      have := hpost d hd
      simp [Command.goesBy, this.1, this.2]
    rw [CommandManager.FindCommand_eq, hsplit, List.filter_append, List.filter_cons, hcb,
      if_pos rfl, hpostnil, List.getLast?_append]
    simp
  · intro name main mainWithCallback hmem
    have hne : (mgr.inline_commands ++ mgr.extend_commands).filter (Command.goesBy "") ≠ [] := by
      intro h
      rw [List.filter_eq_nil_iff] at h
      have := h _ hmem
      simp [Command.goesBy, Command.ofName] at this
    rw [CommandManager.FindCommand_eq]
    refine ⟨List.getLast _ hne, List.getLast?_eq_getLast _ hne, ?_⟩
    have hin := List.getLast_mem hne
    rw [List.mem_filter] at hin
    simpa [Command.goesBy] using hin.2

/-- Witness of C27 on the command table of the examples: the print command, registered as
`print` with the shortcut `p`, is what the lookup of `p` yields, and the lookup of a name no
command goes by yields null. -/
theorem FindCommand_last_registered_witness :
    demoManager.FindCommand "p" = some (PrintCommand.command demoEnv)
    ∧ demoManager.FindCommand "top" = none :=
  ⟨(FindCommand_last_registered demoManager "p").2.2.1 [] (PrintCommand.command demoEnv) []
      rfl (Or.inr rfl) (by simp),
   (FindCommand_last_registered demoManager "top").2.1.mpr (by decide)⟩

/-- `Execute` on a registered command is the guarded `try` block: an exception of the block
is answered by its message and the return value 0. -/
theorem CommandManager.Execute_found (mgr : CommandManager) (shell0 : Option Command)
    (position0 : Int) (cmd : String) (command : Command) (argc : Int) (argv : List String)
    (hfind : mgr.FindCommand cmd = some command) :
    mgr.Execute shell0 position0 (some cmd) argc argv
      = Run.bind
          (Run.tryCatch (mgr.tryBlock shell0 position0 command argc argv)
            (fun e => Run.bind (LOGI (Out.cout e.what)) (fun _ => Run.pure none)))
          (fun returned =>
            match returned with
            | some r => Run.pure r
            | none => Run.pure 0) := by
  unfold CommandManager.Execute CommandManager.tryBlock
  simp only [hfind]

/-- C26: an `InvalidAddressException` thrown by a command's `main` never propagates out of
`CommandManager::Execute`. For every command table, every state of the locals and all
arguments, `Execute` ends with a return value, not with an exception (first part); it
returns -1 and writes nothing when `cmd` is null (second part); it writes
`Not found command.`, runs no command and returns 0 when no command is registered under `cmd`
(third part); when the guarded block of a registered command throws, `Execute` has written
what the block wrote and then the message of the exception, and returns 0 (fourth part); in
particular so when, with a null `shell` and no `|` and `>` among the arguments, the `main` of
the command throws (fifth part). -/
theorem Execute_contains_exception (mgr : CommandManager) (shell0 : Option Command)
    (position0 : Int) (cmd : Option String) (argc : Int) (argv : List String) :
    (∃ r, (mgr.Execute shell0 position0 cmd argc argv).res = .ok r)
    ∧ (cmd = none → mgr.Execute shell0 position0 cmd argc argv = ⟨[], .ok (-1)⟩)
    ∧ (∀ c, cmd = some c → mgr.FindCommand c = none →
        mgr.Execute shell0 position0 cmd argc argv
          = ⟨[Out.cout "Not found command."], .ok 0⟩)
    ∧ (∀ c command e, cmd = some c → mgr.FindCommand c = some command →
        (mgr.tryBlock shell0 position0 command argc argv).res = .error e →
        mgr.Execute shell0 position0 cmd argc argv
          = ⟨(mgr.tryBlock shell0 position0 command argc argv).out ++ [Out.cout e.what],
              .ok 0⟩)
    ∧ (∀ c command e, cmd = some c → mgr.FindCommand c = some command →
        shell0 = none → (∀ a ∈ argv, a ≠ "|" ∧ a ≠ ">") →
        (command.main argc argv).res = .error e →
        mgr.Execute shell0 position0 cmd argc argv
          = ⟨(command.main argc argv).out ++ [Out.cout e.what], .ok 0⟩) := by
  refine ⟨?_, ?_, ?_, ?_, ?_⟩
  · cases cmd with
    | none => exact ⟨-1, rfl⟩
    | some c =>
      cases hfind : mgr.FindCommand c with
      | none =>
        refine ⟨0, ?_⟩
        unfold CommandManager.Execute
        simp [hfind, Run.bind, LOGI, Run.pure]
      | some command =>
        rw [CommandManager.Execute_found mgr shell0 position0 c command argc argv hfind]
        cases hb : (mgr.tryBlock shell0 position0 command argc argv).res with
        | error e =>
          refine ⟨0, ?_⟩
          simp [Run.bind, Run.tryCatch, Run.pure, LOGI, hb]
        | ok returned =>
          cases returned with
          | none => exact ⟨0, by simp [Run.bind, Run.tryCatch, Run.pure, hb]⟩
          | some r => exact ⟨r, by simp [Run.bind, Run.tryCatch, Run.pure, hb]⟩
  · intro h
    rw [h]
    rfl
  · intro c hc hfind
    rw [hc]
    unfold CommandManager.Execute
    simp [hfind, Run.bind, LOGI, Run.pure]
  · intro c command e hc hfind hb
    rw [hc, CommandManager.Execute_found mgr shell0 position0 c command argc argv hfind]
    simp [Run.bind, Run.tryCatch, Run.pure, LOGI, hb]
  · intro c command e hc hfind hshell hplain hmain
    rw [hc, hshell]
    exact CommandManager.Execute_catch mgr position0 c command argc argv e hfind hplain hmain

/-- Witness of C26 on the probing command table: the command `faulty` writes a line and
throws; `Execute` writes that line and the message and returns 0. A null `cmd` gives -1, an
unknown one the notice and 0. -/
theorem Execute_contains_exception_witness :
    probeManager.Execute none 0 (some "faulty") 1 ["faulty"]
      = ⟨[Out.cout "reading"] ++ [Out.cout "Invalid address"], .ok 0⟩
    ∧ probeManager.Execute none 0 none 1 ["faulty"] = ⟨[], .ok (-1)⟩
    ∧ probeManager.Execute none 0 (some "nothing") 1 ["nothing"]
      = ⟨[Out.cout "Not found command."], .ok 0⟩ :=
  ⟨(Execute_contains_exception probeManager none 0 (some "faulty") 1 ["faulty"]).2.2.2.2
      "faulty" faultyCommand invalidAddress rfl rfl rfl (by decide) rfl,
   (Execute_contains_exception probeManager none 0 none 1 ["faulty"]).2.1 rfl,
   (Execute_contains_exception probeManager none 0 (some "nothing") 1 ["nothing"]).2.2.1
      "nothing" rfl rfl⟩

/-- The scan of lines 56-72 over arguments whose first `|` or `>` is a `>` followed by another
argument: `position` is the index of that argument and `writeout` is set. -/
theorem CommandManager.scanArgs_redirect (mgr : CommandManager) (pre : List String)
    (file : String) (post : List String) (hpre : ∀ a ∈ pre, a ≠ "|" ∧ a ≠ ">")
    (locals : ExecuteLocals) (fuel i : Nat) (hi : i ≤ pre.length)
    (hfuel : pre.length - i < fuel) :
    mgr.scanArgs ((pre ++ ">" :: file :: post).length : Nat) (pre ++ ">" :: file :: post)
        fuel i locals
      = { locals with position := ((pre.length + 1 : Nat) : Int), writeout := true } := by
  induction fuel generalizing i with
  | zero => omega
  | succ fuel ih =>
    unfold CommandManager.scanArgs
    have hlen : (pre ++ ">" :: file :: post).length = pre.length + 2 + post.length := by
      simp only [List.length_append, List.length_cons]
      omega
    have h1 : ((i : Nat) : Int) < (((pre ++ ">" :: file :: post).length : Nat) : Int) := by
      rw [hlen]
      omega
    simp only [h1, if_true]
    by_cases hlt : i < pre.length
    · have hget : (pre ++ ">" :: file :: post).getD i "" = pre[i] := by
        rw [List.getD_eq_getElem _ _ (by rw [hlen]; omega)]
        exact List.getElem_append_left hlt
      have hne := hpre _ (List.getElem_mem hlt)
      rw [hget, if_neg hne.1, if_neg hne.2]
      exact ih (i + 1) (by omega) (by omega)
    · have hieq : i = pre.length := by omega
      have hget : (pre ++ ">" :: file :: post).getD i "" = ">" := by
        rw [hieq, List.getD_eq_getElem _ _ (by rw [hlen]; omega)]
        simp [List.getElem_append_right]
      have h2 : (((i + 1 : Nat)) : Int) < (((pre ++ ">" :: file :: post).length : Nat) : Int) := by
        rw [hlen]
        omega
      have hbar : (">" : String) ≠ "|" := by decide
      rw [hget, if_neg hbar, if_pos rfl, if_pos h2, hieq]

/-- `Execute` on a registered command with `> FILE` among the arguments (no `|` or `>` before
it) and a null `shell`, when `main` returns both times: the output is redirected, `main` runs
with the arguments before `>`, the redirection ends, and `main` runs again with all
arguments, whose value is returned. -/
theorem CommandManager.Execute_redirect (mgr : CommandManager) (position0 : Int) (cmd : String)
    (command : Command) (pre : List String) (file : String) (post : List String) (r1 r2 : Int)
    (hfind : mgr.FindCommand cmd = some command)
    (hpre : ∀ a ∈ pre, a ≠ "|" ∧ a ≠ ">")
    (h1 : (command.main (pre.length : Nat) (pre ++ ">" :: file :: post)).res = .ok r1)
    (h2 : (command.main ((pre ++ ">" :: file :: post).length : Nat)
      (pre ++ ">" :: file :: post)).res = .ok r2) :
    mgr.Execute none position0 (some cmd) ((pre ++ ">" :: file :: post).length : Nat)
        (pre ++ ">" :: file :: post)
      = ⟨[Out.FreopenWrite file]
          ++ (command.main (pre.length : Nat) (pre ++ ">" :: file :: post)).out
          ++ [Out.CloseWriteout]
          ++ (command.main ((pre ++ ">" :: file :: post).length : Nat)
              (pre ++ ">" :: file :: post)).out, .ok r2⟩ := by
  have hscan := CommandManager.scanArgs_redirect mgr pre file post hpre ⟨none, position0, false⟩
    (pre ++ ">" :: file :: post).length 0 (Nat.zero_le _)
    (by simp only [List.length_append, List.length_cons]; omega)
  have hpos : (((pre.length + 1 : Nat) : Int)).toNat = pre.length + 1 := by omega
  have hnargc : (((pre.length + 1 : Nat) : Int)) - 1 = ((pre.length : Nat) : Int) := by omega
  have hfile : (pre ++ ">" :: file :: post).getD (pre.length + 1) "" = file := by
    rw [List.getD_eq_getElem _ _ (by simp only [List.length_append, List.length_cons]; omega)]
    simp [List.getElem_append_right]
  unfold CommandManager.Execute
  simp only [hfind, Int.toNat_ofNat, hscan, hpos, hnargc, hfile, if_true]
  simp only [Run.bind, Run.tryCatch, Run.pure, LOGI, h1, h2]
  simp

/-- C21, evaluation of the code at the failing input: `Execute("probe", 3, argv)` with
`argv = probe > out.txt` and a null `shell`, where the command `probe` writes the arguments
it is invoked with. The `else if (writeout)` branch of lines 81-86 does not return: after
`main` ran redirected with the one argument before `>` and the redirection was closed, line
87 runs `main` a second time, with all three arguments and the output no longer redirected
(first part: the lines written; second part: the value returned is that of the second run).
Without `>` the same command runs once (third part). -/
theorem redirect_runs_main_twice :
    (probeManager.Execute none 0 (some "probe") 3 ["probe", ">", "out.txt"]).out
      = [Out.FreopenWrite "out.txt", Out.cout "probe", Out.CloseWriteout,
          Out.cout "probe > out.txt"]
    ∧ (probeManager.Execute none 0 (some "probe") 3 ["probe", ">", "out.txt"]).res = .ok 3
    ∧ (probeManager.Execute none 0 (some "probe") 2 ["probe", "x"]).out
      = [Out.cout "probe x"] := by
  refine ⟨by decide, rfl, by decide⟩

/-! ## Theorems: members kept from one invocation to the next -/

/-- The option loop of `top` never clears a bit of `flag`. -/
theorem TopCommand.foldl_flag_ne_zero (env : Android) (opts : List TopOpt) (s : TopCommand)
    (h : s.flag ≠ 0) : (opts.foldl (TopCommand.onOption env) s).flag ≠ 0 := by
  induction opts generalizing s with
  | nil => exact h
  | cons opt rest ih =>
    rw [List.foldl_cons]
    apply ih
    have hor : ∀ x : Nat, s.flag ||| x ≠ 0 := by
      intro x hx
      apply h
      apply Nat.eq_of_testBit_eq
      intro i
      have := congrArg (fun n => n.testBit i) hx
      simp only [Nat.testBit_or, Nat.zero_testBit, Bool.or_eq_false_iff] at this
      simp [this.1]
    cases opt <;> simp only [TopCommand.onOption] <;> first | exact h | exact hor _

/-- An invocation of `top` without a heap option, on a command whose `flag` is not zero,
walks the heaps of that old `flag`: lines 83-87 do not apply. -/
theorem TopCommand.parse_keeps_flag (env : Android) (self : TopCommand) (argv : List String)
    (opts : List TopOpt) (h : self.flag ≠ 0)
    (hopts : ∀ opt ∈ opts, opt ≠ .app ∧ opt ≠ .zygote ∧ opt ≠ .image) :
    (TopCommand.parse env self argv opts).flag = self.flag := by
  have hfold : ∀ (l : List TopOpt) (s : TopCommand),
      (∀ opt ∈ l, opt ≠ .app ∧ opt ≠ .zygote ∧ opt ≠ .image) →
      (l.foldl (TopCommand.onOption env) s).flag = s.flag := by
    intro l
    induction l with
    | nil => intro s _; rfl
    | cons opt rest ih =>
      intro s hl
      rw [List.foldl_cons, ih _ (fun o ho => hl o (List.mem_cons_of_mem _ ho))]
      have := hl opt (List.mem_cons_self _ _)
      cases opt <;> simp_all [TopCommand.onOption]
  unfold TopCommand.parse
  simp only [hfold opts _ hopts, h, if_false]

/-- C24, evaluation of the code at the failing input: on the runtime with three heaps,
`top 10 --app` followed by `top 10` on the same command object. `flag` is a member that
`main` only ors into (lines 72-78) and never clears, and the default of lines 83-87 applies
only while it is zero. After the first invocation `flag` is `EACH_APP_OBJECTS`; the second,
given no heap option, keeps it and walks the app heap only: its table counts 2 objects, where
the same invocation on a command that has not run yet walks all three heaps and counts 4. -/
theorem top_keeps_heaps_of_earlier_run :
    (TopCommand.after heapsEnv TopCommand.fresh 3 ["top", "10", "--app"] [.app]).flag = 1
    ∧ (TopCommand.parse heapsEnv
        (TopCommand.after heapsEnv TopCommand.fresh 3 ["top", "10", "--app"] [.app])
        ["top", "10"] []).flag = 1
    ∧ (TopCommand.parse heapsEnv TopCommand.fresh ["top", "10"] []).flag = 7
    ∧ (TopCommand.main heapsEnv
        (TopCommand.after heapsEnv TopCommand.fresh 3 ["top", "10", "--app"] [.app])
        2 ["top", "10"] []).out
      = [Out.topHeader false, Out.topTotal 2 48 0, Out.topRule, Out.topRow 0x100 2 48 0 ""]
    ∧ (TopCommand.main heapsEnv TopCommand.fresh 2 ["top", "10"] []).out
      = [Out.topHeader false, Out.topTotal 4 112 0, Out.topRule,
          Out.topRow 0x200 2 64 0 "", Out.topRow 0x100 2 48 0 ""] := by
  refine ⟨by decide, by decide, by decide, by decide, by decide⟩

/-- An invocation of `search` with neither `-r` nor `-i` leaves `instof` as the command
object held it: the reset of lines 53-57 does not name it. -/
theorem SearchCommand.parse_keeps_instof (env : Android) (self : SearchCommand)
    (opts : List SearchOpt) (n : Nat) (h : SearchCommand.lastMode opts = none) :
    ((SearchCommand.parse env self opts).during n).instof = self.instof := by
  rw [(SearchCommand.parse_mode env self opts n).2]
  exact ((SearchCommand.foldl_mode env opts _).2.2 h).2

/-- `SearchObjects` changes no member but `total_objects`. -/
theorem SearchCommand.SearchObjects_instof (env : Android) (mgr : CommandManager)
    (shell0 : Option Command) (position0 : Int) (classname : String) (object : Object)
    (self s2 : SearchCommand)
    (hs : (SearchCommand.SearchObjects env mgr shell0 position0 self classname object).res
      = .ok s2) :
    s2.instof = self.instof := by
  unfold SearchCommand.SearchObjects at hs
  simp only [Run.bind_eq, Run.pure_eq] at hs
  split_ifs at hs <;>
    first
    | (simp only [Run.pure, Except.ok.injEq] at hs
       rw [← hs])
    | (cases hx : (SearchCommand.executePrint env mgr shell0 position0
          { self with total_objects := self.total_objects + 1 } object).res <;>
        simp [Run.bind, LOGI, Run.pure, pure, hx] at hs <;> rw [← hs])

/-- The walk changes no member but `total_objects`. -/
theorem SearchCommand.walk_instof (env : Android) (mgr : CommandManager)
    (shell0 : Option Command) (position0 : Int) (classname : String) (objects : List Object)
    (self s1 : SearchCommand)
    (h : (SearchCommand.walk env mgr shell0 position0 classname objects self).res = .ok s1) :
    s1.instof = self.instof := by
  induction objects generalizing self with
  | nil =>
    simp only [SearchCommand.walk, Run.pure, Except.ok.injEq] at h
    rw [← h]
  | cons object rest ih =>
    rw [SearchCommand.walk] at h
    cases hs : (SearchCommand.SearchObjects env mgr shell0 position0 self classname
      object).res with
    | error e =>
      rw [Run.bind_error _ _ e hs] at h
      cases h
    | ok s2 =>
      rw [Run.bind_ok _ _ s2 hs] at h
      rw [ih s2 h]
      exact SearchCommand.SearchObjects_instof env mgr shell0 position0 classname object self
        s2 hs

/-- C25, evaluation of the code at the failing input: on the example runtime,
`search java.lang.Object -i` followed by `search java.lang.Object` on the same command
object. `instof` is a member that `-i` sets and only `-r` clears; the reset of lines 53-57
names `type_flag`, `each_flag`, `regex`, `show` and `format_hex`, not `instof`. The first
invocation leaves it set (first part); the second, given neither `-i` nor `-r`, still has it
set (second part) and reports the two instances of `Foo`, whose descriptor `Foo` differs from
CLASSNAME, because they are instances of `java.lang.Object` (third part); the same invocation
on a command that has not run yet reports nothing (fourth part). -/
theorem search_keeps_instof_of_earlier_run :
    SearchCommand.after demoEnv demoManager none 0 SearchCommand.fresh 3 [.i]
        "java.lang.Object"
      = .ok ⟨3, 15, false, false, false, true, 2⟩
    ∧ (SearchCommand.parse demoEnv ⟨3, 15, false, false, false, true, 2⟩ []).instof = true
    ∧ (SearchCommand.main demoEnv demoManager none 0 ⟨3, 15, false, false, false, true, 2⟩ 2 []
        "java.lang.Object").out
      = [Out.searchMatch 1 0x1000 "Foo", Out.searchMatch 2 0x2000 "Foo"]
    ∧ (SearchCommand.main demoEnv demoManager none 0 SearchCommand.fresh 2 []
        "java.lang.Object").out = [] := by
  refine ⟨rfl, by decide, by decide, by decide⟩

/-- The symbol in hand after the turn at a differing window of a block with a module: the
answer of the resolver when the test of lines 353-355 holds, else the symbol in hand
before. -/
theorem windowStep_fst_eq (b : LoadBlock) (niceMethod : Nat → NiceSymbol)
    (hf : b.handle = some niceMethod) (symbol : NiceSymbol) (k : Nat)
    (hd : windowDiffers b k = true) :
    (windowStep b symbol k).1
      = if symbolStale symbol (current b k) then niceMethod (current b k) else symbol := by
  unfold windowStep
  generalize current b k = cur
  simp only [hd, if_true, hf]
  cases hs : symbolStale symbol cur <;> simp

/-- C22 as stated fails: the resolver `nestedSymbols` returns for each address a symbol whose
range contains it, or an invalid symbol, yet reusing the symbol in hand does not give what
the resolver gives. In the block `nestedBlock` the window at `0xc000` resolves to `outer`,
whose range `[0xc000, 0xc040)` also contains `0xc010` and `0xc030`; the loop keeps `outer`
for the window at `0xc010`, where the resolver answers `inner`. -/
theorem nested_symbol_kept_over_inner :
    answersContainAddress nestedSymbols
    ∧ windowIndices (windowCount nestedBlock) = [0, 2, 4, 6]
    ∧ symbolsInEffect nestedBlock [0, 2, 4, 6] NiceSymbol.Invalid
      = [(0xc000, ⟨"outer", 0xc000, 0x40, true⟩), (0xc010, ⟨"outer", 0xc000, 0x40, true⟩),
          (0xc030, ⟨"outer", 0xc000, 0x40, true⟩)]
    ∧ resolveEveryWindow nestedBlock [0, 2, 4, 6]
      = [(0xc000, ⟨"outer", 0xc000, 0x40, true⟩), (0xc010, ⟨"inner", 0xc010, 0x10, true⟩),
          (0xc030, ⟨"outer", 0xc000, 0x40, true⟩)]
    ∧ symbolsInEffect nestedBlock [0, 2, 4, 6] NiceSymbol.Invalid
      ≠ resolveEveryWindow nestedBlock [0, 2, 4, 6] := by
  have hc : answersContainAddress nestedSymbols := by
    intro a hv
    unfold nestedSymbols at hv ⊢
    by_cases h1 : 0xc010 ≤ a ∧ a < 0xc020
    · simp only [h1, and_self, if_true]
    · by_cases h2 : 0xc000 ≤ a ∧ a < 0xc040
      · simp only [h1, h2, and_self, if_true, if_false]
      · simp [h1, h2, NiceSymbol.Invalid] at hv
  have hs : symbolsInEffect nestedBlock [0, 2, 4, 6] NiceSymbol.Invalid
      = [(0xc000, ⟨"outer", 0xc000, 0x40, true⟩), (0xc010, ⟨"outer", 0xc000, 0x40, true⟩),
          (0xc030, ⟨"outer", 0xc000, 0x40, true⟩)] := by
    have c0 : current nestedBlock 0 = 0xc000 := by unfold current toInt32; decide
    have c2 : current nestedBlock 2 = 0xc010 := by unfold current toInt32; decide
    have c6 : current nestedBlock 6 = 0xc030 := by unfold current toInt32; decide
    have d0 : windowDiffers nestedBlock 0 = true := by decide
    have d2 : windowDiffers nestedBlock 2 = true := by decide
    have d4 : windowDiffers nestedBlock 4 = false := by decide
    have d6 : windowDiffers nestedBlock 6 = true := by decide
    have e0 : (windowStep nestedBlock NiceSymbol.Invalid 0).1 = ⟨"outer", 0xc000, 0x40, true⟩ := by
      rw [windowStep_fst_eq nestedBlock nestedSymbols rfl _ _ d0, c0]
      decide
    have e2 : (windowStep nestedBlock ⟨"outer", 0xc000, 0x40, true⟩ 2).1
        = ⟨"outer", 0xc000, 0x40, true⟩ := by
      rw [windowStep_fst_eq nestedBlock nestedSymbols rfl _ _ d2, c2]
      decide
    have e4 : (windowStep nestedBlock ⟨"outer", 0xc000, 0x40, true⟩ 4).1
        = ⟨"outer", 0xc000, 0x40, true⟩ := windowStep_fst_of_same _ _ _ d4
    have e6 : (windowStep nestedBlock ⟨"outer", 0xc000, 0x40, true⟩ 6).1
        = ⟨"outer", 0xc000, 0x40, true⟩ := by
      rw [windowStep_fst_eq nestedBlock nestedSymbols rfl _ _ d6, c6]
      decide
    rw [symbolsInEffect, e0, symbolsInEffect, e2, symbolsInEffect, e4, symbolsInEffect, e6,
      symbolsInEffect, d0, d2, d4, d6, c0, c2, c6]
    rfl
  have hr : resolveEveryWindow nestedBlock [0, 2, 4, 6]
      = [(0xc000, ⟨"outer", 0xc000, 0x40, true⟩), (0xc010, ⟨"inner", 0xc010, 0x10, true⟩),
          (0xc030, ⟨"outer", 0xc000, 0x40, true⟩)] := by
    unfold resolveEveryWindow current toInt32
    decide
  refine ⟨hc, by unfold windowCount toInt32 RoundUp; decide, hs, hr, ?_⟩
  rw [hs, hr]
  decide

end OpenCore
